import Mathlib

/-!
# HD44780 character-LCD driver for STM32F411: shallow embedding

The C sources embedded here are `src/hd44780.c` (initialisation) and
`src/commands/commands.c` (bus encoder, command protocol, display session).

Modelling conventions.

* `uint8_t` and `uint32_t` values are natural numbers; where the C code can
  overflow, the reduction modulo `2^8` or `2^32` is written out.
* A GPIO port pointer is one of the six ports of the target chip.
* The memory-mapped registers are explicit state. Every store to an output
  data register (`ODR`) is a volatile store; the state keeps the history of
  these stores (`wire`), from which the strobe pulses seen by the display
  controller are computed by `pulses`.
* The state also keeps the history of the arguments of `lcd_send_command`
  (`calls`), so that "which commands were issued" is an observable.
* `pseudo_delay` only consumes time and is the identity on the state.
* Loops with constant bounds are folds over `List.range`; loops whose bound
  depends on data take fuel and return `none` when it runs out.
-/

namespace HD44780

/-! ## Data model (`include/hd44780.h`) -/

/-- The GPIO ports of the STM32F411xE (values of a `GPIO_TypeDef*`). -/
inductive Port where
  | GPIOA | GPIOB | GPIOC | GPIOD | GPIOE | GPIOH
  deriving DecidableEq, Repr

/-- The C enum `lcd_bit_mode`. -/
inductive lcd_bit_mode where
  | FOUR
  | EIGHT
  deriving DecidableEq, Repr

open Port lcd_bit_mode

/-- The C struct `lcd`: cached cursor, bus width and line assignments. -/
structure lcd where
  row : Nat
  column : Nat
  bit_mode : lcd_bit_mode
  data_ports : Fin 8 → Port
  data_pins : Fin 8 → Nat
  rs_port : Port
  rs_pin : Nat
  rw_port : Port
  rw_pin : Nat
  e_port : Port
  e_pin : Nat
  deriving DecidableEq

/-- One volatile store to an output data register: the output registers just
before the store, the port stored to, and the value stored. -/
structure OdrStore where
  before : Port → Nat
  port : Port
  value : Nat

/-- The arguments of one call of `lcd_send_command`. -/
structure Command where
  rs : Nat
  rw : Nat
  command : Nat
  deriving DecidableEq, Repr

/-- The machine state: the session struct `*_lcd`, the registers the driver
touches, and the two histories. -/
structure State where
  dev : lcd
  ODR : Port → Nat
  MODER : Port → Nat
  AHB1ENR : Nat
  wire : List OdrStore
  calls : List Command

/-! ## Register primitives -/

/-- The C expression `~x` converted to `uint32_t`. -/
def not32 (x : Nat) : Nat := (2 ^ 32 - 1) ^^^ (x % 2 ^ 32)

/-- A volatile store of `v` to `port->ODR`. -/
def store_ODR (s : State) (port : Port) (v : Nat) : State :=
  { s with
    ODR := Function.update s.ODR port v
    wire := s.wire ++ [⟨s.ODR, port, v⟩] }

/-- The statement `port->ODR &= ~(1 << pin)`. -/
def odr_clear (s : State) (port : Port) (pin : Nat) : State :=
  store_ODR s port (s.ODR port &&& not32 (1 <<< pin))

/-- The statement `port->ODR |= (v << pin)`. -/
def odr_or (s : State) (port : Port) (pin : Nat) (v : Nat) : State :=
  store_ODR s port ((s.ODR port ||| (v <<< pin)) % 2 ^ 32)

/-! ## `src/commands/commands.c` -/

/-- The constant table `DDRAM_LOOKUP_TABLE[2][16]`. -/
def DDRAM_LOOKUP_TABLE : List (List Nat) :=
  [ [0x00, 0x01, 0x02, 0x03, 0x04, 0x05, 0x06, 0x07,
     0x08, 0x09, 0x0A, 0x0B, 0x0C, 0x0D, 0x0E, 0x0F],
    [0x40, 0x41, 0x42, 0x43, 0x44, 0x45, 0x46, 0x47,
     0x48, 0x49, 0x4A, 0x4B, 0x4C, 0x4D, 0x4E, 0x4F] ]

/-- The read `DDRAM_LOOKUP_TABLE[row][column]`. An index outside the table is
undefined behaviour in C; the model reads 0 there. -/
def ddram (row column : Nat) : Nat :=
  (DDRAM_LOOKUP_TABLE.getD row []).getD column 0

/-- The busy-wait `pseudo_delay`: no effect on the state. -/
def pseudo_delay (s : State) : State := s

/-- The function `send_data_pulse`: E high, delay, E low, delay. -/
def send_data_pulse (s : State) : State :=
  let s1 := odr_or s s.dev.e_port s.dev.e_pin 1
  let s2 := pseudo_delay s1
  let s3 := odr_clear s2 s2.dev.e_port s2.dev.e_pin
  pseudo_delay s3

/-- The function `write_bit_from_command`: clear the pin, then or in bit
`command_bit` of `command`. -/
def write_bit_from_command (s : State) (data_port : Port) (data_pin : Nat)
    (command : Nat) (command_bit : Nat) : State :=
  let s1 := odr_clear s data_port data_pin
  odr_or s1 data_port data_pin ((command >>> command_bit) &&& 1)

/-- The statement `command_bit -= 1` on a 32-bit `size_t`. -/
def size_dec (n : Nat) : Nat := (n + (2 ^ 32 - 1)) % 2 ^ 32

/-- The body shared by the `for` loops of `send_command_4bit` and
`send_command_8bit`, on the pair (state, `command_bit`), for index `i`. -/
def send_bit_step (command : Nat) (acc : State × Nat) (i : Nat) : State × Nat :=
  let idx : Fin 8 := Fin.ofNat i
  (write_bit_from_command acc.1 (acc.1.dev.data_ports idx) (acc.1.dev.data_pins idx)
      command acc.2,
   size_dec acc.2)

/-- The function `send_command_4bit`. -/
def send_command_4bit (s : State) (command : Nat) : State :=
  let a0 : State × Nat := (s, 7)
  let a1 := (List.range 4).foldl (send_bit_step command) a0
  let a2 : State × Nat := (send_data_pulse a1.1, a1.2)
  let a3 := (List.range 4).foldl (send_bit_step command) a2
  send_data_pulse a3.1

/-- The function `send_command_8bit`; its loop runs for `i < 7`. -/
def send_command_8bit (s : State) (command : Nat) : State :=
  let a0 : State × Nat := (s, 7)
  let a1 := (List.range 7).foldl (send_bit_step command) a0
  send_data_pulse a1.1

/-- The function `lcd_reset`. -/
def lcd_reset (s : State) : State :=
  let s := odr_clear s s.dev.rs_port s.dev.rs_pin
  let s := odr_clear s (s.dev.data_ports 0) (s.dev.data_pins 0)
  let s := odr_clear s (s.dev.data_ports 1) (s.dev.data_pins 1)
  let s := odr_or s (s.dev.data_ports 2) (s.dev.data_pins 2) 1
  let s := odr_or s (s.dev.data_ports 3) (s.dev.data_pins 3) 1
  (List.range 3).foldl (fun st _ => send_data_pulse st) s

/-- The function `lcd_enable_4bit_mode`. -/
def lcd_enable_4bit_mode (s : State) : State :=
  let s := odr_clear s s.dev.rs_port s.dev.rs_pin
  let s := odr_clear s (s.dev.data_ports 0) (s.dev.data_pins 0)
  let s := odr_clear s (s.dev.data_ports 1) (s.dev.data_pins 1)
  let s := odr_or s (s.dev.data_ports 2) (s.dev.data_pins 2) 1
  let s := odr_clear s (s.dev.data_ports 3) (s.dev.data_pins 3)
  send_data_pulse s

/-- The function `lcd_send_command`. Its three value parameters are `uint8_t`. -/
def lcd_send_command (s : State) (rs_pin_value rw_pin_value command : Nat) : State :=
  let s := { s with calls := s.calls ++ [⟨rs_pin_value, rw_pin_value, command⟩] }
  let s := odr_clear s s.dev.rs_port s.dev.rs_pin
  let s := odr_or s s.dev.rs_port s.dev.rs_pin rs_pin_value
  let s := odr_clear s s.dev.rw_port s.dev.rw_pin
  let s := odr_or s s.dev.rw_port s.dev.rw_pin rw_pin_value
  match s.dev.bit_mode with
  | lcd_bit_mode.FOUR => send_command_4bit s command
  | lcd_bit_mode.EIGHT => send_command_8bit s command

/-- The function `lcd_enable_cursor`. -/
def lcd_enable_cursor (s : State) : State := lcd_send_command s 0 0 0b00001111

/-- The function `lcd_disable_cursor`. -/
def lcd_disable_cursor (s : State) : State := lcd_send_command s 0 0 0b00001100

/-- The function `lcd_clear_screen`. -/
def lcd_clear_screen (s : State) : State := lcd_send_command s 0 0 0b00000001

/-- The function `lcd_write_char`; `c` is the character code as a byte. -/
def lcd_write_char (s : State) (c : Nat) : State := lcd_send_command s 1 0 c

/-- The C library function `strlen` on the bytes stored from the pointer on:
the number of bytes before the first NUL. -/
def strlen : List Nat → Nat
  | [] => 0
  | c :: cs => if c = 0 then 0 else strlen cs + 1

/-- The loop of `lcd_write_string`, from index `i`. -/
def lcd_write_string_loop (str : List Nat) : Nat → Nat → State → Option State
  | 0, _, _ => none
  | fuel + 1, i, s =>
    if i < strlen str then
      lcd_write_string_loop str fuel (i + 1) (lcd_write_char s (str.getD i 0))
    else some s

/-- The function `lcd_write_string`; `str` lists the bytes stored from the
pointer on, `fuel` bounds the number of loop tests. -/
def lcd_write_string (fuel : Nat) (s : State) (str : List Nat) : Option State :=
  lcd_write_string_loop str fuel 0 s

/-- The function `lcd_shift_cursor_right`. -/
def lcd_shift_cursor_right (s : State) : State := lcd_send_command s 0 0 0b00010100

/-- The function `lcd_shift_cursor_left`. -/
def lcd_shift_cursor_left (s : State) : State := lcd_send_command s 0 0 0b00010000

/-- The function `lcd_set_cursor`. -/
def lcd_set_cursor (s : State) (row column : Nat) : State :=
  let position := (0b10000000 ||| ddram row column) % 2 ^ 8
  let s := { s with dev := { s.dev with row := row } }
  let s := { s with dev := { s.dev with column := column } }
  lcd_send_command s 0 0 position

/-- The function `lcd_backspace`. -/
def lcd_backspace (s : State) : State :=
  if s.dev.column = 0 then s
  else
    let s := { s with dev := { s.dev with column := (s.dev.column + (2 ^ 8 - 1)) % 2 ^ 8 } }
    let s := lcd_write_char s 0x20
    lcd_set_cursor s s.dev.row s.dev.column

/-- The function `lcd_clear_char`. -/
def lcd_clear_char (s : State) (row column : Nat) : State :=
  let s := { s with dev := { s.dev with row := row } }
  let s := { s with dev := { s.dev with column := column } }
  let s := lcd_set_cursor s row column
  let s := lcd_write_char s 0x20
  lcd_set_cursor s row column

/-- The function `lcd_clear_row`; its loop runs for `i < 15`. -/
def lcd_clear_row (s : State) (row : Nat) : State :=
  let s := { s with dev := { s.dev with column := 0 } }
  let s := lcd_set_cursor s row 0
  let s := (List.range 15).foldl (fun st _ => lcd_write_char st 0x20) s
  lcd_set_cursor s row 0

/-- The loop of `lcd_clear_section`, with its `uint8_t` counter `i`. -/
def lcd_clear_section_loop (end_column_index : Nat) : Nat → Nat → State → Option State
  | 0, _, _ => none
  | fuel + 1, i, s =>
    if i ≤ end_column_index then
      lcd_clear_section_loop end_column_index fuel ((i + 1) % 2 ^ 8) (lcd_write_char s 0x20)
    else some s

/-- The function `lcd_clear_section`; `fuel` bounds the number of loop tests. -/
def lcd_clear_section (fuel : Nat) (s : State) (row begin_column_index end_column_index : Nat) :
    Option State :=
  let s := { s with dev := { s.dev with column := begin_column_index } }
  let s := lcd_set_cursor s row begin_column_index
  match lcd_clear_section_loop end_column_index fuel begin_column_index s with
  | none => none
  | some s => some (lcd_set_cursor s row begin_column_index)

/-! ## `src/hd44780.c` -/

/-- The function `gpio_enable_clock`. -/
def gpio_enable_clock (s : State) (data_port : Port) : State :=
  if data_port = Port.GPIOA then { s with AHB1ENR := (s.AHB1ENR ||| (1 <<< 0)) % 2 ^ 32 }
  else if data_port = Port.GPIOB then { s with AHB1ENR := (s.AHB1ENR ||| (1 <<< 1)) % 2 ^ 32 }
  else if data_port = Port.GPIOC then { s with AHB1ENR := (s.AHB1ENR ||| (1 <<< 2)) % 2 ^ 32 }
  else if data_port = Port.GPIOH then { s with AHB1ENR := (s.AHB1ENR ||| (1 <<< 7)) % 2 ^ 32 }
  else s

/-- A store of `v` to `port->MODER`. -/
def store_MODER (s : State) (port : Port) (v : Nat) : State :=
  { s with MODER := Function.update s.MODER port v }

/-- The function `gpio_set_as_output`. -/
def gpio_set_as_output (s : State) (data_port : Port) (data_pin : Nat) : State :=
  let s := store_MODER s data_port (s.MODER data_port &&& not32 (0b11 <<< (2 * data_pin)))
  store_MODER s data_port ((s.MODER data_port ||| (0b01 <<< (2 * data_pin))) % 2 ^ 32)

/-- The body of the `for` loop of `init_gpio`, for index `i`. -/
def init_gpio_step (st : State) (i : Nat) : State :=
  let idx : Fin 8 := Fin.ofNat i
  let st := gpio_enable_clock st (st.dev.data_ports idx)
  gpio_set_as_output st (st.dev.data_ports idx) (st.dev.data_pins idx)

/-- The function `init_gpio`. -/
def init_gpio (s : State) (bit_length : Nat) : State :=
  let s := (List.range bit_length).foldl init_gpio_step s
  let s := gpio_enable_clock s s.dev.rs_port
  let s := gpio_set_as_output s s.dev.rs_port s.dev.rs_pin
  let s := gpio_enable_clock s s.dev.rw_port
  let s := gpio_set_as_output s s.dev.rw_port s.dev.rw_pin
  let s := gpio_enable_clock s s.dev.e_port
  gpio_set_as_output s s.dev.e_port s.dev.e_pin

/-- The body of the copy loop of `lcd_init`, for index `i`: the statements
`_lcd->data_ports[i] = data_ports[i]` and `_lcd->data_pins[i] = data_pins[i]`. -/
def copy_line_step (data_ports : Fin 8 → Port) (data_pins : Fin 8 → Nat)
    (st : State) (i : Nat) : State :=
  let idx : Fin 8 := Fin.ofNat i
  let ports := Function.update st.dev.data_ports idx (data_ports idx)
  let st := { st with dev := { st.dev with data_ports := ports } }
  let pins := Function.update st.dev.data_pins idx (data_pins idx)
  { st with dev := { st.dev with data_pins := pins } }

/-- The function `lcd_init`. The caller's arrays hold `bit_length` entries;
entries of the struct beyond them keep their previous contents. -/
def lcd_init (s : State) (data_ports : Fin 8 → Port) (data_pins : Fin 8 → Nat)
    (rs_port : Port) (rs_pin : Nat) (rw_port : Port) (rw_pin : Nat)
    (e_port : Port) (e_pin : Nat) (bit_mode : lcd_bit_mode) : State :=
  let s := { s with dev := { s.dev with row := 0 } }
  let s := { s with dev := { s.dev with column := 0 } }
  let s := { s with dev := { s.dev with bit_mode := bit_mode } }
  let bit_length := if bit_mode = lcd_bit_mode.FOUR then 4 else 8
  let s := (List.range bit_length).foldl (copy_line_step data_ports data_pins) s
  let s := { s with dev := { s.dev with rs_port := rs_port } }
  let s := { s with dev := { s.dev with rs_pin := rs_pin } }
  let s := { s with dev := { s.dev with rw_port := rw_port } }
  let s := { s with dev := { s.dev with rw_pin := rw_pin } }
  let s := { s with dev := { s.dev with e_port := e_port } }
  let s := { s with dev := { s.dev with e_pin := e_pin } }
  let s := init_gpio s bit_length
  let s := lcd_reset s
  let s := if s.dev.bit_mode = lcd_bit_mode.FOUR then lcd_enable_4bit_mode s else s
  lcd_clear_screen s

/-! ## Observations on the wire -/

/-- An output line: a port and a pin of it. -/
structure Line where
  port : Port
  pin : Nat
  deriving DecidableEq, Repr

/-- The level of a line in a snapshot of the output registers. -/
def level (m : Port → Nat) (l : Line) : Bool := (m l.port).testBit l.pin

/-- The output registers right after a store. -/
def OdrStore.after (w : OdrStore) : Port → Nat := Function.update w.before w.port w.value

/-- The strobe pulses on line `e` in a history of stores: for every store at
which `e` falls from high to low, the output registers while `e` was high. -/
def pulses (e : Line) (wire : List OdrStore) : List (Port → Nat) :=
  wire.filterMap (fun w =>
    if level w.before e && !level w.after e then some w.before else none)

/-- The output registers while E is high during `send_data_pulse`. -/
def strobeSnapshot (s : State) : Port → Nat := (odr_or s s.dev.e_port s.dev.e_pin 1).ODR

/-- Data line `i` of the session (0 is D7, 7 is D0). -/
def dataLine (d : lcd) (i : Fin 8) : Line := ⟨d.data_ports i, d.data_pins i⟩

/-- The RS line of the session. -/
def rsLine (d : lcd) : Line := ⟨d.rs_port, d.rs_pin⟩

/-- The RW line of the session. -/
def rwLine (d : lcd) : Line := ⟨d.rw_port, d.rw_pin⟩

/-- The E (strobe) line of the session. -/
def eLine (d : lcd) : Line := ⟨d.e_port, d.e_pin⟩

/-- The value on the first `n` data lines, data line 0 most significant. -/
def busValue (d : lcd) (n : Nat) (m : Port → Nat) : Nat :=
  (List.range n).foldl (fun acc i => 2 * acc + (level m (dataLine d (Fin.ofNat i))).toNat) 0

/-- The lines of the session that the bus uses: RS, RW, E and the first `n`
data lines. -/
def sessionLines (d : lcd) (n : Nat) : List Line :=
  [rsLine d, rwLine d, eLine d] ++ (List.range n).map (fun i => dataLine d (Fin.ofNat i))

/-- Well-formed line assignment for an `n`-line bus: every pin is a pin of a
16-pin GPIO port and the lines are pairwise distinct. -/
def WellFormed (d : lcd) (n : Nat) : Prop :=
  (∀ l ∈ sessionLines d n, l.pin < 16) ∧ (sessionLines d n).Nodup

instance (d : lcd) (n : Nat) : Decidable (WellFormed d n) := by
  unfold WellFormed; exact inferInstance

/-! ## Vocabulary of the properties -/

/-- What a snapshot `m` taken right after a bit loop over the first `n` data
lines (starting at bit `k` of `c`, from registers `m0`) shows. -/
def LoopSnapshot (d : lcd) (n k c : Nat) (m0 m : Port → Nat) : Prop :=
  (∀ i : Fin 8, i.val < n → level m (dataLine d i) = c.testBit (k - i.val)) ∧
  (∀ l : Line, l.pin < 32 → l ≠ eLine d → (∀ i : Fin 8, i.val < n → l ≠ dataLine d i) →
    level m l = level m0 l)

/-- The levels of the first `n` data lines, data line 0 (D7) first. -/
def busLevels (d : lcd) (n : Nat) (m : Port → Nat) : List Bool :=
  (List.range n).map (fun i => level m (dataLine d (Fin.ofNat i)))

/-- The state of `lcd_send_command` when it reaches its `switch`: the call is
recorded and the RS and RW lines are driven. -/
def send_prelude (s : State) (rs_pin_value rw_pin_value command : Nat) : State :=
  let s := { s with calls := s.calls ++ [⟨rs_pin_value, rw_pin_value, command⟩] }
  let s := odr_clear s s.dev.rs_port s.dev.rs_pin
  let s := odr_or s s.dev.rs_port s.dev.rs_pin rs_pin_value
  let s := odr_clear s s.dev.rw_port s.dev.rw_pin
  odr_or s s.dev.rw_port s.dev.rw_pin rw_pin_value

/-- A session in 8-line mode: D7..D0 on pins 0..7 of port A, RS, RW and E on
pins 0, 1, 2 of port B. -/
def dev8 : lcd :=
  { row := 0, column := 0, bit_mode := EIGHT,
    data_ports := fun _ => GPIOA, data_pins := fun i => i.val,
    rs_port := GPIOB, rs_pin := 0, rw_port := GPIOB, rw_pin := 1,
    e_port := GPIOB, e_pin := 2 }

/-- A session in 4-line mode: D7..D4 on pins 0..3 of port A, RS, RW and E on
pins 0, 1, 2 of port B. -/
def dev4 : lcd := { dev8 with bit_mode := FOUR }

/-- A machine state around session `d` with all registers zero and empty
histories. -/
def idle (d : lcd) : State :=
  { dev := d, ODR := fun _ => 0, MODER := fun _ => 0, AHB1ENR := 0, wire := [], calls := [] }

/-- The state of `lcd_reset` when it reaches its pulse loop: RS, D7, D6 are
cleared and D5, D4 are set. -/
def reset_prelude (s : State) : State :=
  let s := odr_clear s s.dev.rs_port s.dev.rs_pin
  let s := odr_clear s (s.dev.data_ports 0) (s.dev.data_pins 0)
  let s := odr_clear s (s.dev.data_ports 1) (s.dev.data_pins 1)
  let s := odr_or s (s.dev.data_ports 2) (s.dev.data_pins 2) 1
  odr_or s (s.dev.data_ports 3) (s.dev.data_pins 3) 1

/-- The state of `lcd_enable_4bit_mode` when it reaches its pulse. -/
def enable_prelude (s : State) : State :=
  let s := odr_clear s s.dev.rs_port s.dev.rs_pin
  let s := odr_clear s (s.dev.data_ports 0) (s.dev.data_pins 0)
  let s := odr_clear s (s.dev.data_ports 1) (s.dev.data_pins 1)
  let s := odr_or s (s.dev.data_ports 2) (s.dev.data_pins 2) 1
  odr_clear s (s.dev.data_ports 3) (s.dev.data_pins 3)

/-- What the controller sees at a strobe pulse on a 4-line bus: the RS level
and the levels of D7..D4. -/
def latch4 (d : lcd) (m : Port → Nat) : Bool × List Bool :=
  (level m (rsLine d), busLevels d 4 m)

/-- The session struct that `lcd_init` leaves behind: cursor (0,0), the given
bus width and control lines, the first `n` data lines taken from the caller's
arrays and the remaining entries as they were in `d`. -/
def initial_session (d : lcd) (n : Nat) (data_ports : Fin 8 → Port) (data_pins : Fin 8 → Nat)
    (rs_port : Port) (rs_pin : Nat) (rw_port : Port) (rw_pin : Nat)
    (e_port : Port) (e_pin : Nat) (bit_mode : lcd_bit_mode) : lcd :=
  { row := 0, column := 0, bit_mode := bit_mode,
    data_ports := fun j => if j.val < n then data_ports j else d.data_ports j,
    data_pins := fun j => if j.val < n then data_pins j else d.data_pins j,
    rs_port := rs_port, rs_pin := rs_pin, rw_port := rw_port, rw_pin := rw_pin,
    e_port := e_port, e_pin := e_pin }

/-- The session `d` with its first `n` data lines replaced by the caller's. -/
def copied_lines (d : lcd) (n : Nat) (data_ports : Fin 8 → Port) (data_pins : Fin 8 → Nat) :
    lcd :=
  { d with
    data_ports := fun j => if j.val < n then data_ports j else d.data_ports j
    data_pins := fun j => if j.val < n then data_pins j else d.data_pins j }

/-- The state of `lcd_init` after its field assignments, before `init_gpio`. -/
def init_fields (s : State) (data_ports : Fin 8 → Port) (data_pins : Fin 8 → Nat)
    (rs_port : Port) (rs_pin : Nat) (rw_port : Port) (rw_pin : Nat)
    (e_port : Port) (e_pin : Nat) (bit_mode : lcd_bit_mode) : State :=
  { s with
    dev := initial_session s.dev (if bit_mode = lcd_bit_mode.FOUR then 4 else 8)
      data_ports data_pins rs_port rs_pin rw_port rw_pin e_port e_pin bit_mode }

/-- The part of the state that is not an output data register or a history:
the session struct and the configuration registers. -/
def Frame (s s' : State) : Prop :=
  s'.dev = s.dev ∧ s'.MODER = s.MODER ∧ s'.AHB1ENR = s.AHB1ENR

/-- The cursor-range predicate: cached row in {0,1}, cached column in [0,15]. -/
def CursorOK (d : lcd) : Prop := d.row ≤ 1 ∧ d.column ≤ 15

/-- The data write of the space character. -/
def spaceWrite : Command := ⟨1, 0, 0x20⟩

/-- The instruction that `lcd_set_cursor` sends for (row, column). -/
def cursorInstr (row column : Nat) : Command :=
  ⟨0, 0, (0b10000000 ||| ddram row column) % 2 ^ 8⟩

/-- The session state `s` with the cached cursor set to (row, column). -/
def with_cursor (s : State) (row column : Nat) : State :=
  { s with dev := { s.dev with row := row, column := column } }

instance (d : lcd) : Decidable (CursorOK d) := by
  unfold CursorOK; exact inferInstance

/-- The number of data lines of a bus width (`bit_length` in `lcd_init`). -/
def dataWidth (m : lcd_bit_mode) : Nat :=
  match m with
  | lcd_bit_mode.FOUR => 4
  | lcd_bit_mode.EIGHT => 8

/-- The mode lines in a snapshot of the output registers: the RS level and the
RW level. -/
def modeLevels (d : lcd) (m : Port → Nat) : Bool × Bool :=
  (level m (rsLine d), level m (rwLine d))

/-- The step from `s` to `s'` is one transmission with mode lines `lv`: it adds
two strobe pulses in FOUR mode and one in EIGHT mode, and the RS and RW lines
show `lv` at each of them and in the final registers. -/
def Transmits (s s' : State) (lv : Bool × Bool) : Prop :=
  ∃ ps : List (Port → Nat),
    pulses (eLine s.dev) s'.wire = pulses (eLine s.dev) s.wire ++ ps ∧
    ps.map (modeLevels s.dev)
      = List.replicate (match s.dev.bit_mode with
          | lcd_bit_mode.FOUR => 2
          | lcd_bit_mode.EIGHT => 1) lv ∧
    modeLevels s.dev s'.ODR = lv

/-- The display controller, reduced to what properties about cell contents
need: its address pointer and the cells written so far, as (address,
character) pairs in order. -/
structure Controller where
  pointer : Nat
  written : List (Nat × Nat)
  deriving DecidableEq, Repr

/-- The controller's reaction to one command: a data write (RS = 1) stores the
character at the address pointer and advances the pointer by one; an
instruction with bit 7 set (the set-DDRAM-address instruction that
`lcd_set_cursor` sends) sets the pointer to the low seven bits; other
instructions are not modelled and leave the pointer alone. -/
def controller_step (k : Controller) (cmd : Command) : Controller :=
  if cmd.rs = 1 then
    { pointer := k.pointer + 1, written := k.written ++ [(k.pointer, cmd.command)] }
  else if cmd.command.testBit 7 then { k with pointer := cmd.command % 128 }
  else k

/-- The controller's reaction to a sequence of commands. -/
def controller_run (k : Controller) (cmds : List Command) : Controller :=
  cmds.foldl controller_step k

/-- What a relation `R` between the state before and after a piece of
commands.c must provide so that it extends from the register primitives to
every operation: it is reflexive and transitive, it ignores changes of the
cached cursor and of the call history, it holds for the three register
primitives on the lines `Tgt` that the driver may write, and the session's RS,
RW and data lines are such lines; `Pre` is what the primitives need of a
state, and steps preserve it. -/
structure WireRel (Pre : State → Prop) (Tgt : State → Line → Prop)
    (R : State → State → Prop) : Prop where
  refl : ∀ s, R s s
  trans : ∀ a b c, R a b → R b c → R a c
  pre : ∀ s s', Pre s → R s s' → Pre s'
  cursor : ∀ s row column, R s (with_cursor s row column)
  log : ∀ s cmd, R s { s with calls := s.calls ++ [cmd] }
  clear : ∀ s t, Pre s → Tgt s t → R s (odr_clear s t.port t.pin)
  or_ : ∀ s t v, Pre s → Tgt s t → v ≤ 1 → R s (odr_or s t.port t.pin v)
  pulse : ∀ s, Pre s → R s (send_data_pulse s)
  tgt_rs : ∀ s, Pre s → Tgt s (rsLine s.dev)
  tgt_rw : ∀ s, Pre s → Tgt s (rwLine s.dev)
  tgt_data : ∀ s i, Pre s → i.val < dataWidth s.dev.bit_mode → Tgt s (dataLine s.dev i)

/-- The line assignment and bus width of a session, without the cached
cursor. -/
def lineCfg (d : lcd) : lcd := { d with row := 0, column := 0 }

/-- The lines of the session that its bus width uses: RS, RW, E and the first
4 (FOUR) or 8 (EIGHT) data lines. -/
def busLines (d : lcd) : List Line := sessionLines d (dataWidth d.bit_mode)

/-- Port frame between two states: same line assignment, and every output
register bit (bits 0..31 of every port) that is not a bus line of the session
has the same value. -/
def PortFrame (s s' : State) : Prop :=
  lineCfg s'.dev = lineCfg s.dev ∧
  ∀ l : Line, l.pin < 32 → l ∉ busLines s.dev → level s'.ODR l = level s.ODR l

/-- A store changes no output register bit other than line `e`. -/
def OnlyLine (e : Line) (w : OdrStore) : Prop :=
  ∀ l : Line, l.pin < 32 → l ≠ e → level w.after l = level w.before l

/-- Strobe discipline of a sequence of stores that starts with `e` low: every
store either happens while `e` is low and leaves it low, or it raises `e`,
changing nothing else, and is immediately followed by the store that lowers
`e` again, changing nothing else. -/
def Disciplined (e : Line) : List OdrStore → Prop
  | [] => True
  | [w] => level w.before e = false ∧ level w.after e = false
  | w :: w' :: rest =>
    (level w.before e = false ∧ level w.after e = false ∧ Disciplined e (w' :: rest)) ∨
    (level w.before e = false ∧ level w.after e = true ∧ OnlyLine e w ∧
      level w'.before e = true ∧ level w'.after e = false ∧ OnlyLine e w' ∧
      Disciplined e rest)

/-- Strobe discipline between two states: same line assignment, and if E is
low in `s`, the stores made from `s` to `s'` are disciplined and E is low in
`s'`. -/
def StrobeStep (s s' : State) : Prop :=
  lineCfg s'.dev = lineCfg s.dev ∧
  (level s.ODR (eLine s.dev) = false →
    ∃ seg : List OdrStore, s'.wire = s.wire ++ seg ∧ Disciplined (eLine s.dev) seg ∧
      level s'.ODR (eLine s.dev) = false)

/-- The relation `R` holds between a state `s` and the state after each
operation of commands.c called on it: the three protocol operations, the
instruction and data operations, and the cursor and clearing helpers; the two
operations with data-dependent loops return some state. -/
def AllOps (R : State → State → Prop) (s : State)
    (rs rw cmd c row column b e fuel : Nat) (str : List Nat) : Prop :=
  R s (lcd_send_command s rs rw cmd) ∧
  R s (lcd_reset s) ∧
  R s (lcd_enable_4bit_mode s) ∧
  R s (lcd_enable_cursor s) ∧
  R s (lcd_disable_cursor s) ∧
  R s (lcd_clear_screen s) ∧
  R s (lcd_write_char s c) ∧
  (∃ s' : State, lcd_write_string fuel s str = some s' ∧ R s s') ∧
  R s (lcd_shift_cursor_right s) ∧
  R s (lcd_shift_cursor_left s) ∧
  R s (lcd_set_cursor s row column) ∧
  R s (lcd_backspace s) ∧
  R s (lcd_clear_char s row column) ∧
  R s (lcd_clear_row s row) ∧
  (∃ s' : State, lcd_clear_section fuel s row b e = some s' ∧ R s s')

/-- The stores made from `s` to `s'` keep the strobe discipline and leave E
low. -/
def StrobeRun (s s' : State) : Prop :=
  ∃ seg : List OdrStore, s'.wire = s.wire ++ seg ∧ Disciplined (eLine s.dev) seg ∧
    level s'.ODR (eLine s.dev) = false

/-- The E line is a pin of a 16-pin GPIO port and is distinct from the RS
line, the RW line and every data line of the bus width. -/
def StrobeFree (d : lcd) : Prop :=
  d.e_pin < 16 ∧ rsLine d ≠ eLine d ∧ rwLine d ≠ eLine d ∧
  ∀ i : Fin 8, i.val < dataWidth d.bit_mode → dataLine d i ≠ eLine d

instance (d : lcd) : Decidable (StrobeFree d) := by
  unfold StrobeFree; exact inferInstance

/-- A session in 4-line mode with pairwise distinct lines in which E sits on
the pin right above RS: D7..D4 on pins 0..3 of port A, RW, RS, E on pins 0, 1,
2 of port B. -/
def dev4_rs_below_e : lcd :=
  { dev4 with rs_port := GPIOB, rs_pin := 1, rw_port := GPIOB, rw_pin := 0,
              e_port := GPIOB, e_pin := 2 }

/-! ## Bit-level lemmas for the register primitives -/

theorem testBit_one_eq (k : Nat) : Nat.testBit 1 k = decide (k = 0) := by
  have h := @Nat.testBit_two_pow 0 k
  simp only [Nat.pow_zero] at h
  rw [h]
  by_cases hk : k = 0 <;> simp [hk, eq_comm]

theorem testBit_not32_one_shl (pin i : Nat) (hi : i < 32) :
    (not32 (1 <<< pin)).testBit i = !decide (i = pin) := by
  unfold not32
  rw [Nat.testBit_xor, Nat.testBit_two_pow_sub_one, Nat.testBit_mod_two_pow,
    Nat.testBit_shiftLeft, testBit_one_eq]
  by_cases h : i = pin
  · subst h; simp [hi]
  · by_cases h2 : pin ≤ i
    · have : i - pin ≠ 0 := by omega
      simp [hi, h, h2, this]
    · simp [hi, h, h2]

theorem testBit_bit_shl (c k pin i : Nat) :
    (((c >>> k) &&& 1) <<< pin).testBit i = (decide (i = pin) && c.testBit k) := by
  rw [Nat.testBit_shiftLeft, Nat.testBit_and, testBit_one_eq]
  by_cases h : i = pin
  · subst h; simp [Nat.testBit_shiftRight]
  · by_cases h2 : pin ≤ i
    · have : i - pin ≠ 0 := by omega
      simp [h, h2, this]
    · simp [h, h2]

theorem testBit_one_shl (pin i : Nat) :
    ((1 : Nat) <<< pin).testBit i = decide (i = pin) := by
  rw [Nat.one_shiftLeft, Nat.testBit_two_pow]
  by_cases h : i = pin
  · simp [h]
  · have h2 : ¬ pin = i := fun e => h e.symm
    simp [h, h2]

theorem testBit_or_mod (x y i : Nat) (hi : i < 32) :
    ((x ||| y) % 2 ^ 32).testBit i = (x.testBit i || y.testBit i) := by
  rw [Nat.testBit_mod_two_pow, Nat.testBit_or]
  simp [hi]

theorem line_eq_iff (l : Line) (p : Port) (pin : Nat) :
    l = ⟨p, pin⟩ ↔ l.port = p ∧ l.pin = pin := by
  cases l; simp

theorem level_odr_clear (s : State) (p : Port) (pin : Nat) (l : Line) (hl : l.pin < 32) :
    level (odr_clear s p pin).ODR l = (level s.ODR l && !decide (l = ⟨p, pin⟩)) := by
  unfold level odr_clear store_ODR
  by_cases hp : l.port = p
  · subst hp
    simp [Function.update_same, Nat.testBit_and, testBit_not32_one_shl _ _ hl, line_eq_iff]
  · simp [Function.update_noteq hp, line_eq_iff, hp]

theorem level_odr_or_bit (s : State) (p : Port) (pin c k : Nat) (l : Line) (hl : l.pin < 32) :
    level (odr_or s p pin ((c >>> k) &&& 1)).ODR l
      = (level s.ODR l || (decide (l = ⟨p, pin⟩) && c.testBit k)) := by
  unfold level odr_or store_ODR
  by_cases hp : l.port = p
  · subst hp
    simp only [Function.update_same, testBit_or_mod _ _ _ hl, testBit_bit_shl, line_eq_iff,
      true_and]
  · simp [Function.update_noteq hp, line_eq_iff, hp]

theorem level_odr_or_one (s : State) (p : Port) (pin : Nat) (l : Line) (hl : l.pin < 32) :
    level (odr_or s p pin 1).ODR l = (level s.ODR l || decide (l = ⟨p, pin⟩)) := by
  unfold level odr_or store_ODR
  by_cases hp : l.port = p
  · subst hp
    simp only [Function.update_same, testBit_or_mod _ _ _ hl, testBit_one_shl, line_eq_iff,
      true_and]
  · simp [Function.update_noteq hp, line_eq_iff, hp]

theorem level_odr_or_mono (s : State) (p : Port) (pin v : Nat) (l : Line) (hl : l.pin < 32)
    (h : level s.ODR l = true) : level (odr_or s p pin v).ODR l = true := by
  unfold level odr_or store_ODR at *
  by_cases hp : l.port = p
  · subst hp
    simp only [Function.update_same, testBit_or_mod _ _ _ hl, h, Bool.true_or]
  · simpa [Function.update_noteq hp] using h

theorem level_odr_or_le_one (s : State) (p : Port) (pin v : Nat) (l : Line) (hl : l.pin < 32)
    (hv : v ≤ 1) :
    level (odr_or s p pin v).ODR l = (level s.ODR l || (decide (l = ⟨p, pin⟩) && decide (v = 1))) := by
  rcases Nat.le_one_iff_eq_zero_or_eq_one.1 hv with h | h
  · subst h
    have : odr_or s p pin 0 = odr_or s p pin ((0 >>> 0) &&& 1) := rfl
    rw [this, level_odr_or_bit s p pin 0 0 l hl]
    simp
  · subst h
    rw [level_odr_or_one s p pin l hl]
    simp

/-! ## Fields that the register primitives leave alone -/

@[simp] theorem odr_clear_dev (s : State) (p : Port) (pin : Nat) :
    (odr_clear s p pin).dev = s.dev := rfl

@[simp] theorem odr_or_dev (s : State) (p : Port) (pin v : Nat) :
    (odr_or s p pin v).dev = s.dev := rfl

@[simp] theorem odr_clear_calls (s : State) (p : Port) (pin : Nat) :
    (odr_clear s p pin).calls = s.calls := rfl

@[simp] theorem odr_or_calls (s : State) (p : Port) (pin v : Nat) :
    (odr_or s p pin v).calls = s.calls := rfl

/-! ## Strobe pulses of the register primitives -/

theorem pulses_append (e : Line) (w1 w2 : List OdrStore) :
    pulses e (w1 ++ w2) = pulses e w1 ++ pulses e w2 := by
  simp [pulses, List.filterMap_append]

theorem pulses_store_ODR (s : State) (p : Port) (v : Nat) (e : Line) :
    pulses e (store_ODR s p v).wire
      = pulses e s.wire
        ++ (if level s.ODR e && !level (store_ODR s p v).ODR e then [s.ODR] else []) := by
  have hw : (store_ODR s p v).wire = s.wire ++ [⟨s.ODR, p, v⟩] := rfl
  rw [hw, pulses_append]
  congr 1
  have hafter : (OdrStore.mk s.ODR p v).after = (store_ODR s p v).ODR := rfl
  by_cases h : (level s.ODR e && !level (store_ODR s p v).ODR e) = true
  · rw [if_pos h]
    unfold pulses
    rw [List.filterMap_cons_some (b := s.ODR)]
    · rfl
    · rw [hafter]; exact if_pos h
  · rw [if_neg h]
    unfold pulses
    rw [List.filterMap_cons_none]
    · rfl
    · rw [hafter]; exact if_neg h

theorem pulses_odr_or (s : State) (p : Port) (pin v : Nat) (e : Line) (he : e.pin < 32) :
    pulses e (odr_or s p pin v).wire = pulses e s.wire := by
  unfold odr_or
  rw [pulses_store_ODR]
  cases h : level s.ODR e
  · simp
  · have h2 := level_odr_or_mono s p pin v e he h
    unfold odr_or at h2
    rw [h2]
    simp

theorem pulses_odr_clear (s : State) (p : Port) (pin : Nat) (e : Line) (he : e.pin < 32) :
    pulses e (odr_clear s p pin).wire
      = pulses e s.wire ++ (if level s.ODR e && decide (e = ⟨p, pin⟩) then [s.ODR] else []) := by
  have h2 := level_odr_clear s p pin e he
  unfold odr_clear at h2 ⊢
  rw [pulses_store_ODR, h2]
  congr 1
  cases h : level s.ODR e <;> by_cases h3 : e = ⟨p, pin⟩ <;> simp [h3]

theorem pulses_odr_clear_ne (s : State) (p : Port) (pin : Nat) (e : Line) (he : e.pin < 32)
    (hne : e ≠ ⟨p, pin⟩) : pulses e (odr_clear s p pin).wire = pulses e s.wire := by
  rw [pulses_odr_clear s p pin e he]
  simp [hne]

/-! ## `write_bit_from_command` -/

@[simp] theorem write_bit_from_command_dev (s : State) (p : Port) (pin c k : Nat) :
    (write_bit_from_command s p pin c k).dev = s.dev := rfl

@[simp] theorem write_bit_from_command_calls (s : State) (p : Port) (pin c k : Nat) :
    (write_bit_from_command s p pin c k).calls = s.calls := rfl

theorem level_write_bit_from_command (s : State) (p : Port) (pin c k : Nat) (l : Line)
    (hl : l.pin < 32) :
    level (write_bit_from_command s p pin c k).ODR l
      = if l = ⟨p, pin⟩ then c.testBit k else level s.ODR l := by
  unfold write_bit_from_command
  simp only []
  rw [level_odr_or_bit _ _ _ _ _ _ hl, level_odr_clear _ _ _ _ hl]
  by_cases h : l = ⟨p, pin⟩ <;> simp [h]

theorem pulses_write_bit_from_command (s : State) (p : Port) (pin c k : Nat) (e : Line)
    (he : e.pin < 32) (hne : e ≠ ⟨p, pin⟩) :
    pulses e (write_bit_from_command s p pin c k).wire = pulses e s.wire := by
  unfold write_bit_from_command
  simp only []
  rw [pulses_odr_or _ _ _ _ _ he, pulses_odr_clear_ne _ _ _ _ he hne]

/-! ## `send_data_pulse` -/

@[simp] theorem send_data_pulse_dev (s : State) : (send_data_pulse s).dev = s.dev := rfl

@[simp] theorem send_data_pulse_calls (s : State) : (send_data_pulse s).calls = s.calls := rfl

theorem level_strobeSnapshot (s : State) (l : Line) (hl : l.pin < 32) :
    level (strobeSnapshot s) l = (level s.ODR l || decide (l = eLine s.dev)) := by
  unfold strobeSnapshot
  rw [level_odr_or_one _ _ _ _ hl]
  rfl

theorem level_send_data_pulse (s : State) (l : Line) (hl : l.pin < 32) :
    level (send_data_pulse s).ODR l = (level s.ODR l && !decide (l = eLine s.dev)) := by
  unfold send_data_pulse pseudo_delay
  simp only [odr_or_dev]
  rw [level_odr_clear _ _ _ _ hl, level_odr_or_one _ _ _ _ hl]
  by_cases h : l = eLine s.dev
  · have h2 : l = ⟨s.dev.e_port, s.dev.e_pin⟩ := h
    simp [h2, eLine]
  · have h2 : ¬ l = ⟨s.dev.e_port, s.dev.e_pin⟩ := h
    simp [h2, eLine]

theorem pulses_send_data_pulse (s : State) (he : s.dev.e_pin < 32) :
    pulses (eLine s.dev) (send_data_pulse s).wire
      = pulses (eLine s.dev) s.wire ++ [strobeSnapshot s] := by
  unfold send_data_pulse pseudo_delay
  simp only [odr_or_dev]
  have he2 : (eLine s.dev).pin < 32 := he
  rw [pulses_odr_clear _ _ _ _ he2, pulses_odr_or _ _ _ _ _ he2,
    level_odr_or_one _ _ _ _ he2]
  simp [eLine, strobeSnapshot]

/-! ## The bit loops of `send_command_4bit` and `send_command_8bit` -/

theorem ofNat_val (i : Fin 8) : (Fin.ofNat i.val : Fin 8) = i :=
  Fin.ext (Nat.mod_eq_of_lt i.isLt)

theorem foldl_range_succ {α : Type} (f : α → Nat → α) (a : α) (n : Nat) :
    (List.range (n + 1)).foldl f a = f ((List.range n).foldl f a) n := by
  rw [List.range_succ, List.foldl_append]
  rfl

theorem send_bits_dev (c : Nat) (n : Nat) (s : State) (k : Nat) :
    ((List.range n).foldl (send_bit_step c) (s, k)).1.dev = s.dev := by
  induction n with
  | zero => rfl
  | succ n ih => rw [foldl_range_succ]; simpa [send_bit_step] using ih

theorem send_bits_calls (c : Nat) (n : Nat) (s : State) (k : Nat) :
    ((List.range n).foldl (send_bit_step c) (s, k)).1.calls = s.calls := by
  induction n with
  | zero => rfl
  | succ n ih => rw [foldl_range_succ]; simpa [send_bit_step] using ih

theorem send_bits_counter (c : Nat) (n : Nat) (s : State) (k : Nat) (hn : n ≤ k)
    (hk : k < 2 ^ 32) :
    ((List.range n).foldl (send_bit_step c) (s, k)).2 = k - n := by
  induction n with
  | zero => rfl
  | succ n ih =>
    rw [foldl_range_succ]
    have h := ih (by omega)
    simp only [send_bit_step, h, size_dec]
    norm_num at hk ⊢
    omega

theorem send_bits_pulses (c : Nat) (n : Nat) (s : State) (k : Nat) (e : Line) (he : e.pin < 32)
    (hne : ∀ i : Fin 8, i.val < n → e ≠ dataLine s.dev i) :
    pulses e ((List.range n).foldl (send_bit_step c) (s, k)).1.wire = pulses e s.wire := by
  induction n with
  | zero => rfl
  | succ n ih =>
    rw [foldl_range_succ]
    have h := ih (fun i hi => hne i (by omega))
    simp only [send_bit_step, send_bits_dev]
    rw [pulses_write_bit_from_command _ _ _ _ _ _ he, h]
    by_cases hn : n < 8
    · have := hne ⟨n, hn⟩ (by simp)
      have h8 : (Fin.ofNat n : Fin 8) = ⟨n, hn⟩ := Fin.ext (Nat.mod_eq_of_lt hn)
      rw [h8]
      exact this
    · have := hne (Fin.ofNat n) (by
        have : (Fin.ofNat n : Fin 8).val < 8 := (Fin.ofNat n : Fin 8).isLt
        omega)
      exact this

theorem send_bits_level_other (c : Nat) (n : Nat) (s : State) (k : Nat) (l : Line)
    (hl : l.pin < 32) (hne : ∀ i : Fin 8, i.val < n → l ≠ dataLine s.dev i) :
    level ((List.range n).foldl (send_bit_step c) (s, k)).1.ODR l = level s.ODR l := by
  induction n with
  | zero => rfl
  | succ n ih =>
    rw [foldl_range_succ]
    have h := ih (fun i hi => hne i (by omega))
    simp only [send_bit_step, send_bits_dev]
    rw [level_write_bit_from_command _ _ _ _ _ _ hl, h]
    have hn' : l ≠ dataLine s.dev (Fin.ofNat n) := by
      by_cases hn : n < 8
      · have h8 : (Fin.ofNat n : Fin 8) = ⟨n, hn⟩ := Fin.ext (Nat.mod_eq_of_lt hn)
        rw [h8]
        exact hne ⟨n, hn⟩ (by simp)
      · exact hne (Fin.ofNat n) (by
          have : (Fin.ofNat n : Fin 8).val < 8 := (Fin.ofNat n : Fin 8).isLt
          omega)
    have hn2 : ¬ l = ⟨s.dev.data_ports (Fin.ofNat n), s.dev.data_pins (Fin.ofNat n)⟩ := hn'
    rw [if_neg hn2]

theorem send_bits_level_data (c : Nat) (n : Nat) (s : State) (k : Nat) (hn : n ≤ k + 1)
    (hn8 : n ≤ 8) (hk : k < 2 ^ 32)
    (hpin : ∀ i : Fin 8, i.val < n → s.dev.data_pins i < 32)
    (hinj : ∀ i j : Fin 8, i.val < n → j.val < n → dataLine s.dev i = dataLine s.dev j → i = j)
    (i : Fin 8) (hi : i.val < n) :
    level ((List.range n).foldl (send_bit_step c) (s, k)).1.ODR (dataLine s.dev i)
      = c.testBit (k - i.val) := by
  induction n with
  | zero => omega
  | succ n ih =>
    rw [foldl_range_succ]
    simp only [send_bit_step, send_bits_dev]
    have hl : (dataLine s.dev i).pin < 32 := hpin i hi
    rw [level_write_bit_from_command _ _ _ _ _ _ hl, send_bits_counter c n s k (by omega) hk]
    have hn' : n < 8 := by omega
    have h8 : (Fin.ofNat n : Fin 8) = ⟨n, hn'⟩ := Fin.ext (Nat.mod_eq_of_lt hn')
    rw [h8]
    by_cases hin : i.val = n
    · have : i = ⟨n, hn'⟩ := Fin.ext hin
      subst this
      have hpos : dataLine s.dev ⟨n, hn'⟩
          = ⟨s.dev.data_ports ⟨n, hn'⟩, s.dev.data_pins ⟨n, hn'⟩⟩ := rfl
      rw [if_pos hpos]
    · have hne : ¬ dataLine s.dev i = dataLine s.dev ⟨n, hn'⟩ := by
        intro heq
        have := hinj i ⟨n, hn'⟩ hi (by simp) heq
        exact hin (by rw [this])
      have hne2 : ¬ dataLine s.dev i
          = ⟨s.dev.data_ports ⟨n, hn'⟩, s.dev.data_pins ⟨n, hn'⟩⟩ := hne
      rw [if_neg hne2]
      exact ih (by omega) (by omega) (fun j hj => hpin j (by omega))
        (fun a b ha hb => hinj a b (by omega) (by omega)) (by omega)

/-! ## Consequences of a well-formed line assignment -/

theorem dataLine_mem_sessionLines (d : lcd) (n : Nat) (i : Fin 8) (hi : i.val < n) :
    dataLine d i ∈ sessionLines d n := by
  unfold sessionLines
  refine List.mem_append_right _ (List.mem_map.2 ⟨i.val, List.mem_range.2 hi, ?_⟩)
  rw [ofNat_val]

theorem WellFormed.rs_pin {d : lcd} {n : Nat} (h : WellFormed d n) : d.rs_pin < 16 :=
  h.1 (rsLine d) (by simp [sessionLines])

theorem WellFormed.rw_pin {d : lcd} {n : Nat} (h : WellFormed d n) : d.rw_pin < 16 :=
  h.1 (rwLine d) (by simp [sessionLines])

theorem WellFormed.e_pin {d : lcd} {n : Nat} (h : WellFormed d n) : d.e_pin < 16 :=
  h.1 (eLine d) (by simp [sessionLines])

theorem WellFormed.data_pin {d : lcd} {n : Nat} (h : WellFormed d n) (i : Fin 8)
    (hi : i.val < n) : d.data_pins i < 16 :=
  h.1 (dataLine d i) (dataLine_mem_sessionLines d n i hi)

theorem WellFormed.rs_ne_rw {d : lcd} {n : Nat} (h : WellFormed d n) : rsLine d ≠ rwLine d := by
  have := h.2
  simp only [sessionLines, List.cons_append, List.nil_append, List.nodup_cons, List.mem_cons,
    not_or] at this
  exact this.1.1

theorem WellFormed.rs_ne_e {d : lcd} {n : Nat} (h : WellFormed d n) : rsLine d ≠ eLine d := by
  have := h.2
  simp only [sessionLines, List.cons_append, List.nil_append, List.nodup_cons, List.mem_cons,
    not_or] at this
  exact this.1.2.1

theorem WellFormed.rw_ne_e {d : lcd} {n : Nat} (h : WellFormed d n) : rwLine d ≠ eLine d := by
  have := h.2
  simp only [sessionLines, List.cons_append, List.nil_append, List.nodup_cons, List.mem_cons,
    not_or] at this
  exact this.2.1.1

theorem WellFormed.data_ne_rs {d : lcd} {n : Nat} (h : WellFormed d n) (i : Fin 8)
    (hi : i.val < n) : rsLine d ≠ dataLine d i := by
  have := h.2
  simp only [sessionLines, List.cons_append, List.nil_append, List.nodup_cons, List.mem_cons,
    not_or] at this
  intro heq
  apply this.1.2.2
  rw [heq]
  exact List.mem_map.2 ⟨i.val, List.mem_range.2 hi, by rw [ofNat_val]⟩

theorem WellFormed.data_ne_rw {d : lcd} {n : Nat} (h : WellFormed d n) (i : Fin 8)
    (hi : i.val < n) : rwLine d ≠ dataLine d i := by
  have := h.2
  simp only [sessionLines, List.cons_append, List.nil_append, List.nodup_cons, List.mem_cons,
    not_or] at this
  intro heq
  apply this.2.1.2
  rw [heq]
  exact List.mem_map.2 ⟨i.val, List.mem_range.2 hi, by rw [ofNat_val]⟩

theorem WellFormed.data_ne_e {d : lcd} {n : Nat} (h : WellFormed d n) (i : Fin 8)
    (hi : i.val < n) : eLine d ≠ dataLine d i := by
  have := h.2
  simp only [sessionLines, List.cons_append, List.nil_append, List.nodup_cons, List.mem_cons,
    not_or] at this
  intro heq
  apply this.2.2.1
  rw [heq]
  exact List.mem_map.2 ⟨i.val, List.mem_range.2 hi, by rw [ofNat_val]⟩

theorem WellFormed.data_inj {d : lcd} {n : Nat} (h : WellFormed d n) (i j : Fin 8)
    (hi : i.val < n) (hj : j.val < n) (heq : dataLine d i = dataLine d j) : i = j := by
  have := h.2
  simp only [sessionLines, List.cons_append, List.nil_append, List.nodup_cons, List.mem_cons,
    not_or] at this
  have hinj := List.inj_on_of_nodup_map this.2.2.2 (List.mem_range.2 hi) (List.mem_range.2 hj)
    (by rw [ofNat_val, ofNat_val]; exact heq)
  exact Fin.ext hinj

theorem WellFormed.mono {d : lcd} {n m : Nat} (h : WellFormed d n) (hm : m ≤ n) :
    WellFormed d m := by
  have hsub : List.Sublist (sessionLines d m) (sessionLines d n) := by
    unfold sessionLines
    refine List.Sublist.append (List.Sublist.refl _) (List.Sublist.map _ ?_)
    exact List.range_sublist.2 hm
  exact ⟨fun l hl => h.1 l (hsub.subset hl), h.2.sublist hsub⟩

/-! ## `send_command_4bit` and `send_command_8bit` on the wire -/

theorem send_command_4bit_eq (s : State) (c : Nat) :
    send_command_4bit s c
      = send_data_pulse ((List.range 4).foldl (send_bit_step c)
          (send_data_pulse ((List.range 4).foldl (send_bit_step c) (s, 7)).1,
           ((List.range 4).foldl (send_bit_step c) (s, 7)).2)).1 := rfl

theorem send_command_8bit_eq (s : State) (c : Nat) :
    send_command_8bit s c
      = send_data_pulse ((List.range 7).foldl (send_bit_step c) (s, 7)).1 := rfl

theorem send_command_4bit_dev (s : State) (c : Nat) :
    (send_command_4bit s c).dev = s.dev := by
  rw [send_command_4bit_eq, send_data_pulse_dev, send_bits_dev, send_data_pulse_dev,
    send_bits_dev]

theorem send_command_8bit_dev (s : State) (c : Nat) :
    (send_command_8bit s c).dev = s.dev := by
  rw [send_command_8bit_eq, send_data_pulse_dev, send_bits_dev]

theorem send_command_4bit_calls (s : State) (c : Nat) :
    (send_command_4bit s c).calls = s.calls := by
  rw [send_command_4bit_eq, send_data_pulse_calls, send_bits_calls, send_data_pulse_calls,
    send_bits_calls]

theorem send_command_8bit_calls (s : State) (c : Nat) :
    (send_command_8bit s c).calls = s.calls := by
  rw [send_command_8bit_eq, send_data_pulse_calls, send_bits_calls]

theorem loopSnapshot_after_bits (c n k : Nat) (s : State) (hwf : WellFormed s.dev n)
    (hn : n ≤ k + 1) (hn8 : n ≤ 8) (hk : k < 2 ^ 32) :
    LoopSnapshot s.dev n k c s.ODR
      (strobeSnapshot ((List.range n).foldl (send_bit_step c) (s, k)).1) := by
  constructor
  · intro i hi
    have hp : (dataLine s.dev i).pin < 32 := by
      have := hwf.data_pin i hi
      show s.dev.data_pins i < 32
      omega
    rw [level_strobeSnapshot _ _ hp, send_bits_dev]
    have hne : ¬ dataLine s.dev i = eLine s.dev := fun h => hwf.data_ne_e i hi h.symm
    rw [decide_eq_false hne, Bool.or_false]
    exact send_bits_level_data c n s k hn hn8 hk
      (fun j hj => by have := hwf.data_pin j hj; omega)
      (fun a b ha hb => hwf.data_inj a b ha hb) i hi
  · intro l hl hle hld
    rw [level_strobeSnapshot _ _ hl, send_bits_dev, decide_eq_false hle, Bool.or_false]
    exact send_bits_level_other c n s k l hl hld


theorem pulses_bits_then_pulse (c n k : Nat) (s : State) (hwf : WellFormed s.dev n) :
    pulses (eLine s.dev)
        (send_data_pulse ((List.range n).foldl (send_bit_step c) (s, k)).1).wire
      = pulses (eLine s.dev) s.wire
        ++ [strobeSnapshot ((List.range n).foldl (send_bit_step c) (s, k)).1] := by
  have he : s.dev.e_pin < 32 := by have := hwf.e_pin; omega
  have hne : ∀ i : Fin 8, i.val < n → eLine s.dev ≠ dataLine s.dev i :=
    fun i hi => hwf.data_ne_e i hi
  have e1 := pulses_send_data_pulse ((List.range n).foldl (send_bit_step c) (s, k)).1
    (by rw [send_bits_dev]; exact he)
  rw [send_bits_dev] at e1
  rw [e1, send_bits_pulses c n s k (eLine s.dev) he hne]

theorem level_bits_then_pulse (c n k : Nat) (s : State) (l : Line) (hl : l.pin < 32)
    (hle : l ≠ eLine s.dev) (hld : ∀ i : Fin 8, i.val < n → l ≠ dataLine s.dev i) :
    level (send_data_pulse ((List.range n).foldl (send_bit_step c) (s, k)).1).ODR l
      = level s.ODR l := by
  rw [level_send_data_pulse _ _ hl, send_bits_dev, decide_eq_false hle, Bool.not_false,
    Bool.and_true]
  exact send_bits_level_other c n s k l hl hld

theorem send_command_4bit_spec (s : State) (c : Nat) (hwf : WellFormed s.dev 4) :
    ∃ m1 m2 : Port → Nat,
      pulses (eLine s.dev) (send_command_4bit s c).wire
        = pulses (eLine s.dev) s.wire ++ [m1, m2] ∧
      LoopSnapshot s.dev 4 7 c s.ODR m1 ∧ LoopSnapshot s.dev 4 3 c s.ODR m2 := by
  have hk1 : ((List.range 4).foldl (send_bit_step c) (s, 7)).2 = 3 := by
    rw [send_bits_counter c 4 s 7 (by omega) (by norm_num)]
  have hd2 : (send_data_pulse ((List.range 4).foldl (send_bit_step c) (s, 7)).1).dev = s.dev := by
    rw [send_data_pulse_dev, send_bits_dev]
  have hwf2 : WellFormed
      (send_data_pulse ((List.range 4).foldl (send_bit_step c) (s, 7)).1).dev 4 := by
    rw [hd2]; exact hwf
  refine ⟨strobeSnapshot ((List.range 4).foldl (send_bit_step c) (s, 7)).1,
    strobeSnapshot ((List.range 4).foldl (send_bit_step c)
      (send_data_pulse ((List.range 4).foldl (send_bit_step c) (s, 7)).1, 3)).1, ?_, ?_, ?_⟩
  · rw [send_command_4bit_eq, hk1]
    have e2 := pulses_bits_then_pulse c 4 3 _ hwf2
    rw [hd2] at e2
    rw [e2, pulses_bits_then_pulse c 4 7 s hwf, List.append_assoc]
    rfl
  · exact loopSnapshot_after_bits c 4 7 s hwf (by omega) (by omega) (by norm_num)
  · have h := loopSnapshot_after_bits c 4 3 _ hwf2 (by omega) (by omega) (by norm_num)
    rw [hd2] at h
    refine ⟨h.1, fun l hl hle hld => ?_⟩
    rw [h.2 l hl hle hld]
    exact level_bits_then_pulse c 4 7 s l hl hle hld

theorem send_command_8bit_spec (s : State) (c : Nat) (hwf : WellFormed s.dev 7) :
    ∃ m : Port → Nat,
      pulses (eLine s.dev) (send_command_8bit s c).wire
        = pulses (eLine s.dev) s.wire ++ [m] ∧
      LoopSnapshot s.dev 7 7 c s.ODR m := by
  refine ⟨strobeSnapshot ((List.range 7).foldl (send_bit_step c) (s, 7)).1, ?_, ?_⟩
  · rw [send_command_8bit_eq]
    exact pulses_bits_then_pulse c 7 7 s hwf
  · exact loopSnapshot_after_bits c 7 7 s hwf (by omega) (by omega) (by norm_num)

/-! ## `lcd_send_command` -/

theorem lcd_send_command_four (s : State) (rs rw c : Nat) (h : s.dev.bit_mode = FOUR) :
    lcd_send_command s rs rw c = send_command_4bit (send_prelude s rs rw c) c := by
  have h2 : (send_prelude s rs rw c).dev.bit_mode = FOUR := h
  show (match (send_prelude s rs rw c).dev.bit_mode with
    | lcd_bit_mode.FOUR => send_command_4bit (send_prelude s rs rw c) c
    | lcd_bit_mode.EIGHT => send_command_8bit (send_prelude s rs rw c) c) = _
  rw [h2]

theorem lcd_send_command_eight (s : State) (rs rw c : Nat) (h : s.dev.bit_mode = EIGHT) :
    lcd_send_command s rs rw c = send_command_8bit (send_prelude s rs rw c) c := by
  have h2 : (send_prelude s rs rw c).dev.bit_mode = EIGHT := h
  show (match (send_prelude s rs rw c).dev.bit_mode with
    | lcd_bit_mode.FOUR => send_command_4bit (send_prelude s rs rw c) c
    | lcd_bit_mode.EIGHT => send_command_8bit (send_prelude s rs rw c) c) = _
  rw [h2]

@[simp] theorem send_prelude_dev (s : State) (rs rw c : Nat) :
    (send_prelude s rs rw c).dev = s.dev := rfl

@[simp] theorem send_prelude_calls (s : State) (rs rw c : Nat) :
    (send_prelude s rs rw c).calls = s.calls ++ [⟨rs, rw, c⟩] := rfl

@[simp] theorem lcd_send_command_dev (s : State) (rs rw c : Nat) :
    (lcd_send_command s rs rw c).dev = s.dev := by
  cases h : s.dev.bit_mode
  · rw [lcd_send_command_four s rs rw c h, send_command_4bit_dev, send_prelude_dev]
  · rw [lcd_send_command_eight s rs rw c h, send_command_8bit_dev, send_prelude_dev]

@[simp] theorem lcd_send_command_calls (s : State) (rs rw c : Nat) :
    (lcd_send_command s rs rw c).calls = s.calls ++ [⟨rs, rw, c⟩] := by
  cases h : s.dev.bit_mode
  · rw [lcd_send_command_four s rs rw c h, send_command_4bit_calls, send_prelude_calls]
  · rw [lcd_send_command_eight s rs rw c h, send_command_8bit_calls, send_prelude_calls]

theorem pulses_send_prelude (s : State) (rs rw c : Nat) {n : Nat} (hwf : WellFormed s.dev n) :
    pulses (eLine s.dev) (send_prelude s rs rw c).wire = pulses (eLine s.dev) s.wire := by
  have he : (eLine s.dev).pin < 32 := by have := hwf.e_pin; show s.dev.e_pin < 32; omega
  have h1 : eLine s.dev ≠ ⟨s.dev.rs_port, s.dev.rs_pin⟩ := fun h => hwf.rs_ne_e h.symm
  have h2 : eLine s.dev ≠ ⟨s.dev.rw_port, s.dev.rw_pin⟩ := fun h => hwf.rw_ne_e h.symm
  unfold send_prelude
  simp only [odr_or_dev, odr_clear_dev]
  rw [pulses_odr_or _ _ _ _ _ he, pulses_odr_clear_ne _ _ _ _ he h2,
    pulses_odr_or _ _ _ _ _ he, pulses_odr_clear_ne _ _ _ _ he h1]

theorem level_send_prelude (s : State) (rs rw c : Nat) (l : Line) (hl : l.pin < 32)
    (hrs : rs ≤ 1) (hrw : rw ≤ 1) :
    level (send_prelude s rs rw c).ODR l
      = (((level s.ODR l && !decide (l = rsLine s.dev)) ||
            (decide (l = rsLine s.dev) && decide (rs = 1))) && !decide (l = rwLine s.dev) ||
          (decide (l = rwLine s.dev) && decide (rw = 1))) := by
  unfold send_prelude
  simp only [odr_or_dev, odr_clear_dev]
  rw [level_odr_or_le_one _ _ _ _ _ hl hrw, level_odr_clear _ _ _ _ hl,
    level_odr_or_le_one _ _ _ _ _ hl hrs, level_odr_clear _ _ _ _ hl]
  rfl

/-! ## Bus framing (C1, C2) -/

theorem busValue_eq_foldl_busLevels (d : lcd) (n : Nat) (m : Port → Nat) :
    busValue d n m = (busLevels d n m).foldl (fun acc b => 2 * acc + b.toNat) 0 := by
  unfold busValue busLevels
  rw [List.foldl_map]

theorem busLevels_four (d : lcd) (k c : Nat) (m0 m : Port → Nat)
    (h : LoopSnapshot d 4 k c m0 m) :
    busLevels d 4 m = [c.testBit k, c.testBit (k - 1), c.testBit (k - 2), c.testBit (k - 3)] := by
  have h0 := h.1 ⟨0, by omega⟩ (by simp)
  have h1 := h.1 ⟨1, by omega⟩ (by simp)
  have h2 := h.1 ⟨2, by omega⟩ (by simp)
  have h3 := h.1 ⟨3, by omega⟩ (by simp)
  show [level m (dataLine d ⟨0, by omega⟩), level m (dataLine d ⟨1, by omega⟩),
    level m (dataLine d ⟨2, by omega⟩), level m (dataLine d ⟨3, by omega⟩)] = _
  rw [h0, h1, h2, h3]
  rfl

set_option maxRecDepth 100000 in
theorem high_nibble_value : ∀ b : Nat, b < 256 →
    [b.testBit 7, b.testBit 6, b.testBit 5, b.testBit 4].foldl
      (fun acc x => 2 * acc + x.toNat) 0 = b >>> 4 := by
  decide

set_option maxRecDepth 100000 in
theorem low_nibble_value : ∀ b : Nat, b < 256 →
    [b.testBit 3, b.testBit 2, b.testBit 1, b.testBit 0].foldl
      (fun acc x => 2 * acc + x.toNat) 0 = b &&& 0x0F := by
  decide

set_option maxRecDepth 100000 in
theorem nibbles_recombine : ∀ b : Nat, b < 256 → 16 * (b >>> 4) + (b &&& 0x0F) = b := by
  decide

/-- C2: in FOUR mode, for every byte `b` and every session whose four data
lines and RS, RW, E lines are pairwise distinct pins of 16-pin ports,
`lcd_send_command` adds exactly two strobe pulses to the wire; at the first the
data lines D7..D4 hold bits 7..4 of `b`, at the second they hold bits 3..0, so
the nibbles latched are `b >> 4` and `b & 0x0F`, and they recombine to `b`. -/
theorem lcd_send_command_four_framing (s : State) (rs rw b : Nat)
    (hmode : s.dev.bit_mode = FOUR) (hwf : WellFormed s.dev 4) (hb : b < 256) :
    ∃ m1 m2 : Port → Nat,
      pulses (eLine s.dev) (lcd_send_command s rs rw b).wire
        = pulses (eLine s.dev) s.wire ++ [m1, m2] ∧
      busLevels s.dev 4 m1 = [b.testBit 7, b.testBit 6, b.testBit 5, b.testBit 4] ∧
      busLevels s.dev 4 m2 = [b.testBit 3, b.testBit 2, b.testBit 1, b.testBit 0] ∧
      busValue s.dev 4 m1 = b >>> 4 ∧
      busValue s.dev 4 m2 = b &&& 0x0F ∧
      16 * busValue s.dev 4 m1 + busValue s.dev 4 m2 = b := by
  rw [lcd_send_command_four s rs rw b hmode]
  obtain ⟨m1, m2, hp, h1, h2⟩ :=
    send_command_4bit_spec (send_prelude s rs rw b) b (by simpa using hwf)
  simp only [send_prelude_dev] at hp h1 h2
  rw [pulses_send_prelude s rs rw b hwf] at hp
  have l1 := busLevels_four _ _ _ _ _ h1
  have l2 := busLevels_four _ _ _ _ _ h2
  have v1 : busValue s.dev 4 m1 = b >>> 4 := by
    rw [busValue_eq_foldl_busLevels, l1]; exact high_nibble_value b hb
  have v2 : busValue s.dev 4 m2 = b &&& 0x0F := by
    rw [busValue_eq_foldl_busLevels, l2]; exact low_nibble_value b hb
  refine ⟨m1, m2, hp, l1, l2, v1, v2, ?_⟩
  rw [v1, v2]
  exact nibbles_recombine b hb

/-- Witness for C2: the byte 0xA5 on the 4-line session `dev4`. -/
theorem lcd_send_command_four_framing_witness :
    ∃ m1 m2 : Port → Nat,
      pulses (eLine dev4) (lcd_send_command (idle dev4) 0 0 0xA5).wire
        = pulses (eLine dev4) (idle dev4).wire ++ [m1, m2] ∧
      busLevels dev4 4 m1 = [true, false, true, false] ∧
      busLevels dev4 4 m2 = [false, true, false, true] ∧
      busValue dev4 4 m1 = 0xA5 >>> 4 ∧
      busValue dev4 4 m2 = 0xA5 &&& 0x0F ∧
      16 * busValue dev4 4 m1 + busValue dev4 4 m2 = 0xA5 :=
  lcd_send_command_four_framing (idle dev4) 0 0 0xA5 rfl (by decide) (by decide)

/-- C1 (what the code does): in EIGHT mode, with pairwise distinct lines and
RS, RW values in {0,1}, `lcd_send_command` adds exactly one strobe pulse; at
that pulse data lines 0..6 (D7..D1) hold bits 7..1 of `b`, but data line 7 (D0)
still holds the level it had before the call: the loop of `send_command_8bit`
stops after seven lines, so bit 0 of `b` never reaches the bus. -/
theorem lcd_send_command_eight_skips_D0 (s : State) (rs rw b : Nat)
    (hmode : s.dev.bit_mode = EIGHT) (hwf : WellFormed s.dev 8) (hrs : rs ≤ 1) (hrw : rw ≤ 1) :
    ∃ m : Port → Nat,
      pulses (eLine s.dev) (lcd_send_command s rs rw b).wire
        = pulses (eLine s.dev) s.wire ++ [m] ∧
      (∀ i : Fin 8, i.val < 7 → level m (dataLine s.dev i) = b.testBit (7 - i.val)) ∧
      level m (dataLine s.dev 7) = level s.ODR (dataLine s.dev 7) := by
  rw [lcd_send_command_eight s rs rw b hmode]
  have hwf7 : WellFormed s.dev 7 := hwf.mono (by omega)
  obtain ⟨m, hp, h1⟩ :=
    send_command_8bit_spec (send_prelude s rs rw b) b (by simpa using hwf7)
  simp only [send_prelude_dev] at hp h1
  rw [pulses_send_prelude s rs rw b hwf] at hp
  refine ⟨m, hp, h1.1, ?_⟩
  have hl : (dataLine s.dev 7).pin < 32 := by
    have := hwf.data_pin 7 (by decide)
    show s.dev.data_pins 7 < 32
    omega
  have hne_e : dataLine s.dev 7 ≠ eLine s.dev := fun h => hwf.data_ne_e 7 (by decide) h.symm
  have hne_rs : ¬ dataLine s.dev 7 = rsLine s.dev := fun h => hwf.data_ne_rs 7 (by decide) h.symm
  have hne_rw : ¬ dataLine s.dev 7 = rwLine s.dev := fun h => hwf.data_ne_rw 7 (by decide) h.symm
  have hne_d : ∀ i : Fin 8, i.val < 7 → dataLine s.dev 7 ≠ dataLine s.dev i := by
    intro i hi heq
    have := hwf.data_inj 7 i (by decide) (by omega) heq
    rw [← this] at hi
    exact absurd hi (by decide)
  rw [h1.2 _ hl hne_e hne_d, level_send_prelude s rs rw b _ hl hrs hrw]
  simp [hne_rs, hne_rw]

/-- Witness for C1: the clear-screen instruction 0x01 on the 8-line session
`dev8` with D0 low beforehand; bit 0 of the instruction is 1. -/
theorem lcd_send_command_eight_skips_D0_witness :
    Nat.testBit 0x01 0 = true ∧ level (idle dev8).ODR (dataLine dev8 7) = false ∧
    ∃ m : Port → Nat,
      pulses (eLine dev8) (lcd_send_command (idle dev8) 0 0 0x01).wire
        = pulses (eLine dev8) (idle dev8).wire ++ [m] ∧
      (∀ i : Fin 8, i.val < 7 → level m (dataLine dev8 i) = Nat.testBit 0x01 (7 - i.val)) ∧
      level m (dataLine dev8 7) = level (idle dev8).ODR (dataLine dev8 7) :=
  ⟨by decide, by decide,
    lcd_send_command_eight_skips_D0 (idle dev8) 0 0 0x01 rfl (by decide) (by decide) (by decide)⟩

/-- C1 at the failing input, evaluated: the single pulse of the clear-screen
instruction 0x01 shows all eight data lines low. -/
theorem lcd_send_command_eight_clear_screen_bus :
    (pulses (eLine dev8) (lcd_send_command (idle dev8) 0 0 0x01).wire).map (busLevels dev8 8)
      = [[false, false, false, false, false, false, false, false]] := by
  decide

/-! ## Cursor addressing (C3) -/

theorem set_cursor_position : ∀ row : Nat, row ≤ 1 → ∀ column : Nat, column ≤ 15 →
    (0b10000000 ||| ddram row column) % 2 ^ 8
      = if row = 0 then 0x80 ||| column else 0x80 ||| (0x40 + column) := by
  decide

theorem lcd_set_cursor_calls (s : State) (row column : Nat) :
    (lcd_set_cursor s row column).calls
      = s.calls ++ [⟨0, 0, (0b10000000 ||| ddram row column) % 2 ^ 8⟩] := by
  unfold lcd_set_cursor
  simp only [lcd_send_command_calls]

theorem lcd_set_cursor_dev (s : State) (row column : Nat) :
    (lcd_set_cursor s row column).dev = { s.dev with row := row, column := column } := by
  unfold lcd_set_cursor
  simp only [lcd_send_command_dev]

/-- C3: for every row in {0,1} and column in [0,15], `lcd_set_cursor` issues
exactly one command, with RS = 0 and RW = 0, whose byte is `0x80 | column` for
row 0 and `0x80 | (0x40 + column)` for row 1, and afterwards the cached cursor
is (row, column). -/
theorem lcd_set_cursor_spec (s : State) (row column : Nat) (hrow : row ≤ 1)
    (hcol : column ≤ 15) :
    (lcd_set_cursor s row column).calls
      = s.calls ++ [⟨0, 0, if row = 0 then 0x80 ||| column else 0x80 ||| (0x40 + column)⟩] ∧
    (lcd_set_cursor s row column).dev.row = row ∧
    (lcd_set_cursor s row column).dev.column = column := by
  refine ⟨?_, ?_, ?_⟩
  · rw [lcd_set_cursor_calls, set_cursor_position row hrow column hcol]
  · rw [lcd_set_cursor_dev]
  · rw [lcd_set_cursor_dev]

/-- Witness for C3: row 1, column 5 gives the instruction byte 0xC5. -/
theorem lcd_set_cursor_spec_witness :
    (lcd_set_cursor (idle dev4) 1 5).calls = (idle dev4).calls ++ [⟨0, 0, 0xC5⟩] ∧
    (lcd_set_cursor (idle dev4) 1 5).dev.row = 1 ∧
    (lcd_set_cursor (idle dev4) 1 5).dev.column = 5 :=
  lcd_set_cursor_spec (idle dev4) 1 5 (by decide) (by decide)

/-! ## `lcd_reset` and `lcd_enable_4bit_mode` on the wire -/

theorem lcd_reset_eq (s : State) :
    lcd_reset s
      = send_data_pulse (send_data_pulse (send_data_pulse (reset_prelude s))) := rfl

theorem lcd_enable_4bit_mode_eq (s : State) :
    lcd_enable_4bit_mode s = send_data_pulse (enable_prelude s) := rfl

@[simp] theorem reset_prelude_dev (s : State) : (reset_prelude s).dev = s.dev := rfl

@[simp] theorem enable_prelude_dev (s : State) : (enable_prelude s).dev = s.dev := rfl

@[simp] theorem lcd_reset_dev (s : State) : (lcd_reset s).dev = s.dev := rfl

@[simp] theorem lcd_enable_4bit_mode_dev (s : State) :
    (lcd_enable_4bit_mode s).dev = s.dev := rfl

@[simp] theorem lcd_reset_calls (s : State) : (lcd_reset s).calls = s.calls := rfl

@[simp] theorem lcd_enable_4bit_mode_calls (s : State) :
    (lcd_enable_4bit_mode s).calls = s.calls := rfl

theorem level_reset_prelude (s : State) (l : Line) (hl : l.pin < 32) :
    level (reset_prelude s).ODR l
      = (((((level s.ODR l && !decide (l = rsLine s.dev)) && !decide (l = dataLine s.dev 0))
            && !decide (l = dataLine s.dev 1)) || decide (l = dataLine s.dev 2))
          || decide (l = dataLine s.dev 3)) := by
  unfold reset_prelude
  simp only [odr_or_dev, odr_clear_dev]
  rw [level_odr_or_one _ _ _ _ hl, level_odr_or_one _ _ _ _ hl, level_odr_clear _ _ _ _ hl,
    level_odr_clear _ _ _ _ hl, level_odr_clear _ _ _ _ hl]
  rfl

theorem level_enable_prelude (s : State) (l : Line) (hl : l.pin < 32) :
    level (enable_prelude s).ODR l
      = (((((level s.ODR l && !decide (l = rsLine s.dev)) && !decide (l = dataLine s.dev 0))
            && !decide (l = dataLine s.dev 1)) || decide (l = dataLine s.dev 2))
          && !decide (l = dataLine s.dev 3)) := by
  unfold enable_prelude
  simp only [odr_or_dev, odr_clear_dev]
  rw [level_odr_clear _ _ _ _ hl, level_odr_or_one _ _ _ _ hl, level_odr_clear _ _ _ _ hl,
    level_odr_clear _ _ _ _ hl, level_odr_clear _ _ _ _ hl]
  rfl

theorem pulses_reset_prelude (s : State) (hwf : WellFormed s.dev 4) :
    pulses (eLine s.dev) (reset_prelude s).wire = pulses (eLine s.dev) s.wire := by
  have he : (eLine s.dev).pin < 32 := by have := hwf.e_pin; show s.dev.e_pin < 32; omega
  have h1 : eLine s.dev ≠ ⟨s.dev.rs_port, s.dev.rs_pin⟩ := fun h => hwf.rs_ne_e h.symm
  have h2 : eLine s.dev ≠ ⟨s.dev.data_ports 0, s.dev.data_pins 0⟩ :=
    hwf.data_ne_e 0 (by decide)
  have h3 : eLine s.dev ≠ ⟨s.dev.data_ports 1, s.dev.data_pins 1⟩ :=
    hwf.data_ne_e 1 (by decide)
  unfold reset_prelude
  simp only [odr_or_dev, odr_clear_dev]
  rw [pulses_odr_or _ _ _ _ _ he, pulses_odr_or _ _ _ _ _ he,
    pulses_odr_clear_ne _ _ _ _ he h3, pulses_odr_clear_ne _ _ _ _ he h2,
    pulses_odr_clear_ne _ _ _ _ he h1]

theorem pulses_enable_prelude (s : State) (hwf : WellFormed s.dev 4) :
    pulses (eLine s.dev) (enable_prelude s).wire = pulses (eLine s.dev) s.wire := by
  have he : (eLine s.dev).pin < 32 := by have := hwf.e_pin; show s.dev.e_pin < 32; omega
  have h1 : eLine s.dev ≠ ⟨s.dev.rs_port, s.dev.rs_pin⟩ := fun h => hwf.rs_ne_e h.symm
  have h2 : eLine s.dev ≠ ⟨s.dev.data_ports 0, s.dev.data_pins 0⟩ :=
    hwf.data_ne_e 0 (by decide)
  have h3 : eLine s.dev ≠ ⟨s.dev.data_ports 1, s.dev.data_pins 1⟩ :=
    hwf.data_ne_e 1 (by decide)
  have h4 : eLine s.dev ≠ ⟨s.dev.data_ports 3, s.dev.data_pins 3⟩ :=
    hwf.data_ne_e 3 (by decide)
  unfold enable_prelude
  simp only [odr_or_dev, odr_clear_dev]
  rw [pulses_odr_clear_ne _ _ _ _ he h4, pulses_odr_or _ _ _ _ _ he,
    pulses_odr_clear_ne _ _ _ _ he h3, pulses_odr_clear_ne _ _ _ _ he h2,
    pulses_odr_clear_ne _ _ _ _ he h1]

/-- The latch of a strobe snapshot is determined by the levels of RS and
D7..D4 before the pulse. -/
theorem latch4_strobeSnapshot (s : State) (hwf : WellFormed s.dev 4) :
    latch4 s.dev (strobeSnapshot s)
      = (level s.ODR (rsLine s.dev),
         [level s.ODR (dataLine s.dev 0), level s.ODR (dataLine s.dev 1),
          level s.ODR (dataLine s.dev 2), level s.ODR (dataLine s.dev 3)]) := by
  have hrs : (rsLine s.dev).pin < 32 := by have := hwf.rs_pin; show s.dev.rs_pin < 32; omega
  have hd : ∀ i : Fin 8, i.val < 4 → (dataLine s.dev i).pin < 32 := by
    intro i hi
    have := hwf.data_pin i hi
    show s.dev.data_pins i < 32
    omega
  have e0 : ¬ rsLine s.dev = eLine s.dev := hwf.rs_ne_e
  have ed : ∀ i : Fin 8, i.val < 4 → ¬ dataLine s.dev i = eLine s.dev :=
    fun i hi h => hwf.data_ne_e i hi h.symm
  show (level (strobeSnapshot s) (rsLine s.dev),
    [level (strobeSnapshot s) (dataLine s.dev 0), level (strobeSnapshot s) (dataLine s.dev 1),
     level (strobeSnapshot s) (dataLine s.dev 2), level (strobeSnapshot s) (dataLine s.dev 3)])
    = _
  rw [level_strobeSnapshot _ _ hrs, level_strobeSnapshot _ _ (hd 0 (by decide)),
    level_strobeSnapshot _ _ (hd 1 (by decide)), level_strobeSnapshot _ _ (hd 2 (by decide)),
    level_strobeSnapshot _ _ (hd 3 (by decide))]
  simp [e0, ed 0 (by decide), ed 1 (by decide), ed 2 (by decide), ed 3 (by decide)]

/-- A strobe pulse leaves the levels of RS and D7..D4 as they were. -/
theorem level_send_data_pulse_ne (s : State) (l : Line) (hl : l.pin < 32)
    (hne : l ≠ eLine s.dev) : level (send_data_pulse s).ODR l = level s.ODR l := by
  rw [level_send_data_pulse _ _ hl]
  simp [hne]

theorem latch4_eq (d : lcd) (m : Port → Nat) :
    latch4 d m
      = (level m (rsLine d),
         [level m (dataLine d 0), level m (dataLine d 1),
          level m (dataLine d 2), level m (dataLine d 3)]) := rfl

theorem latch4_strobe (s : State) (hwf : WellFormed s.dev 4) :
    latch4 s.dev (strobeSnapshot s) = latch4 s.dev s.ODR := by
  rw [latch4_strobeSnapshot s hwf, latch4_eq]

theorem latch4_send_data_pulse (s : State) (hwf : WellFormed s.dev 4) :
    latch4 s.dev (send_data_pulse s).ODR = latch4 s.dev s.ODR := by
  have hrs : (rsLine s.dev).pin < 32 := by have := hwf.rs_pin; show s.dev.rs_pin < 32; omega
  have hd : ∀ i : Fin 8, i.val < 4 → (dataLine s.dev i).pin < 32 := by
    intro i hi
    have := hwf.data_pin i hi
    show s.dev.data_pins i < 32
    omega
  have e0 : rsLine s.dev ≠ eLine s.dev := hwf.rs_ne_e
  have ed : ∀ i : Fin 8, i.val < 4 → dataLine s.dev i ≠ eLine s.dev :=
    fun i hi h => hwf.data_ne_e i hi h.symm
  rw [latch4_eq, latch4_eq, level_send_data_pulse_ne _ _ hrs e0,
    level_send_data_pulse_ne _ _ (hd 0 (by decide)) (ed 0 (by decide)),
    level_send_data_pulse_ne _ _ (hd 1 (by decide)) (ed 1 (by decide)),
    level_send_data_pulse_ne _ _ (hd 2 (by decide)) (ed 2 (by decide)),
    level_send_data_pulse_ne _ _ (hd 3 (by decide)) (ed 3 (by decide))]

theorem data_ne_of_wf {d : lcd} (hwf : WellFormed d 4) (i j : Fin 8) (hi : i.val < 4)
    (hj : j.val < 4) (hij : i ≠ j) : ¬ dataLine d i = dataLine d j :=
  fun h => hij (hwf.data_inj i j hi hj h)

theorem latch4_reset_prelude (s : State) (hwf : WellFormed s.dev 4) :
    latch4 s.dev (reset_prelude s).ODR = (false, [false, false, true, true]) := by
  have hrs : (rsLine s.dev).pin < 32 := by have := hwf.rs_pin; show s.dev.rs_pin < 32; omega
  have hd : ∀ i : Fin 8, i.val < 4 → (dataLine s.dev i).pin < 32 := by
    intro i hi
    have := hwf.data_pin i hi
    show s.dev.data_pins i < 32
    omega
  have r2 : ¬ rsLine s.dev = dataLine s.dev 2 := hwf.data_ne_rs 2 (by decide)
  have r3 : ¬ rsLine s.dev = dataLine s.dev 3 := hwf.data_ne_rs 3 (by decide)
  have d02 := data_ne_of_wf hwf 0 2 (by decide) (by decide) (by decide)
  have d03 := data_ne_of_wf hwf 0 3 (by decide) (by decide) (by decide)
  have d12 := data_ne_of_wf hwf 1 2 (by decide) (by decide) (by decide)
  have d13 := data_ne_of_wf hwf 1 3 (by decide) (by decide) (by decide)
  rw [latch4_eq, level_reset_prelude _ _ hrs, level_reset_prelude _ _ (hd 0 (by decide)),
    level_reset_prelude _ _ (hd 1 (by decide)), level_reset_prelude _ _ (hd 2 (by decide)),
    level_reset_prelude _ _ (hd 3 (by decide))]
  simp [r2, r3, d02, d03, d12, d13]

theorem latch4_enable_prelude (s : State) (hwf : WellFormed s.dev 4) :
    latch4 s.dev (enable_prelude s).ODR = (false, [false, false, true, false]) := by
  have hrs : (rsLine s.dev).pin < 32 := by have := hwf.rs_pin; show s.dev.rs_pin < 32; omega
  have hd : ∀ i : Fin 8, i.val < 4 → (dataLine s.dev i).pin < 32 := by
    intro i hi
    have := hwf.data_pin i hi
    show s.dev.data_pins i < 32
    omega
  have r2 : ¬ rsLine s.dev = dataLine s.dev 2 := hwf.data_ne_rs 2 (by decide)
  have d02 := data_ne_of_wf hwf 0 2 (by decide) (by decide) (by decide)
  have d12 := data_ne_of_wf hwf 1 2 (by decide) (by decide) (by decide)
  have d23 := data_ne_of_wf hwf 2 3 (by decide) (by decide) (by decide)
  rw [latch4_eq, level_enable_prelude _ _ hrs, level_enable_prelude _ _ (hd 0 (by decide)),
    level_enable_prelude _ _ (hd 1 (by decide)), level_enable_prelude _ _ (hd 2 (by decide)),
    level_enable_prelude _ _ (hd 3 (by decide))]
  simp [r2, d02, d12, d23]

/-- The three pulses of `lcd_reset`: RS low and D7 D6 D5 D4 = 0 0 1 1 at each. -/
theorem lcd_reset_pulses (s : State) (hwf : WellFormed s.dev 4) :
    ∃ ps : List (Port → Nat),
      pulses (eLine s.dev) (lcd_reset s).wire = pulses (eLine s.dev) s.wire ++ ps ∧
      ps.map (latch4 s.dev)
        = [(false, [false, false, true, true]), (false, [false, false, true, true]),
           (false, [false, false, true, true])] := by
  have he : s.dev.e_pin < 32 := by have := hwf.e_pin; omega
  let p0 := reset_prelude s
  let p1 := send_data_pulse p0
  let p2 := send_data_pulse p1
  have w0 : WellFormed p0.dev 4 := hwf
  have w1 : WellFormed p1.dev 4 := hwf
  have w2 : WellFormed p2.dev 4 := hwf
  refine ⟨[strobeSnapshot p0, strobeSnapshot p1, strobeSnapshot p2], ?_, ?_⟩
  · rw [lcd_reset_eq]
    have e2 := pulses_send_data_pulse p2 he
    have e1 := pulses_send_data_pulse p1 he
    have e0 := pulses_send_data_pulse p0 he
    have ep := pulses_reset_prelude s hwf
    have hp2 : p2.dev = s.dev := rfl
    have hp1 : p1.dev = s.dev := rfl
    have hp0 : p0.dev = s.dev := rfl
    rw [hp2] at e2
    rw [hp1] at e1
    rw [hp0] at e0
    rw [e2, e1, e0, ep]
    simp
  · have l0 : latch4 s.dev p0.ODR = (false, [false, false, true, true]) :=
      latch4_reset_prelude s hwf
    have l1 : latch4 s.dev p1.ODR = (false, [false, false, true, true]) := by
      rw [← l0]; exact latch4_send_data_pulse p0 w0
    have l2 : latch4 s.dev p2.ODR = (false, [false, false, true, true]) := by
      rw [← l1]; exact latch4_send_data_pulse p1 w1
    have s0 := latch4_strobe p0 w0
    have s1 := latch4_strobe p1 w1
    have s2 := latch4_strobe p2 w2
    simp only [List.map_cons, List.map_nil]
    rw [show latch4 s.dev (strobeSnapshot p0) = latch4 s.dev p0.ODR from s0,
      show latch4 s.dev (strobeSnapshot p1) = latch4 s.dev p1.ODR from s1,
      show latch4 s.dev (strobeSnapshot p2) = latch4 s.dev p2.ODR from s2, l0, l1, l2]

/-- The single pulse of `lcd_enable_4bit_mode`: RS low and
D7 D6 D5 D4 = 0 0 1 0. -/
theorem lcd_enable_4bit_mode_pulses (s : State) (hwf : WellFormed s.dev 4) :
    ∃ ps : List (Port → Nat),
      pulses (eLine s.dev) (lcd_enable_4bit_mode s).wire = pulses (eLine s.dev) s.wire ++ ps ∧
      ps.map (latch4 s.dev) = [(false, [false, false, true, false])] := by
  have he : s.dev.e_pin < 32 := by have := hwf.e_pin; omega
  let p0 := enable_prelude s
  have w0 : WellFormed p0.dev 4 := hwf
  refine ⟨[strobeSnapshot p0], ?_, ?_⟩
  · rw [lcd_enable_4bit_mode_eq]
    have e0 := pulses_send_data_pulse p0 he
    have hp0 : p0.dev = s.dev := rfl
    rw [hp0] at e0
    rw [e0, pulses_enable_prelude s hwf]
  · have s0 := latch4_strobe p0 w0
    simp only [List.map_cons, List.map_nil]
    rw [show latch4 s.dev (strobeSnapshot p0) = latch4 s.dev p0.ODR from s0,
      latch4_enable_prelude s hwf]

/-- The two pulses of `lcd_send_command` on a 4-line bus, with the RS level. -/
theorem lcd_send_command_four_latches (s : State) (rs rw b : Nat)
    (hmode : s.dev.bit_mode = FOUR) (hwf : WellFormed s.dev 4) (hrs : rs ≤ 1) (hrw : rw ≤ 1) :
    ∃ ps : List (Port → Nat),
      pulses (eLine s.dev) (lcd_send_command s rs rw b).wire
        = pulses (eLine s.dev) s.wire ++ ps ∧
      ps.map (latch4 s.dev)
        = [(decide (rs = 1), [b.testBit 7, b.testBit 6, b.testBit 5, b.testBit 4]),
           (decide (rs = 1), [b.testBit 3, b.testBit 2, b.testBit 1, b.testBit 0])] := by
  rw [lcd_send_command_four s rs rw b hmode]
  obtain ⟨m1, m2, hp, h1, h2⟩ :=
    send_command_4bit_spec (send_prelude s rs rw b) b (by simpa using hwf)
  simp only [send_prelude_dev] at hp h1 h2
  rw [pulses_send_prelude s rs rw b hwf] at hp
  have hl : (rsLine s.dev).pin < 32 := by have := hwf.rs_pin; show s.dev.rs_pin < 32; omega
  have hne_e : rsLine s.dev ≠ eLine s.dev := hwf.rs_ne_e
  have hne_d : ∀ i : Fin 8, i.val < 4 → rsLine s.dev ≠ dataLine s.dev i :=
    fun i hi => hwf.data_ne_rs i hi
  have hne_rw : ¬ rsLine s.dev = rwLine s.dev := hwf.rs_ne_rw
  have hrsl : level (send_prelude s rs rw b).ODR (rsLine s.dev) = decide (rs = 1) := by
    rw [level_send_prelude s rs rw b _ hl hrs hrw]
    simp [hne_rw]
  refine ⟨[m1, m2], hp, ?_⟩
  simp only [List.map_cons, List.map_nil]
  have a1 : latch4 s.dev m1
      = (decide (rs = 1), [b.testBit 7, b.testBit 6, b.testBit 5, b.testBit 4]) := by
    show (level m1 (rsLine s.dev), busLevels s.dev 4 m1) = _
    rw [busLevels_four _ _ _ _ _ h1, h1.2 _ hl hne_e hne_d, hrsl]
  have a2 : latch4 s.dev m2
      = (decide (rs = 1), [b.testBit 3, b.testBit 2, b.testBit 1, b.testBit 0]) := by
    show (level m2 (rsLine s.dev), busLevels s.dev 4 m2) = _
    rw [busLevels_four _ _ _ _ _ h2, h2.2 _ hl hne_e hne_d, hrsl]
  rw [a1, a2]

/-! ## `lcd_init` -/

@[simp] theorem gpio_enable_clock_dev (s : State) (p : Port) :
    (gpio_enable_clock s p).dev = s.dev := by
  unfold gpio_enable_clock; split_ifs <;> rfl

@[simp] theorem gpio_enable_clock_ODR (s : State) (p : Port) :
    (gpio_enable_clock s p).ODR = s.ODR := by
  unfold gpio_enable_clock; split_ifs <;> rfl

@[simp] theorem gpio_enable_clock_wire (s : State) (p : Port) :
    (gpio_enable_clock s p).wire = s.wire := by
  unfold gpio_enable_clock; split_ifs <;> rfl

@[simp] theorem gpio_enable_clock_calls (s : State) (p : Port) :
    (gpio_enable_clock s p).calls = s.calls := by
  unfold gpio_enable_clock; split_ifs <;> rfl

@[simp] theorem gpio_set_as_output_dev (s : State) (p : Port) (pin : Nat) :
    (gpio_set_as_output s p pin).dev = s.dev := rfl

@[simp] theorem gpio_set_as_output_ODR (s : State) (p : Port) (pin : Nat) :
    (gpio_set_as_output s p pin).ODR = s.ODR := rfl

@[simp] theorem gpio_set_as_output_wire (s : State) (p : Port) (pin : Nat) :
    (gpio_set_as_output s p pin).wire = s.wire := rfl

@[simp] theorem gpio_set_as_output_calls (s : State) (p : Port) (pin : Nat) :
    (gpio_set_as_output s p pin).calls = s.calls := rfl

theorem init_gpio_loop_frame (s : State) (n : Nat) :
    ((List.range n).foldl init_gpio_step s).dev = s.dev ∧
    ((List.range n).foldl init_gpio_step s).ODR = s.ODR ∧
    ((List.range n).foldl init_gpio_step s).wire = s.wire ∧
    ((List.range n).foldl init_gpio_step s).calls = s.calls := by
  induction n with
  | zero => exact ⟨rfl, rfl, rfl, rfl⟩
  | succ n ih =>
    rw [foldl_range_succ]
    obtain ⟨h1, h2, h3, h4⟩ := ih
    simp [init_gpio_step, h1, h2, h3, h4]

@[simp] theorem init_gpio_dev (s : State) (n : Nat) : (init_gpio s n).dev = s.dev := by
  simp [init_gpio, (init_gpio_loop_frame s n).1]

@[simp] theorem init_gpio_ODR (s : State) (n : Nat) : (init_gpio s n).ODR = s.ODR := by
  simp [init_gpio, (init_gpio_loop_frame s n).2.1]

@[simp] theorem init_gpio_wire (s : State) (n : Nat) : (init_gpio s n).wire = s.wire := by
  simp [init_gpio, (init_gpio_loop_frame s n).2.2.1]

@[simp] theorem init_gpio_calls (s : State) (n : Nat) : (init_gpio s n).calls = s.calls := by
  simp [init_gpio, (init_gpio_loop_frame s n).2.2.2]

theorem copy_loop_eq (dps : Fin 8 → Port) (dpins : Fin 8 → Nat) (s : State) (n : Nat)
    (hn : n ≤ 8) :
    (List.range n).foldl (copy_line_step dps dpins) s
      = { s with dev := copied_lines s.dev n dps dpins } := by
  induction n with
  | zero => simp [copied_lines]
  | succ n ih =>
    rw [foldl_range_succ, ih (by omega)]
    have hn' : n < 8 := by omega
    have h8 : (Fin.ofNat n : Fin 8) = ⟨n, hn'⟩ := Fin.ext (Nat.mod_eq_of_lt hn')
    unfold copy_line_step copied_lines
    simp only [h8]
    congr 2
    · funext j
      by_cases hj : j = ⟨n, hn'⟩
      · subst hj; simp
      · have hjn : j.val ≠ n := fun h => hj (Fin.ext h)
        rw [Function.update_noteq hj]
        by_cases hlt : j.val < n
        · have : j.val < n + 1 := by omega
          simp [hlt, this]
        · have : ¬ j.val < n + 1 := by omega
          simp [hlt, this]
    · funext j
      by_cases hj : j = ⟨n, hn'⟩
      · subst hj; simp
      · have hjn : j.val ≠ n := fun h => hj (Fin.ext h)
        rw [Function.update_noteq hj]
        by_cases hlt : j.val < n
        · have : j.val < n + 1 := by omega
          simp [hlt, this]
        · have : ¬ j.val < n + 1 := by omega
          simp [hlt, this]

/-- The shape of `lcd_init`: the struct is filled in, the pins are configured,
and then reset, the optional 4-bit switch and clear-screen run on it. -/
theorem lcd_init_eq (s : State) (dps : Fin 8 → Port) (dpins : Fin 8 → Nat)
    (rsp : Port) (rspin : Nat) (rwp : Port) (rwpin : Nat) (ep : Port) (epin : Nat)
    (mode : lcd_bit_mode) :
    lcd_init s dps dpins rsp rspin rwp rwpin ep epin mode
      = lcd_clear_screen
          (if mode = FOUR then
            lcd_enable_4bit_mode (lcd_reset (init_gpio
              (init_fields s dps dpins rsp rspin rwp rwpin ep epin mode)
              (if mode = FOUR then 4 else 8)))
          else
            lcd_reset (init_gpio
              (init_fields s dps dpins rsp rspin rwp rwpin ep epin mode)
              (if mode = FOUR then 4 else 8))) := by
  unfold lcd_init
  have hn : (if mode = FOUR then 4 else 8) ≤ 8 := by split_ifs <;> omega
  simp only [copy_loop_eq _ _ _ _ hn, lcd_reset_dev, init_gpio_dev]
  rfl

theorem sessionLines_initial_session (d : lcd) (n : Nat) (dps : Fin 8 → Port)
    (dpins : Fin 8 → Nat) (rsp : Port) (rspin : Nat) (rwp : Port) (rwpin : Nat) (ep : Port)
    (epin : Nat) (mode : lcd_bit_mode) (hn : n ≤ 8) :
    sessionLines (initial_session d n dps dpins rsp rspin rwp rwpin ep epin mode) n
      = sessionLines (lcd.mk 0 0 mode dps dpins rsp rspin rwp rwpin ep epin) n := by
  unfold sessionLines
  congr 1
  apply List.map_congr_left
  intro i hi
  have hi' : i < n := List.mem_range.1 hi
  have hv : (Fin.ofNat i : Fin 8).val < n := by
    show i % 8 < n
    rw [Nat.mod_eq_of_lt (by omega)]
    exact hi'
  show Line.mk (if (Fin.ofNat i : Fin 8).val < n then dps (Fin.ofNat i) else _)
    (if (Fin.ofNat i : Fin 8).val < n then dpins (Fin.ofNat i) else _) = _
  rw [if_pos hv, if_pos hv]
  rfl

theorem wellFormed_initial_session (d : lcd) (n : Nat) (dps : Fin 8 → Port)
    (dpins : Fin 8 → Nat) (rsp : Port) (rspin : Nat) (rwp : Port) (rwpin : Nat) (ep : Port)
    (epin : Nat) (mode : lcd_bit_mode) (hn : n ≤ 8)
    (h : WellFormed (lcd.mk 0 0 mode dps dpins rsp rspin rwp rwpin ep epin) n) :
    WellFormed (initial_session d n dps dpins rsp rspin rwp rwpin ep epin mode) n := by
  unfold WellFormed at h ⊢
  rw [sessionLines_initial_session d n dps dpins rsp rspin rwp rwpin ep epin mode hn]
  exact h

theorem init_fields_dev_four (s : State) (dps : Fin 8 → Port) (dpins : Fin 8 → Nat)
    (rsp : Port) (rspin : Nat) (rwp : Port) (rwpin : Nat) (ep : Port) (epin : Nat) :
    (init_fields s dps dpins rsp rspin rwp rwpin ep epin FOUR).dev
      = initial_session s.dev 4 dps dpins rsp rspin rwp rwpin ep epin FOUR := rfl

theorem lcd_init_four_eq (s : State) (dps : Fin 8 → Port) (dpins : Fin 8 → Nat)
    (rsp : Port) (rspin : Nat) (rwp : Port) (rwpin : Nat) (ep : Port) (epin : Nat) :
    lcd_init s dps dpins rsp rspin rwp rwpin ep epin FOUR
      = lcd_send_command (lcd_enable_4bit_mode (lcd_reset (init_gpio
          (init_fields s dps dpins rsp rspin rwp rwpin ep epin FOUR) 4))) 0 0 1 := by
  rw [lcd_init_eq, if_pos rfl, if_pos rfl]
  rfl

theorem lcd_init_four_dev (s : State) (dps : Fin 8 → Port) (dpins : Fin 8 → Nat)
    (rsp : Port) (rspin : Nat) (rwp : Port) (rwpin : Nat) (ep : Port) (epin : Nat) :
    (lcd_init s dps dpins rsp rspin rwp rwpin ep epin FOUR).dev
      = initial_session s.dev 4 dps dpins rsp rspin rwp rwpin ep epin FOUR := by
  rw [lcd_init_four_eq, lcd_send_command_dev, lcd_enable_4bit_mode_dev, lcd_reset_dev,
    init_gpio_dev, init_fields_dev_four]

/-! ## The startup sequence (C4) -/

theorem startup_four_pulses (s0 : State) (hmode : s0.dev.bit_mode = FOUR)
    (hwf : WellFormed s0.dev 4) :
    ∃ ps : List (Port → Nat),
      pulses (eLine s0.dev)
          (lcd_send_command (lcd_enable_4bit_mode (lcd_reset s0)) 0 0 1).wire
        = pulses (eLine s0.dev) s0.wire ++ ps ∧
      ps.map (latch4 s0.dev)
        = [(false, [false, false, true, true]), (false, [false, false, true, true]),
           (false, [false, false, true, true]), (false, [false, false, true, false]),
           (false, [false, false, false, false]), (false, [false, false, false, true])] := by
  obtain ⟨ps1, hp1, hl1⟩ := lcd_reset_pulses s0 hwf
  have hd1 : (lcd_reset s0).dev = s0.dev := lcd_reset_dev s0
  obtain ⟨ps2, hp2, hl2⟩ := lcd_enable_4bit_mode_pulses (lcd_reset s0) (by rw [hd1]; exact hwf)
  have hd2 : (lcd_enable_4bit_mode (lcd_reset s0)).dev = s0.dev := by
    rw [lcd_enable_4bit_mode_dev, hd1]
  obtain ⟨ps3, hp3, hl3⟩ := lcd_send_command_four_latches
    (lcd_enable_4bit_mode (lcd_reset s0)) 0 0 1 (by rw [hd2]; exact hmode)
    (by rw [hd2]; exact hwf) (by omega) (by omega)
  rw [hd1] at hp2 hl2
  rw [hd2] at hp3 hl3
  refine ⟨ps1 ++ (ps2 ++ ps3), ?_, ?_⟩
  · rw [hp3, hp2, hp1, List.append_assoc, List.append_assoc]
  · rw [List.map_append, List.map_append, hl1, hl2, hl3]
    decide

/-- C4: `lcd_init` with `bit_mode = FOUR`, on lines that are pairwise distinct
pins of 16-pin ports, adds exactly six strobe pulses to the wire, in this order:
three with RS low and D7 D6 D5 D4 = 0 0 1 1 (`lcd_reset`), one with RS low and
0 0 1 0 (`lcd_enable_4bit_mode`), then the two nibbles 0000 and 0001 of the
clear-screen instruction 0x01, both with RS low; on return the cached cursor is
(0,0) and `bit_mode` is FOUR. -/
theorem lcd_init_four_sequence (s : State) (dps : Fin 8 → Port) (dpins : Fin 8 → Nat)
    (rsp : Port) (rspin : Nat) (rwp : Port) (rwpin : Nat) (ep : Port) (epin : Nat)
    (hwf : WellFormed (lcd.mk 0 0 FOUR dps dpins rsp rspin rwp rwpin ep epin) 4) :
    ∃ ps : List (Port → Nat),
      pulses ⟨ep, epin⟩ (lcd_init s dps dpins rsp rspin rwp rwpin ep epin FOUR).wire
        = pulses ⟨ep, epin⟩ s.wire ++ ps ∧
      ps.map (latch4 (lcd_init s dps dpins rsp rspin rwp rwpin ep epin FOUR).dev)
        = [(false, [false, false, true, true]), (false, [false, false, true, true]),
           (false, [false, false, true, true]), (false, [false, false, true, false]),
           (false, [false, false, false, false]), (false, [false, false, false, true])] ∧
      (lcd_init s dps dpins rsp rspin rwp rwpin ep epin FOUR).dev.row = 0 ∧
      (lcd_init s dps dpins rsp rspin rwp rwpin ep epin FOUR).dev.column = 0 ∧
      (lcd_init s dps dpins rsp rspin rwp rwpin ep epin FOUR).dev.bit_mode = FOUR := by
  have hd0 : (init_gpio (init_fields s dps dpins rsp rspin rwp rwpin ep epin FOUR) 4).dev
      = initial_session s.dev 4 dps dpins rsp rspin rwp rwpin ep epin FOUR := by
    rw [init_gpio_dev, init_fields_dev_four]
  have hw0 : (init_gpio (init_fields s dps dpins rsp rspin rwp rwpin ep epin FOUR) 4).wire
      = s.wire := by
    rw [init_gpio_wire]
    rfl
  have hwf0 : WellFormed (initial_session s.dev 4 dps dpins rsp rspin rwp rwpin ep epin FOUR) 4 :=
    wellFormed_initial_session s.dev 4 dps dpins rsp rspin rwp rwpin ep epin FOUR (by omega) hwf
  obtain ⟨ps, hp, hl⟩ := startup_four_pulses
    (init_gpio (init_fields s dps dpins rsp rspin rwp rwpin ep epin FOUR) 4)
    (by rw [hd0]; rfl) (by rw [hd0]; exact hwf0)
  rw [hd0, hw0] at hp
  rw [hd0] at hl
  refine ⟨ps, ?_, ?_, ?_, ?_, ?_⟩
  · rw [lcd_init_four_eq]
    exact hp
  · rw [lcd_init_four_dev]
    exact hl
  · rw [lcd_init_four_dev]; rfl
  · rw [lcd_init_four_dev]; rfl
  · rw [lcd_init_four_dev]; rfl

/-- Witness for C4: D7..D4 on pins 0..3 of port A, RS, RW, E on pins 0, 1, 2 of
port B. -/
theorem lcd_init_four_sequence_witness :
    ∃ ps : List (Port → Nat),
      pulses ⟨GPIOB, 2⟩
          (lcd_init (idle dev8) (fun _ => GPIOA) (fun i => i.val) GPIOB 0 GPIOB 1 GPIOB 2 FOUR).wire
        = pulses ⟨GPIOB, 2⟩ (idle dev8).wire ++ ps ∧
      ps.map (latch4
          (lcd_init (idle dev8) (fun _ => GPIOA) (fun i => i.val) GPIOB 0 GPIOB 1 GPIOB 2 FOUR).dev)
        = [(false, [false, false, true, true]), (false, [false, false, true, true]),
           (false, [false, false, true, true]), (false, [false, false, true, false]),
           (false, [false, false, false, false]), (false, [false, false, false, true])] ∧
      (lcd_init (idle dev8) (fun _ => GPIOA) (fun i => i.val) GPIOB 0 GPIOB 1 GPIOB 2
        FOUR).dev.row = 0 ∧
      (lcd_init (idle dev8) (fun _ => GPIOA) (fun i => i.val) GPIOB 0 GPIOB 1 GPIOB 2
        FOUR).dev.column = 0 ∧
      (lcd_init (idle dev8) (fun _ => GPIOA) (fun i => i.val) GPIOB 0 GPIOB 1 GPIOB 2
        FOUR).dev.bit_mode = FOUR :=
  lcd_init_four_sequence (idle dev8) (fun _ => GPIOA) (fun i => i.val) GPIOB 0 GPIOB 1 GPIOB 2
    (by decide)

/-! ## Frame: session struct and configuration registers -/

theorem Frame.refl (s : State) : Frame s s := ⟨rfl, rfl, rfl⟩

theorem Frame.trans {a b c : State} (h1 : Frame a b) (h2 : Frame b c) : Frame a c :=
  ⟨h2.1.trans h1.1, h2.2.1.trans h1.2.1, h2.2.2.trans h1.2.2⟩

theorem frame_odr_clear (s : State) (p : Port) (pin : Nat) : Frame s (odr_clear s p pin) :=
  ⟨rfl, rfl, rfl⟩

theorem frame_odr_or (s : State) (p : Port) (pin v : Nat) : Frame s (odr_or s p pin v) :=
  ⟨rfl, rfl, rfl⟩

theorem frame_write_bit_from_command (s : State) (p : Port) (pin c k : Nat) :
    Frame s (write_bit_from_command s p pin c k) := ⟨rfl, rfl, rfl⟩

theorem frame_send_data_pulse (s : State) : Frame s (send_data_pulse s) := ⟨rfl, rfl, rfl⟩

theorem frame_send_bits (c n : Nat) (s : State) (k : Nat) :
    Frame s ((List.range n).foldl (send_bit_step c) (s, k)).1 := by
  induction n with
  | zero => exact Frame.refl s
  | succ n ih =>
    rw [foldl_range_succ]
    exact ih.trans (frame_write_bit_from_command _ _ _ _ _)

theorem frame_send_command_4bit (s : State) (c : Nat) : Frame s (send_command_4bit s c) := by
  rw [send_command_4bit_eq]
  exact ((frame_send_bits c 4 s 7).trans (frame_send_data_pulse _)).trans
    ((frame_send_bits c 4 _ _).trans (frame_send_data_pulse _))

theorem frame_send_command_8bit (s : State) (c : Nat) : Frame s (send_command_8bit s c) := by
  rw [send_command_8bit_eq]
  exact (frame_send_bits c 7 s 7).trans (frame_send_data_pulse _)

theorem frame_send_prelude (s : State) (rs rw c : Nat) : Frame s (send_prelude s rs rw c) :=
  ⟨rfl, rfl, rfl⟩

theorem frame_lcd_send_command (s : State) (rs rw c : Nat) :
    Frame s (lcd_send_command s rs rw c) := by
  cases h : s.dev.bit_mode
  · rw [lcd_send_command_four s rs rw c h]
    exact (frame_send_prelude s rs rw c).trans (frame_send_command_4bit _ c)
  · rw [lcd_send_command_eight s rs rw c h]
    exact (frame_send_prelude s rs rw c).trans (frame_send_command_8bit _ c)

/-! ## Call histories of the display-session operations -/

theorem lcd_write_char_calls (s : State) (c : Nat) :
    (lcd_write_char s c).calls = s.calls ++ [⟨1, 0, c⟩] :=
  lcd_send_command_calls s 1 0 c

theorem lcd_write_char_dev (s : State) (c : Nat) : (lcd_write_char s c).dev = s.dev :=
  lcd_send_command_dev s 1 0 c

theorem lcd_set_cursor_calls_instr (s : State) (row column : Nat) :
    (lcd_set_cursor s row column).calls = s.calls ++ [cursorInstr row column] :=
  lcd_set_cursor_calls s row column

theorem spaces_calls (n : Nat) (s : State) :
    ((List.range n).foldl (fun st _ => lcd_write_char st 0x20) s).calls
      = s.calls ++ List.replicate n spaceWrite := by
  induction n with
  | zero => simp
  | succ n ih =>
    rw [foldl_range_succ, lcd_write_char_calls, ih, List.replicate_succ', List.append_assoc]
    rfl

theorem spaces_dev (n : Nat) (s : State) :
    ((List.range n).foldl (fun st _ => lcd_write_char st 0x20) s).dev = s.dev := by
  induction n with
  | zero => rfl
  | succ n ih => rw [foldl_range_succ, lcd_write_char_dev, ih]

/-! ## `lcd_backspace` (C5) -/

theorem lcd_backspace_zero (s : State) (h : s.dev.column = 0) : lcd_backspace s = s := by
  unfold lcd_backspace
  rw [if_pos h]

theorem lcd_backspace_pos (s : State) (h : s.dev.column ≠ 0) :
    lcd_backspace s
      = lcd_set_cursor
          (lcd_write_char (with_cursor s s.dev.row ((s.dev.column + (2 ^ 8 - 1)) % 2 ^ 8)) 0x20)
          s.dev.row ((s.dev.column + (2 ^ 8 - 1)) % 2 ^ 8) := by
  unfold lcd_backspace
  rw [if_neg h]
  show lcd_set_cursor
      (lcd_write_char (with_cursor s s.dev.row ((s.dev.column + (2 ^ 8 - 1)) % 2 ^ 8)) 0x20)
      (lcd_write_char (with_cursor s s.dev.row ((s.dev.column + (2 ^ 8 - 1)) % 2 ^ 8)) 0x20).dev.row
      (lcd_write_char (with_cursor s s.dev.row ((s.dev.column + (2 ^ 8 - 1)) % 2 ^ 8))
        0x20).dev.column = _
  rw [lcd_write_char_dev]
  rfl

theorem clear_section_loop_spec (e : Nat) (he : e ≤ 254) (fuel : Nat) :
    ∀ (i : Nat) (s : State), i ≤ e + 1 → e + 2 - i ≤ fuel →
      ∃ s' : State, lcd_clear_section_loop e fuel i s = some s' ∧
        s'.calls = s.calls ++ List.replicate (e + 1 - i) spaceWrite ∧
        Frame s s' := by
  induction fuel with
  | zero => intro i s hi hf; omega
  | succ fuel ih =>
    intro i s hi hf
    unfold lcd_clear_section_loop
    by_cases hle : i ≤ e
    · rw [if_pos hle]
      have hi1 : (i + 1) % 2 ^ 8 = i + 1 := by
        norm_num
        omega
      rw [hi1]
      obtain ⟨s', hs', hc, hfr⟩ := ih (i + 1) (lcd_write_char s 0x20) (by omega) (by omega)
      refine ⟨s', hs', ?_, (frame_lcd_send_command s 1 0 0x20).trans hfr⟩
      rw [hc, lcd_write_char_calls, List.append_assoc]
      have : e + 1 - i = (e + 1 - (i + 1)) + 1 := by omega
      rw [this, List.replicate_succ]
      rfl
    · rw [if_neg hle]
      have : e + 1 - i = 0 := by omega
      refine ⟨s, rfl, ?_, Frame.refl s⟩
      rw [this]
      simp

theorem lcd_clear_section_eq (fuel : Nat) (s : State) (row b e : Nat) :
    lcd_clear_section fuel s row b e
      = match lcd_clear_section_loop e fuel b
          (lcd_set_cursor (with_cursor s s.dev.row b) row b) with
        | none => none
        | some s' => some (lcd_set_cursor s' row b) := rfl

/-- The general form behind C6 and C19: for every end column up to 254 and
enough fuel, `lcd_clear_section` returns, having issued the `lcd_set_cursor`
instruction, `e + 1 - b` space writes and the `lcd_set_cursor` instruction
again, with the cached cursor at (row, b). -/
theorem lcd_clear_section_run (fuel : Nat) (s : State) (row b e : Nat) (he : e ≤ 254)
    (hf1 : 1 ≤ fuel) (hf : e + 2 - b ≤ fuel) :
    ∃ s' : State, lcd_clear_section fuel s row b e = some s' ∧
      s'.calls = s.calls ++ [cursorInstr row b] ++ List.replicate (e + 1 - b) spaceWrite
        ++ [cursorInstr row b] ∧
      s'.dev = (with_cursor s row b).dev := by
  rw [lcd_clear_section_eq]
  by_cases hbe : b ≤ e + 1
  · obtain ⟨s1, h1, hc, hfr⟩ := clear_section_loop_spec e he fuel b
      (lcd_set_cursor (with_cursor s s.dev.row b) row b) hbe hf
    rw [h1]
    refine ⟨_, rfl, ?_, ?_⟩
    · rw [lcd_set_cursor_calls_instr, hc, lcd_set_cursor_calls_instr]
      rfl
    · rw [lcd_set_cursor_dev, hfr.1, lcd_set_cursor_dev]
      rfl
  · have hfuel : ∃ f, fuel = f + 1 := ⟨fuel - 1, by omega⟩
    obtain ⟨f, hf'⟩ := hfuel
    subst hf'
    have hloop : lcd_clear_section_loop e (f + 1) b
        (lcd_set_cursor (with_cursor s s.dev.row b) row b)
        = some (lcd_set_cursor (with_cursor s s.dev.row b) row b) := by
      unfold lcd_clear_section_loop
      rw [if_neg (by omega)]
    rw [hloop]
    have h0 : e + 1 - b = 0 := by omega
    refine ⟨_, rfl, ?_, ?_⟩
    · rw [lcd_set_cursor_calls_instr, lcd_set_cursor_calls_instr, h0, List.replicate_zero,
        List.append_nil]
      rfl
    · rw [lcd_set_cursor_dev, lcd_set_cursor_dev]
      rfl

theorem cursorInstr_eq (row column : Nat) (hrow : row ≤ 1) (hcol : column ≤ 15) :
    cursorInstr row column
      = ⟨0, 0, if row = 0 then 0x80 ||| column else 0x80 ||| (0x40 + column)⟩ := by
  unfold cursorInstr
  rw [set_cursor_position row hrow column hcol]

/-- C6: for every row in {0,1} and begin <= end, both in [0,15], and enough
fuel for the loop tests, `lcd_clear_section` returns, having issued the
`lcd_set_cursor` instruction for (row, begin), then exactly end - begin + 1
data writes of the space character, then the same instruction again, and the
cached cursor is (row, begin). -/
theorem lcd_clear_section_spec (fuel : Nat) (s : State) (row b e : Nat) (hrow : row ≤ 1)
    (hbe : b ≤ e) (he : e ≤ 15) (hf : e - b + 2 ≤ fuel) :
    ∃ s' : State, lcd_clear_section fuel s row b e = some s' ∧
      s'.calls
        = s.calls
          ++ [⟨0, 0, if row = 0 then 0x80 ||| b else 0x80 ||| (0x40 + b)⟩]
          ++ List.replicate (e - b + 1) ⟨1, 0, 0x20⟩
          ++ [⟨0, 0, if row = 0 then 0x80 ||| b else 0x80 ||| (0x40 + b)⟩] ∧
      s'.dev.row = row ∧ s'.dev.column = b := by
  obtain ⟨s', h1, hc, hd⟩ := lcd_clear_section_run fuel s row b e (by omega) (by omega)
    (by omega)
  refine ⟨s', h1, ?_, ?_, ?_⟩
  · rw [hc, cursorInstr_eq row b hrow (by omega)]
    have : e + 1 - b = e - b + 1 := by omega
    rw [this]
    rfl
  · rw [hd]; rfl
  · rw [hd]; rfl

/-- Witness for C6: (row 1, columns 3..7) writes exactly five spaces between
two 0xC3 instructions and ends at (1, 3). -/
theorem lcd_clear_section_spec_witness :
    ∃ s' : State, lcd_clear_section 7 (idle dev4) 1 3 7 = some s' ∧
      s'.calls
        = [⟨0, 0, 0xC3⟩, ⟨1, 0, 0x20⟩, ⟨1, 0, 0x20⟩, ⟨1, 0, 0x20⟩, ⟨1, 0, 0x20⟩, ⟨1, 0, 0x20⟩,
           ⟨0, 0, 0xC3⟩] ∧
      s'.dev.row = 1 ∧ s'.dev.column = 3 :=
  lcd_clear_section_spec 7 (idle dev4) 1 3 7 (by decide) (by decide) (by decide) (by decide)

theorem lcd_clear_row_eq (s : State) (row : Nat) :
    lcd_clear_row s row
      = lcd_set_cursor
          ((List.range 15).foldl (fun st _ => lcd_write_char st 0x20)
            (lcd_set_cursor (with_cursor s s.dev.row 0) row 0)) row 0 := rfl

theorem lcd_clear_row_calls (s : State) (row : Nat) :
    (lcd_clear_row s row).calls
      = s.calls ++ [cursorInstr row 0] ++ List.replicate 15 spaceWrite ++ [cursorInstr row 0] := by
  rw [lcd_clear_row_eq, lcd_set_cursor_calls_instr, spaces_calls, lcd_set_cursor_calls_instr]
  rfl

theorem lcd_clear_row_dev (s : State) (row : Nat) :
    (lcd_clear_row s row).dev = (with_cursor s row 0).dev := by
  rw [lcd_clear_row_eq, lcd_set_cursor_dev, spaces_dev, lcd_set_cursor_dev]
  rfl

/-- C7: for every row in {0,1} and every starting state, `lcd_clear_row`
issues the `lcd_set_cursor` instruction for (row, 0), then exactly 15 data
writes of the space character, then the same instruction again, and leaves the
cached cursor at (row, 0); a second call in a row leaves the same session
struct and issues the same sequence with its 15 space writes again. -/
theorem lcd_clear_row_spec (s : State) (row : Nat) (hrow : row ≤ 1) :
    (lcd_clear_row s row).calls
      = s.calls ++ [⟨0, 0, if row = 0 then 0x80 else 0xC0⟩]
          ++ List.replicate 15 ⟨1, 0, 0x20⟩ ++ [⟨0, 0, if row = 0 then 0x80 else 0xC0⟩] ∧
    (lcd_clear_row s row).dev.row = row ∧
    (lcd_clear_row s row).dev.column = 0 ∧
    (lcd_clear_row (lcd_clear_row s row) row).dev = (lcd_clear_row s row).dev ∧
    (lcd_clear_row (lcd_clear_row s row) row).calls
      = (lcd_clear_row s row).calls ++ [⟨0, 0, if row = 0 then 0x80 else 0xC0⟩]
          ++ List.replicate 15 ⟨1, 0, 0x20⟩ ++ [⟨0, 0, if row = 0 then 0x80 else 0xC0⟩] := by
  have hi : cursorInstr row 0 = ⟨0, 0, if row = 0 then 0x80 else 0xC0⟩ := by
    rw [cursorInstr_eq row 0 hrow (by omega)]
    rcases Nat.le_one_iff_eq_zero_or_eq_one.1 hrow with h | h <;> subst h <;> rfl
  refine ⟨?_, ?_, ?_, ?_, ?_⟩
  · rw [lcd_clear_row_calls, hi]; rfl
  · rw [lcd_clear_row_dev]; rfl
  · rw [lcd_clear_row_dev]; rfl
  · rw [lcd_clear_row_dev (lcd_clear_row s row)]
    show ({ (lcd_clear_row s row).dev with row := row, column := 0 } : lcd) = _
    rw [lcd_clear_row_dev]
    rfl
  · rw [lcd_clear_row_calls (lcd_clear_row s row), hi]; rfl

/-- Witness for C7: row 1 from the idle 4-line session. -/
theorem lcd_clear_row_spec_witness :
    (lcd_clear_row (idle dev4) 1).calls
      = (idle dev4).calls ++ [⟨0, 0, if 1 = 0 then 0x80 else 0xC0⟩]
          ++ List.replicate 15 ⟨1, 0, 0x20⟩ ++ [⟨0, 0, if 1 = 0 then 0x80 else 0xC0⟩] ∧
    (lcd_clear_row (idle dev4) 1).dev.row = 1 ∧
    (lcd_clear_row (idle dev4) 1).dev.column = 0 ∧
    (lcd_clear_row (lcd_clear_row (idle dev4) 1) 1).dev = (lcd_clear_row (idle dev4) 1).dev ∧
    (lcd_clear_row (lcd_clear_row (idle dev4) 1) 1).calls
      = (lcd_clear_row (idle dev4) 1).calls ++ [⟨0, 0, if 1 = 0 then 0x80 else 0xC0⟩]
          ++ List.replicate 15 ⟨1, 0, 0x20⟩ ++ [⟨0, 0, if 1 = 0 then 0x80 else 0xC0⟩] :=
  lcd_clear_row_spec (idle dev4) 1 (by decide)

/-! ## `lcd_write_string` (C10) -/

theorem strlen_nul_free (cs rest : List Nat) (h : ∀ c ∈ cs, c ≠ 0) :
    strlen (cs ++ 0 :: rest) = cs.length := by
  induction cs with
  | nil => simp [strlen]
  | cons c cs ih =>
    have hc : c ≠ 0 := h c (List.mem_cons_self c cs)
    have ih' := ih (fun x hx => h x (List.mem_cons_of_mem c hx))
    show (if c = 0 then 0 else strlen (cs ++ 0 :: rest) + 1) = (c :: cs).length
    rw [if_neg hc, ih']
    rfl

theorem strlen_le_length (str : List Nat) : strlen str ≤ str.length := by
  induction str with
  | nil => simp [strlen]
  | cons c cs ih =>
    show (if c = 0 then 0 else strlen cs + 1) ≤ (c :: cs).length
    split_ifs
    · omega
    · simp only [List.length_cons]
      omega

theorem write_string_loop_spec (cs rest : List Nat) (h : ∀ c ∈ cs, c ≠ 0) (fuel : Nat) :
    ∀ (i : Nat) (s : State), i ≤ cs.length → cs.length - i < fuel →
      lcd_write_string_loop (cs ++ 0 :: rest) fuel i s
        = some ((cs.drop i).foldl lcd_write_char s) := by
  induction fuel with
  | zero => intro i s hi hf; omega
  | succ fuel ih =>
    intro i s hi hf
    unfold lcd_write_string_loop
    rw [strlen_nul_free cs rest h]
    by_cases hlt : i < cs.length
    · rw [if_pos hlt, ih (i + 1) _ (by omega) (by omega),
        List.getD_append cs (0 :: rest) 0 i hlt, List.getD_eq_getElem cs 0 hlt,
        List.drop_eq_getElem_cons hlt]
      rfl
    · rw [if_neg hlt]
      have : cs.drop i = [] := List.drop_eq_nil_of_le (by omega)
      rw [this]
      rfl

theorem write_chars_calls (cs : List Nat) :
    ∀ s : State, (cs.foldl lcd_write_char s).calls = s.calls ++ cs.map (fun c => ⟨1, 0, c⟩) := by
  induction cs with
  | nil => intro s; simp
  | cons c cs ih =>
    intro s
    rw [List.foldl_cons, ih, lcd_write_char_calls, List.append_assoc]
    rfl

/-- C10: for every NUL-free character sequence `cs`, stored NUL-terminated
(whatever bytes follow the terminator), and enough fuel for the loop tests,
`lcd_write_string` returns the state reached by `lcd_write_char cs[0]`, ...,
`lcd_write_char cs[n-1]` in index order and issues exactly these data writes;
writing `cs1 ++ cs2` equals writing `cs1` and then `cs2`; for the empty string
it returns the state unchanged. -/
theorem lcd_write_string_spec (fuel : Nat) (s : State) (cs cs1 cs2 rest : List Nat)
    (h : ∀ c ∈ cs, c ≠ 0) (hcs : cs = cs1 ++ cs2) (hf : cs.length < fuel) :
    lcd_write_string fuel s (cs ++ 0 :: rest) = some (cs.foldl lcd_write_char s) ∧
    (cs.foldl lcd_write_char s).calls = s.calls ++ cs.map (fun c => ⟨1, 0, c⟩) ∧
    lcd_write_string fuel s (cs ++ 0 :: rest)
      = (lcd_write_string fuel s (cs1 ++ 0 :: rest)).bind
          (fun s1 => lcd_write_string fuel s1 (cs2 ++ 0 :: rest)) ∧
    lcd_write_string fuel s (0 :: rest) = some s := by
  have h1 : ∀ c ∈ cs1, c ≠ 0 := fun c hc => h c (by rw [hcs]; exact List.mem_append_left _ hc)
  have h2 : ∀ c ∈ cs2, c ≠ 0 := fun c hc => h c (by rw [hcs]; exact List.mem_append_right _ hc)
  have hl : cs.length = cs1.length + cs2.length := by rw [hcs, List.length_append]
  have e : ∀ (xs : List Nat) (st : State), (∀ c ∈ xs, c ≠ 0) → xs.length < fuel →
      lcd_write_string fuel st (xs ++ 0 :: rest) = some (xs.foldl lcd_write_char st) := by
    intro xs st hx hfx
    have := write_string_loop_spec xs rest hx fuel 0 st (by omega) (by omega)
    rw [List.drop_zero] at this
    exact this
  refine ⟨e cs s h hf, write_chars_calls cs s, ?_, ?_⟩
  · rw [e cs s h hf, e cs1 s h1 (by omega)]
    show _ = lcd_write_string fuel (cs1.foldl lcd_write_char s) (cs2 ++ 0 :: rest)
    rw [e cs2 _ h2 (by omega), hcs, List.foldl_append]
  · exact e [] s (fun c hc => absurd hc (List.not_mem_nil c)) (by simp; omega)

/-- Witness for C10: the string "Hi" followed by its terminator. -/
theorem lcd_write_string_spec_witness :
    lcd_write_string 3 (idle dev4) ([72, 105] ++ 0 :: [])
      = some ([72, 105].foldl lcd_write_char (idle dev4)) ∧
    ([72, 105].foldl lcd_write_char (idle dev4)).calls
      = (idle dev4).calls ++ [72, 105].map (fun c => ⟨1, 0, c⟩) ∧
    lcd_write_string 3 (idle dev4) ([72, 105] ++ 0 :: [])
      = (lcd_write_string 3 (idle dev4) ([72] ++ 0 :: [])).bind
          (fun s1 => lcd_write_string 3 s1 ([105] ++ 0 :: [])) ∧
    lcd_write_string 3 (idle dev4) (0 :: []) = some (idle dev4) :=
  lcd_write_string_spec 3 (idle dev4) [72, 105] [72] [105] [] (by decide) rfl (by decide)

/-! ## Session frame (C9) and cursor-range invariant (C8) -/

theorem write_string_loop_frame (str : List Nat) (fuel : Nat) :
    ∀ (i : Nat) (s : State), strlen str - i < fuel →
      ∃ s' : State, lcd_write_string_loop str fuel i s = some s' ∧ Frame s s' := by
  induction fuel with
  | zero => intro i s hf; omega
  | succ fuel ih =>
    intro i s hf
    unfold lcd_write_string_loop
    by_cases hlt : i < strlen str
    · rw [if_pos hlt]
      obtain ⟨s', h1, h2⟩ := ih (i + 1) (lcd_write_char s (str.getD i 0)) (by omega)
      exact ⟨s', h1, (frame_lcd_send_command s 1 0 _).trans h2⟩
    · rw [if_neg hlt]
      exact ⟨s, rfl, Frame.refl s⟩

/-- C9: `lcd_write_char`, `lcd_write_string` (which returns, given fuel for its
loop tests), `lcd_shift_cursor_right`, `lcd_shift_cursor_left`,
`lcd_enable_cursor`, `lcd_disable_cursor` and `lcd_clear_screen` leave the whole
session struct (cached row and column, `bit_mode`, all line assignments) and the
configuration registers unchanged, for every state and argument; what they
change is output data registers (and the histories kept by the model). -/
theorem session_frame (s : State) (c fuel : Nat) (str : List Nat) (hf : strlen str < fuel) :
    Frame s (lcd_write_char s c) ∧
    (∃ s' : State, lcd_write_string fuel s str = some s' ∧ Frame s s') ∧
    Frame s (lcd_shift_cursor_right s) ∧
    Frame s (lcd_shift_cursor_left s) ∧
    Frame s (lcd_enable_cursor s) ∧
    Frame s (lcd_disable_cursor s) ∧
    Frame s (lcd_clear_screen s) ∧
    (lcd_write_char s c).dev = s.dev ∧
    (lcd_shift_cursor_right s).dev = s.dev ∧
    (lcd_shift_cursor_left s).dev = s.dev ∧
    (lcd_enable_cursor s).dev = s.dev ∧
    (lcd_disable_cursor s).dev = s.dev ∧
    (lcd_clear_screen s).dev = s.dev :=
  ⟨frame_lcd_send_command s 1 0 c,
   write_string_loop_frame str fuel 0 s (by omega),
   frame_lcd_send_command s 0 0 _, frame_lcd_send_command s 0 0 _,
   frame_lcd_send_command s 0 0 _, frame_lcd_send_command s 0 0 _,
   frame_lcd_send_command s 0 0 _,
   lcd_send_command_dev s 1 0 c, lcd_send_command_dev s 0 0 _, lcd_send_command_dev s 0 0 _,
   lcd_send_command_dev s 0 0 _, lcd_send_command_dev s 0 0 _, lcd_send_command_dev s 0 0 _⟩

/-- Witness for C9: the character 'A' and the string "Hi" on the idle 4-line
session. -/
theorem session_frame_witness :
    Frame (idle dev4) (lcd_write_char (idle dev4) 65) ∧
    (∃ s' : State, lcd_write_string 3 (idle dev4) [72, 105, 0] = some s' ∧
      Frame (idle dev4) s') ∧
    Frame (idle dev4) (lcd_shift_cursor_right (idle dev4)) ∧
    Frame (idle dev4) (lcd_shift_cursor_left (idle dev4)) ∧
    Frame (idle dev4) (lcd_enable_cursor (idle dev4)) ∧
    Frame (idle dev4) (lcd_disable_cursor (idle dev4)) ∧
    Frame (idle dev4) (lcd_clear_screen (idle dev4)) ∧
    (lcd_write_char (idle dev4) 65).dev = (idle dev4).dev ∧
    (lcd_shift_cursor_right (idle dev4)).dev = (idle dev4).dev ∧
    (lcd_shift_cursor_left (idle dev4)).dev = (idle dev4).dev ∧
    (lcd_enable_cursor (idle dev4)).dev = (idle dev4).dev ∧
    (lcd_disable_cursor (idle dev4)).dev = (idle dev4).dev ∧
    (lcd_clear_screen (idle dev4)).dev = (idle dev4).dev :=
  session_frame (idle dev4) 65 3 [72, 105, 0] (by decide)

theorem lcd_clear_char_eq (s : State) (row column : Nat) :
    lcd_clear_char s row column
      = lcd_set_cursor
          (lcd_write_char (lcd_set_cursor (with_cursor s row column) row column) 0x20)
          row column := rfl

theorem lcd_clear_char_dev (s : State) (row column : Nat) :
    (lcd_clear_char s row column).dev = (with_cursor s row column).dev := by
  rw [lcd_clear_char_eq, lcd_set_cursor_dev, lcd_write_char_dev, lcd_set_cursor_dev]
  rfl

theorem lcd_init_cursor (s : State) (dps : Fin 8 → Port) (dpins : Fin 8 → Nat)
    (rsp : Port) (rspin : Nat) (rwp : Port) (rwpin : Nat) (ep : Port) (epin : Nat)
    (mode : lcd_bit_mode) :
    (lcd_init s dps dpins rsp rspin rwp rwpin ep epin mode).dev
      = (init_fields s dps dpins rsp rspin rwp rwpin ep epin mode).dev := by
  rw [lcd_init_eq]
  cases mode
  · rw [if_pos rfl]
    show (lcd_send_command _ 0 0 1).dev = _
    rw [lcd_send_command_dev, lcd_enable_4bit_mode_dev, lcd_reset_dev, init_gpio_dev]
  · rw [if_neg (by decide)]
    show (lcd_send_command _ 0 0 1).dev = _
    rw [lcd_send_command_dev, lcd_reset_dev, init_gpio_dev]

theorem lcd_backspace_cursor (s : State) (h : CursorOK s.dev) : CursorOK (lcd_backspace s).dev := by
  by_cases h0 : s.dev.column = 0
  · rw [lcd_backspace_zero s h0]; exact h
  · have hc : (s.dev.column + (2 ^ 8 - 1)) % 2 ^ 8 = s.dev.column - 1 := by
      have := h.2
      norm_num
      omega
    rw [lcd_backspace_pos s h0, hc, lcd_set_cursor_dev]
    exact ⟨h.1, by show s.dev.column - 1 ≤ 15; have := h.2; omega⟩

theorem cursorOK_of_dev_eq {d d' : lcd} (h : d' = d) (hd : CursorOK d) : CursorOK d' := by
  rw [h]; exact hd

/-- C8: the cursor-range predicate (cached row in {0,1}, cached column in
[0,15]) holds on return from `lcd_init` (either bus width, any arguments and
prior state), and every operation of commands.c preserves it when its row and
column arguments satisfy the documented preconditions (row in {0,1}, column in
[0,15], begin <= end <= 15); the two operations with data-dependent loops
return, given fuel for their loop tests. -/
theorem cursor_range_invariant (s : State) (h : CursorOK s.dev)
    (row column b e c rs rw cmd fuel : Nat) (str : List Nat)
    (hrow : row ≤ 1) (hcol : column ≤ 15) (hbe : b ≤ e) (he : e ≤ 15)
    (hfe : e - b + 2 ≤ fuel) (hfs : strlen str < fuel) :
    (∀ (s0 : State) (dps : Fin 8 → Port) (dpins : Fin 8 → Nat) (rsp : Port) (rspin : Nat)
        (rwp : Port) (rwpin : Nat) (ep : Port) (epin : Nat) (mode : lcd_bit_mode),
        CursorOK (lcd_init s0 dps dpins rsp rspin rwp rwpin ep epin mode).dev) ∧
    CursorOK (lcd_set_cursor s row column).dev ∧
    CursorOK (lcd_write_char s c).dev ∧
    (∃ s' : State, lcd_write_string fuel s str = some s' ∧ CursorOK s'.dev) ∧
    CursorOK (lcd_clear_screen s).dev ∧
    CursorOK (lcd_clear_char s row column).dev ∧
    CursorOK (lcd_clear_row s row).dev ∧
    (∃ s' : State, lcd_clear_section fuel s row b e = some s' ∧ CursorOK s'.dev) ∧
    CursorOK (lcd_backspace s).dev ∧
    CursorOK (lcd_shift_cursor_left s).dev ∧
    CursorOK (lcd_shift_cursor_right s).dev ∧
    CursorOK (lcd_enable_cursor s).dev ∧
    CursorOK (lcd_disable_cursor s).dev ∧
    CursorOK (lcd_send_command s rs rw cmd).dev ∧
    CursorOK (lcd_reset s).dev ∧
    CursorOK (lcd_enable_4bit_mode s).dev := by
  have hset : ∀ st : State, CursorOK (with_cursor st row column).dev :=
    fun st => ⟨hrow, hcol⟩
  refine ⟨?_, ?_, ?_, ?_, ?_, ?_, ?_, ?_, ?_, ?_, ?_, ?_, ?_, ?_, ?_, ?_⟩
  · intro s0 dps dpins rsp rspin rwp rwpin ep epin mode
    rw [lcd_init_cursor]
    exact ⟨Nat.zero_le 1, Nat.zero_le 15⟩
  · rw [lcd_set_cursor_dev]; exact ⟨hrow, hcol⟩
  · exact cursorOK_of_dev_eq (lcd_send_command_dev s 1 0 c) h
  · obtain ⟨s', h1, h2⟩ := write_string_loop_frame str fuel 0 s (by omega)
    exact ⟨s', h1, cursorOK_of_dev_eq h2.1 h⟩
  · exact cursorOK_of_dev_eq (lcd_send_command_dev s 0 0 _) h
  · rw [lcd_clear_char_dev]; exact ⟨hrow, hcol⟩
  · rw [lcd_clear_row_dev]; exact ⟨hrow, Nat.zero_le 15⟩
  · obtain ⟨s', h1, _, h3⟩ := lcd_clear_section_run fuel s row b e (by omega) (by omega)
      (by omega)
    exact ⟨s', h1, cursorOK_of_dev_eq h3 ⟨hrow, by show b ≤ 15; omega⟩⟩
  · exact lcd_backspace_cursor s h
  · exact cursorOK_of_dev_eq (lcd_send_command_dev s 0 0 _) h
  · exact cursorOK_of_dev_eq (lcd_send_command_dev s 0 0 _) h
  · exact cursorOK_of_dev_eq (lcd_send_command_dev s 0 0 _) h
  · exact cursorOK_of_dev_eq (lcd_send_command_dev s 0 0 _) h
  · exact cursorOK_of_dev_eq (lcd_send_command_dev s rs rw cmd) h
  · exact cursorOK_of_dev_eq (lcd_reset_dev s) h
  · exact cursorOK_of_dev_eq (lcd_enable_4bit_mode_dev s) h


/-- Witness for C8: the session at cursor (1, 15), with arguments row 0,
column 7, section 3..7, character 'A', string "Hi". -/
theorem cursor_range_invariant_witness :
    CursorOK (with_cursor (idle dev4) 1 15).dev ∧
    CursorOK (lcd_set_cursor (with_cursor (idle dev4) 1 15) 0 7).dev ∧
    CursorOK (lcd_backspace (with_cursor (idle dev4) 1 15)).dev ∧
    CursorOK (lcd_clear_row (with_cursor (idle dev4) 1 15) 0).dev :=
  have h := cursor_range_invariant (with_cursor (idle dev4) 1 15) (by decide)
    0 7 3 7 65 1 0 65 7 [72, 105, 0] (by decide) (by decide) (by decide) (by decide)
    (by decide) (by decide)
  ⟨by decide, h.2.1, h.2.2.2.2.2.2.2.2.1, h.2.2.2.2.2.2.1⟩

/-! ## Mode lines during a transmission (C11) -/

theorem level_send_command_4bit_other (s : State) (c : Nat) (l : Line) (hl : l.pin < 32)
    (hle : l ≠ eLine s.dev) (hld : ∀ i : Fin 8, i.val < 4 → l ≠ dataLine s.dev i) :
    level (send_command_4bit s c).ODR l = level s.ODR l := by
  have hd2 : (send_data_pulse ((List.range 4).foldl (send_bit_step c) (s, 7)).1).dev = s.dev := by
    rw [send_data_pulse_dev, send_bits_dev]
  rw [send_command_4bit_eq,
    level_bits_then_pulse c 4 _ _ l hl (by rw [hd2]; exact hle) (by rw [hd2]; exact hld)]
  exact level_bits_then_pulse c 4 7 s l hl hle hld

theorem level_send_command_8bit_other (s : State) (c : Nat) (l : Line) (hl : l.pin < 32)
    (hle : l ≠ eLine s.dev) (hld : ∀ i : Fin 8, i.val < 7 → l ≠ dataLine s.dev i) :
    level (send_command_8bit s c).ODR l = level s.ODR l := by
  rw [send_command_8bit_eq]
  exact level_bits_then_pulse c 7 7 s l hl hle hld

theorem modeLevels_send_prelude (s : State) (rs rw c : Nat) {n : Nat}
    (hwf : WellFormed s.dev n) (hrs : rs ≤ 1) (hrw : rw ≤ 1) :
    modeLevels s.dev (send_prelude s rs rw c).ODR = (decide (rs = 1), decide (rw = 1)) := by
  have h1 : (rsLine s.dev).pin < 32 := by have := hwf.rs_pin; show s.dev.rs_pin < 32; omega
  have h2 : (rwLine s.dev).pin < 32 := by have := hwf.rw_pin; show s.dev.rw_pin < 32; omega
  have hne : ¬ rsLine s.dev = rwLine s.dev := hwf.rs_ne_rw
  have hne' : ¬ rwLine s.dev = rsLine s.dev := fun h => hne h.symm
  unfold modeLevels
  rw [level_send_prelude s rs rw c _ h1 hrs hrw, level_send_prelude s rs rw c _ h2 hrs hrw]
  simp [hne, hne']

/-- The mode lines in a snapshot that agrees with `m0` away from E and the
data lines. -/
theorem modeLevels_of_loopSnapshot {d : lcd} {n k c : Nat} {m0 m : Port → Nat}
    (hwf : WellFormed d n) (h : LoopSnapshot d n k c m0 m) :
    modeLevels d m = modeLevels d m0 := by
  have h1 : (rsLine d).pin < 32 := by have := hwf.rs_pin; show d.rs_pin < 32; omega
  have h2 : (rwLine d).pin < 32 := by have := hwf.rw_pin; show d.rw_pin < 32; omega
  unfold modeLevels
  rw [h.2 _ h1 hwf.rs_ne_e (fun i hi => hwf.data_ne_rs i hi),
    h.2 _ h2 hwf.rw_ne_e (fun i hi => hwf.data_ne_rw i hi)]

theorem lcd_send_command_mode_lines (s : State) (rs rw b : Nat)
    (hwf : WellFormed s.dev (dataWidth s.dev.bit_mode)) (hrs : rs ≤ 1) (hrw : rw ≤ 1) :
    ∃ ps : List (Port → Nat),
      pulses (eLine s.dev) (lcd_send_command s rs rw b).wire
        = pulses (eLine s.dev) s.wire ++ ps ∧
      ps.map (modeLevels s.dev)
        = List.replicate (match s.dev.bit_mode with | FOUR => 2 | EIGHT => 1)
            (decide (rs = 1), decide (rw = 1)) ∧
      modeLevels s.dev (lcd_send_command s rs rw b).ODR = (decide (rs = 1), decide (rw = 1)) := by
  have h1 : (rsLine s.dev).pin < 32 := by have := hwf.rs_pin; show s.dev.rs_pin < 32; omega
  have h2 : (rwLine s.dev).pin < 32 := by have := hwf.rw_pin; show s.dev.rw_pin < 32; omega
  have hpre := modeLevels_send_prelude s rs rw b hwf hrs hrw
  cases hmode : s.dev.bit_mode
  · rw [hmode] at hwf
    have hwf4 : WellFormed s.dev 4 := hwf
    rw [lcd_send_command_four s rs rw b hmode]
    obtain ⟨m1, m2, hp, hs1, hs2⟩ := send_command_4bit_spec (send_prelude s rs rw b) b hwf4
    rw [send_prelude_dev] at hp hs1 hs2
    rw [pulses_send_prelude s rs rw b hwf4] at hp
    refine ⟨[m1, m2], hp, ?_, ?_⟩
    · show [modeLevels s.dev m1, modeLevels s.dev m2] = _
      rw [modeLevels_of_loopSnapshot hwf4 hs1, modeLevels_of_loopSnapshot hwf4 hs2, hpre]
      rfl
    · unfold modeLevels
      have a1 := level_send_command_4bit_other (send_prelude s rs rw b) b (rsLine s.dev) h1
        hwf4.rs_ne_e (fun i hi => hwf4.data_ne_rs i hi)
      have a2 := level_send_command_4bit_other (send_prelude s rs rw b) b (rwLine s.dev) h2
        hwf4.rw_ne_e (fun i hi => hwf4.data_ne_rw i hi)
      rw [a1, a2]
      exact hpre
  · rw [hmode] at hwf
    have hwf7 : WellFormed s.dev 7 := WellFormed.mono (n := 8) hwf (by omega)
    rw [lcd_send_command_eight s rs rw b hmode]
    obtain ⟨m, hp, hs1⟩ := send_command_8bit_spec (send_prelude s rs rw b) b hwf7
    rw [send_prelude_dev] at hp hs1
    rw [pulses_send_prelude s rs rw b hwf7] at hp
    refine ⟨[m], hp, ?_, ?_⟩
    · show [modeLevels s.dev m] = _
      rw [modeLevels_of_loopSnapshot hwf7 hs1, hpre]
      rfl
    · unfold modeLevels
      have a1 := level_send_command_8bit_other (send_prelude s rs rw b) b (rsLine s.dev) h1
        hwf7.rs_ne_e (fun i hi => hwf7.data_ne_rs i hi)
      have a2 := level_send_command_8bit_other (send_prelude s rs rw b) b (rwLine s.dev) h2
        hwf7.rw_ne_e (fun i hi => hwf7.data_ne_rw i hi)
      rw [a1, a2]
      exact hpre

/-- C11: for rs, rw in {0,1}, every byte and either bus width, on pairwise
distinct lines, `lcd_send_command` is one transmission during which the RS
line shows rs and the RW line shows rw at every strobe pulse and on return,
whatever their levels before; `lcd_write_char` transmits with RS = 1, RW = 0,
and `lcd_set_cursor`, `lcd_clear_screen`, the two shifts and the cursor
enable/disable transmit with RS = 0, RW = 0. -/
theorem mode_lines_spec (s : State) (rs rw b c row column : Nat)
    (hwf : WellFormed s.dev (dataWidth s.dev.bit_mode)) (hrs : rs ≤ 1) (hrw : rw ≤ 1) :
    Transmits s (lcd_send_command s rs rw b) (decide (rs = 1), decide (rw = 1)) ∧
    Transmits s (lcd_write_char s c) (true, false) ∧
    Transmits s (lcd_set_cursor s row column) (false, false) ∧
    Transmits s (lcd_clear_screen s) (false, false) ∧
    Transmits s (lcd_shift_cursor_right s) (false, false) ∧
    Transmits s (lcd_shift_cursor_left s) (false, false) ∧
    Transmits s (lcd_enable_cursor s) (false, false) ∧
    Transmits s (lcd_disable_cursor s) (false, false) :=
  ⟨lcd_send_command_mode_lines s rs rw b hwf hrs hrw,
   lcd_send_command_mode_lines s 1 0 c hwf (by omega) (by omega),
   lcd_send_command_mode_lines (with_cursor s row column) 0 0 _ hwf (by omega) (by omega),
   lcd_send_command_mode_lines s 0 0 _ hwf (by omega) (by omega),
   lcd_send_command_mode_lines s 0 0 _ hwf (by omega) (by omega),
   lcd_send_command_mode_lines s 0 0 _ hwf (by omega) (by omega),
   lcd_send_command_mode_lines s 0 0 _ hwf (by omega) (by omega),
   lcd_send_command_mode_lines s 0 0 _ hwf (by omega) (by omega)⟩

/-- Witness for C11: the 8-line session `dev8`, rs = 1, rw = 1. -/
theorem mode_lines_spec_witness :
    Transmits (idle dev8) (lcd_send_command (idle dev8) 1 1 0xA5) (true, true) ∧
    Transmits (idle dev8) (lcd_write_char (idle dev8) 65) (true, false) ∧
    Transmits (idle dev8) (lcd_set_cursor (idle dev8) 1 5) (false, false) :=
  have h := mode_lines_spec (idle dev8) 1 1 0xA5 65 1 5 (by decide) (by decide) (by decide)
  ⟨h.1, h.2.1, h.2.2.1⟩

/-! ## `lcd_reset` (C12) and `lcd_clear_char` (C13) -/

theorem wellFormed_four {d : lcd} (h : WellFormed d (dataWidth d.bit_mode)) : WellFormed d 4 := by
  cases hm : d.bit_mode
  · rw [hm] at h; exact h
  · rw [hm] at h; exact WellFormed.mono (n := 8) h (by omega)

theorem latch4_lcd_reset (s : State) (hwf : WellFormed s.dev 4) :
    latch4 s.dev (lcd_reset s).ODR = (false, [false, false, true, true]) := by
  rw [lcd_reset_eq]
  have a3 := latch4_send_data_pulse (send_data_pulse (send_data_pulse (reset_prelude s))) hwf
  have a2 := latch4_send_data_pulse (send_data_pulse (reset_prelude s)) hwf
  have a1 := latch4_send_data_pulse (reset_prelude s) hwf
  have a0 := latch4_reset_prelude s hwf
  exact a3.trans (a2.trans (a1.trans a0))

/-- C12: for either bus width and every prior state of the registers, on
pairwise distinct lines, `lcd_reset` adds exactly three strobe pulses, at each
of which RS is 0, D7 and D6 are 0 and D5 and D4 are 1; these levels are still
held on return; it issues no `lcd_send_command` call (so it does not use the
nibble-splitting transmit path) and changes no session field. -/
theorem lcd_reset_spec (s : State) (hwf : WellFormed s.dev (dataWidth s.dev.bit_mode)) :
    (∃ ps : List (Port → Nat),
      pulses (eLine s.dev) (lcd_reset s).wire = pulses (eLine s.dev) s.wire ++ ps ∧
      ps.map (latch4 s.dev)
        = [(false, [false, false, true, true]), (false, [false, false, true, true]),
           (false, [false, false, true, true])]) ∧
    latch4 s.dev (lcd_reset s).ODR = (false, [false, false, true, true]) ∧
    (lcd_reset s).calls = s.calls ∧
    (lcd_reset s).dev = s.dev :=
  ⟨lcd_reset_pulses s (wellFormed_four hwf), latch4_lcd_reset s (wellFormed_four hwf),
   lcd_reset_calls s, lcd_reset_dev s⟩

/-- Witness for C12: the 8-line session `dev8`. -/
theorem lcd_reset_spec_witness :
    (∃ ps : List (Port → Nat),
      pulses (eLine dev8) (lcd_reset (idle dev8)).wire
        = pulses (eLine dev8) (idle dev8).wire ++ ps ∧
      ps.map (latch4 dev8)
        = [(false, [false, false, true, true]), (false, [false, false, true, true]),
           (false, [false, false, true, true])]) ∧
    latch4 dev8 (lcd_reset (idle dev8)).ODR = (false, [false, false, true, true]) ∧
    (lcd_reset (idle dev8)).calls = (idle dev8).calls ∧
    (lcd_reset (idle dev8)).dev = (idle dev8).dev :=
  lcd_reset_spec (idle dev8) (by decide)

theorem lcd_clear_char_calls (s : State) (row column : Nat) :
    (lcd_clear_char s row column).calls
      = s.calls ++ [cursorInstr row column, spaceWrite, cursorInstr row column] := by
  rw [lcd_clear_char_eq, lcd_set_cursor_calls_instr, lcd_write_char_calls,
    lcd_set_cursor_calls_instr, List.append_assoc, List.append_assoc]
  rfl

/-- C13: for every row in {0,1} and column in [0,15], `lcd_clear_char` issues
exactly the `lcd_set_cursor` instruction for (row, column), one data write of
the space character and the same instruction again, and leaves the cached
cursor at (row, column). -/
theorem lcd_clear_char_spec (s : State) (row column : Nat) (hrow : row ≤ 1)
    (hcol : column ≤ 15) :
    (lcd_clear_char s row column).calls
      = s.calls ++ [⟨0, 0, if row = 0 then 0x80 ||| column else 0x80 ||| (0x40 + column)⟩,
          ⟨1, 0, 0x20⟩,
          ⟨0, 0, if row = 0 then 0x80 ||| column else 0x80 ||| (0x40 + column)⟩] ∧
    (lcd_clear_char s row column).dev.row = row ∧
    (lcd_clear_char s row column).dev.column = column := by
  refine ⟨?_, ?_, ?_⟩
  · rw [lcd_clear_char_calls, cursorInstr_eq row column hrow hcol]
    rfl
  · rw [lcd_clear_char_dev]; rfl
  · rw [lcd_clear_char_dev]; rfl

/-- Witness for C13: (row 1, column 5) sends 0xC5, a space, 0xC5. -/
theorem lcd_clear_char_spec_witness :
    (lcd_clear_char (idle dev4) 1 5).calls
      = (idle dev4).calls ++ [⟨0, 0, 0xC5⟩, ⟨1, 0, 0x20⟩, ⟨0, 0, 0xC5⟩] ∧
    (lcd_clear_char (idle dev4) 1 5).dev.row = 1 ∧
    (lcd_clear_char (idle dev4) 1 5).dev.column = 5 :=
  lcd_clear_char_spec (idle dev4) 1 5 (by decide) (by decide)

/-! ## Cells written under the controller's auto-advance (C14, C15) -/

theorem controller_run_append (k : Controller) (a b : List Command) :
    controller_run k (a ++ b) = controller_run (controller_run k a) b := by
  unfold controller_run
  rw [List.foldl_append]

theorem controller_run_spaces (n : Nat) (k : Controller) :
    controller_run k (List.replicate n spaceWrite)
      = { pointer := k.pointer + n,
          written := k.written ++ (List.range n).map (fun i => (k.pointer + i, 0x20)) } := by
  induction n with
  | zero => simp [controller_run]
  | succ n ih =>
    rw [List.replicate_succ', controller_run_append, ih, List.range_succ, List.map_append,
      ← List.append_assoc]
    rfl

set_option maxRecDepth 100000 in
theorem cursorInstr_sets_pointer : ∀ row : Nat, row ≤ 1 → ∀ column : Nat, column ≤ 15 →
    ∀ p : Nat, ∀ w : List (Nat × Nat),
      controller_step ⟨p, w⟩ (cursorInstr row column) = ⟨ddram row column, w⟩ := by
  intro row hrow column hcol p w
  have h : (cursorInstr row column).rs = 0 ∧ (cursorInstr row column).command.testBit 7 = true ∧
      (cursorInstr row column).command % 128 = ddram row column := by
    revert column
    revert row
    decide
  unfold controller_step
  rw [h.1, if_neg (by decide), h.2.1, if_pos rfl, h.2.2]

theorem ddram_offset : ∀ row : Nat, row ≤ 1 → ∀ column : Nat, column ≤ 15 →
    ddram row column = ddram row 0 + column := by
  decide

theorem controller_run_singleton (k : Controller) (cmd : Command) :
    controller_run k [cmd] = controller_step k cmd := rfl

/-- C14 (what the code does): for every row in {0,1}, the commands that
`lcd_clear_row` issues write a space to the fifteen cells (row, 0) .. (row, 14)
and to no other cell: the cell (row, 15) is never written, because the loop
runs for `i < 15`. -/
theorem lcd_clear_row_cells (s : State) (row : Nat) (hrow : row ≤ 1) (k : Controller) :
    ∃ cmds : List Command,
      (lcd_clear_row s row).calls = s.calls ++ cmds ∧
      (controller_run k cmds).written
        = k.written ++ (List.range 15).map (fun c => (ddram row c, 0x20)) ∧
      ∀ ch : Nat, (ddram row 15, ch) ∉ (List.range 15).map (fun c => (ddram row c, 0x20)) := by
  refine ⟨[cursorInstr row 0] ++ List.replicate 15 spaceWrite ++ [cursorInstr row 0], ?_, ?_, ?_⟩
  · rw [lcd_clear_row_calls, List.append_assoc, List.append_assoc, List.append_assoc]
  · rw [controller_run_append, controller_run_append, controller_run_singleton,
      controller_run_singleton]
    cases k with
    | mk p w =>
      rw [cursorInstr_sets_pointer row hrow 0 (by omega), controller_run_spaces,
        cursorInstr_sets_pointer row hrow 0 (by omega)]
      show w ++ (List.range 15).map (fun i => (ddram row 0 + i, 0x20)) = _
      congr 1
      apply List.map_congr_left
      intro i hi
      rw [ddram_offset row hrow i (by have := List.mem_range.1 hi; omega)]
  · intro ch hmem
    obtain ⟨c, hc, heq⟩ := List.mem_map.1 hmem
    have hc' : c < 15 := List.mem_range.1 hc
    have h1 := ddram_offset row hrow c (by omega)
    have h2 := ddram_offset row hrow 15 (by omega)
    have h3 : ddram row c = ddram row 15 := congrArg Prod.fst heq
    omega

/-- Witness for C14: row 0 from the idle 4-line session, controller pointer 0
and nothing written yet. -/
theorem lcd_clear_row_cells_witness :
    ∃ cmds : List Command,
      (lcd_clear_row (idle dev4) 0).calls = (idle dev4).calls ++ cmds ∧
      (controller_run ⟨0, []⟩ cmds).written
        = [] ++ (List.range 15).map (fun c => (ddram 0 c, 0x20)) ∧
      ∀ ch : Nat, (ddram 0 15, ch) ∉ (List.range 15).map (fun c => (ddram 0 c, 0x20)) :=
  lcd_clear_row_cells (idle dev4) 0 (by decide) ⟨0, []⟩

theorem lcd_backspace_calls (s : State) (h1 : 1 ≤ s.dev.column) (h15 : s.dev.column ≤ 15) :
    (lcd_backspace s).calls
      = s.calls ++ [⟨1, 0, 0x20⟩, cursorInstr s.dev.row (s.dev.column - 1)] := by
  have hc : (s.dev.column + (2 ^ 8 - 1)) % 2 ^ 8 = s.dev.column - 1 := by
    norm_num
    omega
  rw [lcd_backspace_pos s (by omega), hc, lcd_set_cursor_calls_instr, lcd_write_char_calls,
    List.append_assoc]
  rfl

/-- C15 as stated fails: after `lcd_set_cursor(0, 5)` the controller's pointer
is at (0, 5), in agreement with the cached cursor; the commands that
`lcd_backspace` then issues write the space at address 0x05, the cell (0, 5),
and not at the decremented position (0, 4). -/
theorem lcd_backspace_space_not_at_new_position :
    (controller_run ⟨0, []⟩ (lcd_set_cursor (idle dev4) 0 5).calls).pointer = ddram 0 5 ∧
    (lcd_set_cursor (idle dev4) 0 5).dev.row = 0 ∧
    (lcd_set_cursor (idle dev4) 0 5).dev.column = 5 ∧
    (controller_run ⟨0, []⟩ (lcd_backspace (lcd_set_cursor (idle dev4) 0 5)).calls).written
      = [(ddram 0 5, 0x20)] ∧
    (controller_run ⟨0, []⟩ (lcd_backspace (lcd_set_cursor (idle dev4) 0 5)).calls).written
      ≠ [(ddram 0 4, 0x20)] := by
  decide

/-- C15 amended: for a session whose cached cursor (row, c), row in {0,1}, c in
[1,15], agrees with the controller's address pointer, the commands that
`lcd_backspace` issues write one space, at the position (row, c) where the
pointer stands before the call, and leave the controller's address pointer at
(row, c - 1). -/
theorem lcd_backspace_cells (s : State) (k : Controller) (hrow : s.dev.row ≤ 1)
    (h1 : 1 ≤ s.dev.column) (h15 : s.dev.column ≤ 15)
    (hk : k.pointer = ddram s.dev.row s.dev.column) :
    ∃ cmds : List Command,
      (lcd_backspace s).calls = s.calls ++ cmds ∧
      (controller_run k cmds).written
        = k.written ++ [(ddram s.dev.row s.dev.column, 0x20)] ∧
      (controller_run k cmds).pointer = ddram s.dev.row (s.dev.column - 1) := by
  refine ⟨[⟨1, 0, 0x20⟩, cursorInstr s.dev.row (s.dev.column - 1)],
    lcd_backspace_calls s h1 h15, ?_, ?_⟩
  · cases k with
    | mk p w =>
      show (controller_step (controller_step ⟨p, w⟩ ⟨1, 0, 0x20⟩)
        (cursorInstr s.dev.row (s.dev.column - 1))).written = _
      have hs : controller_step ⟨p, w⟩ ⟨1, 0, 0x20⟩ = ⟨p + 1, w ++ [(p, 0x20)]⟩ := rfl
      rw [hs, cursorInstr_sets_pointer _ hrow _ (by omega)]
      show w ++ [(p, 0x20)] = w ++ [(ddram s.dev.row s.dev.column, 0x20)]
      rw [show p = ddram s.dev.row s.dev.column from hk]
  · cases k with
    | mk p w =>
      show (controller_step (controller_step ⟨p, w⟩ ⟨1, 0, 0x20⟩)
        (cursorInstr s.dev.row (s.dev.column - 1))).pointer = _
      have hs : controller_step ⟨p, w⟩ ⟨1, 0, 0x20⟩ = ⟨p + 1, w ++ [(p, 0x20)]⟩ := rfl
      rw [hs, cursorInstr_sets_pointer _ hrow _ (by omega)]

/-- Witness for C15 amended: the session right after `lcd_set_cursor(0, 5)`. -/
theorem lcd_backspace_cells_witness :
    ∃ cmds : List Command,
      (lcd_backspace (with_cursor (idle dev4) 0 5)).calls
        = (with_cursor (idle dev4) 0 5).calls ++ cmds ∧
      (controller_run ⟨5, []⟩ cmds).written = [] ++ [(ddram 0 5, 0x20)] ∧
      (controller_run ⟨5, []⟩ cmds).pointer = ddram 0 (5 - 1) :=
  lcd_backspace_cells (with_cursor (idle dev4) 0 5) ⟨5, []⟩ (by decide) (by decide) (by decide)
    (by decide)

/-! ## Pin configuration (C16) -/

theorem gpio_enable_clock_GPIOD (s : State) : gpio_enable_clock s GPIOD = s := rfl

theorem gpio_enable_clock_GPIOE (s : State) : gpio_enable_clock s GPIOE = s := rfl

/-- C16 at the failing input, evaluated: `lcd_init` in FOUR mode with every
line on port D (D7..D4 on pins 0..3, RS, RW, E on pins 8, 9, 10), from all
registers zero. The seven MODER fields of port D are set to 01, but no bit of
RCC AHB1ENR is set: the clock of port D is not enabled. -/
theorem lcd_init_port_D_clock_not_enabled :
    (lcd_init (idle dev8) (fun _ => GPIOD) (fun i => i.val) GPIOD 8 GPIOD 9 GPIOD 10
      FOUR).AHB1ENR = 0 ∧
    (lcd_init (idle dev8) (fun _ => GPIOD) (fun i => i.val) GPIOD 8 GPIOD 9 GPIOD 10
      FOUR).MODER GPIOD = 0x150055 := by
  decide

/-! ## Termination of the `lcd_clear_section` loop (C19) -/

theorem clear_section_loop_255 (fuel : Nat) :
    ∀ (i : Nat) (s : State), i ≤ 255 → lcd_clear_section_loop 255 fuel i s = none := by
  induction fuel with
  | zero => intro i s _; rfl
  | succ fuel ih =>
    intro i s hi
    unfold lcd_clear_section_loop
    rw [if_pos hi]
    exact ih _ _ (by
      have : (i + 1) % 2 ^ 8 < 2 ^ 8 := Nat.mod_lt _ (by norm_num)
      norm_num at this ⊢
      omega)

theorem clear_section_loop_any (e : Nat) (he : e ≤ 254) (fuel b : Nat) (hf1 : 1 ≤ fuel)
    (hf : e + 2 - b ≤ fuel) (s0 : State) :
    ∃ s1 : State, lcd_clear_section_loop e fuel b s0 = some s1 ∧
      s1.calls = s0.calls ++ List.replicate (e + 1 - b) spaceWrite := by
  by_cases hbe : b ≤ e + 1
  · obtain ⟨s1, h1, hc, _⟩ := clear_section_loop_spec e he fuel b s0 hbe hf
    exact ⟨s1, h1, hc⟩
  · obtain ⟨f, hf'⟩ : ∃ f, fuel = f + 1 := ⟨fuel - 1, by omega⟩
    subst hf'
    have h0 : e + 1 - b = 0 := by omega
    refine ⟨s0, ?_, ?_⟩
    · unfold lcd_clear_section_loop
      rw [if_neg (by omega)]
    · rw [h0, List.replicate_zero, List.append_nil]

/-- C19: for every row, every begin column and every end column up to 254,
the loop of `lcd_clear_section`, with its 8-bit counter, terminates: given fuel
for its loop tests, from any state it returns after exactly
max(0, end - begin + 1) space writes, and so does the function, whose calls are
one instruction (RS = 0, RW = 0), these space writes, and one instruction; when
begin > end only the two instructions are issued. Inside the lookup table
(row in {0,1}, begin in [0,15]) both instructions are the `lcd_set_cursor`
instruction for (row, begin); the statement does not depend on what a read
outside the table returns. -/
theorem lcd_clear_section_terminates (fuel : Nat) (s : State) (row b e : Nat) (he : e ≤ 254)
    (hf1 : 1 ≤ fuel) (hf : e + 2 - b ≤ fuel) :
    (∀ s0 : State, ∃ s1 : State, lcd_clear_section_loop e fuel b s0 = some s1 ∧
      s1.calls = s0.calls ++ List.replicate (e + 1 - b) spaceWrite) ∧
    ((e + 1 - b : Nat) : Int) = max 0 ((e : Int) - (b : Int) + 1) ∧
    (∃ (s' : State) (i1 i2 : Command),
      lcd_clear_section fuel s row b e = some s' ∧
      i1.rs = 0 ∧ i1.rw = 0 ∧ i2.rs = 0 ∧ i2.rw = 0 ∧
      s'.calls = s.calls ++ [i1] ++ List.replicate (e + 1 - b) spaceWrite ++ [i2] ∧
      (e < b → s'.calls = s.calls ++ [i1, i2]) ∧
      (row ≤ 1 → b ≤ 15 → i1 = cursorInstr row b ∧ i2 = cursorInstr row b)) := by
  refine ⟨clear_section_loop_any e he fuel b hf1 hf, by omega, ?_⟩
  obtain ⟨s', h1, hc, _⟩ := lcd_clear_section_run fuel s row b e he hf1 hf
  refine ⟨s', cursorInstr row b, cursorInstr row b, h1, rfl, rfl, rfl, rfl, hc, fun hlt => ?_,
    fun _ _ => ⟨rfl, rfl⟩⟩
  have h0 : e + 1 - b = 0 := by omega
  rw [hc, h0, List.replicate_zero, List.append_nil, List.append_assoc]
  rfl

/-- Witness for C19: row 1, begin 15, end 254, the largest end column for which
the counter does not wrap: 240 space writes, with fuel for 241 loop tests. -/
theorem lcd_clear_section_terminates_witness :
    (∀ s0 : State, ∃ s1 : State, lcd_clear_section_loop 254 241 15 s0 = some s1 ∧
      s1.calls = s0.calls ++ List.replicate (254 + 1 - 15) spaceWrite) ∧
    ((254 + 1 - 15 : Nat) : Int) = max 0 (((254 : Nat) : Int) - ((15 : Nat) : Int) + 1) ∧
    (∃ (s' : State) (i1 i2 : Command),
      lcd_clear_section 241 (idle dev4) 1 15 254 = some s' ∧
      i1.rs = 0 ∧ i1.rw = 0 ∧ i2.rs = 0 ∧ i2.rw = 0 ∧
      s'.calls = (idle dev4).calls ++ [i1] ++ List.replicate (254 + 1 - 15) spaceWrite ++ [i2] ∧
      (254 < 15 → s'.calls = (idle dev4).calls ++ [i1, i2]) ∧
      (1 ≤ 1 → 15 ≤ 15 → i1 = cursorInstr 1 15 ∧ i2 = cursorInstr 1 15)) :=
  lcd_clear_section_terminates 241 (idle dev4) 1 15 254 (by decide) (by decide) (by decide)

/-! ## Injectivity of the cursor addressing (C20) -/

theorem cursor_byte_table : ∀ r : Nat, r ≤ 1 → ∀ c : Nat, c ≤ 15 →
    (cursorInstr r c).command = 0x80 + 0x40 * r + c ∧
    (cursorInstr r c).command.testBit 7 = true := by
  decide

/-- C20: on valid coordinates (rows in {0,1}, columns in [0,15]) the
instruction byte `0x80 | DDRAM_LOOKUP_TABLE[r][c]` that `lcd_set_cursor` sends
determines (r, c); every such byte has bit 7 set and lies in 0x80..0x8F or
0xC0..0xCF. -/
theorem cursor_byte_injective (r1 c1 r2 c2 : Nat) (h1 : r1 ≤ 1) (h2 : c1 ≤ 15) (h3 : r2 ≤ 1)
    (h4 : c2 ≤ 15) :
    ((cursorInstr r1 c1).command = (cursorInstr r2 c2).command → r1 = r2 ∧ c1 = c2) ∧
    (cursorInstr r1 c1).command.testBit 7 = true ∧
    ((0x80 ≤ (cursorInstr r1 c1).command ∧ (cursorInstr r1 c1).command ≤ 0x8F) ∨
      (0xC0 ≤ (cursorInstr r1 c1).command ∧ (cursorInstr r1 c1).command ≤ 0xCF)) := by
  have a := cursor_byte_table r1 h1 c1 h2
  have b := cursor_byte_table r2 h3 c2 h4
  refine ⟨fun h => ?_, a.2, ?_⟩
  · rw [a.1, b.1] at h
    omega
  · rw [a.1]
    omega

/-- Witness for C20: (0, 3) and (1, 3). -/
theorem cursor_byte_injective_witness :
    ((cursorInstr 0 3).command = (cursorInstr 1 3).command → 0 = 1 ∧ 3 = 3) ∧
    (cursorInstr 0 3).command.testBit 7 = true ∧
    ((0x80 ≤ (cursorInstr 0 3).command ∧ (cursorInstr 0 3).command ≤ 0x8F) ∨
      (0xC0 ≤ (cursorInstr 0 3).command ∧ (cursorInstr 0 3).command ≤ 0xCF)) :=
  cursor_byte_injective 0 3 1 3 (by decide) (by decide) (by decide) (by decide)

/-! ## From the register primitives to every operation of commands.c -/

section Lift

variable {Pre : State → Prop} {Tgt : State → Line → Prop} {R : State → State → Prop}

theorem and_one_le_one (x : Nat) : x &&& 1 ≤ 1 := by
  rw [Nat.and_one_is_mod]
  omega

theorem rel_write_bit (h : WireRel Pre Tgt R) (s : State) (i : Fin 8)
    (hi : i.val < dataWidth s.dev.bit_mode) (c k : Nat) (hp : Pre s) :
    R s (write_bit_from_command s (s.dev.data_ports i) (s.dev.data_pins i) c k) := by
  have r1 : R s (odr_clear s (s.dev.data_ports i) (s.dev.data_pins i)) :=
    h.clear s (dataLine s.dev i) hp (h.tgt_data s i hp hi)
  have p1 := h.pre _ _ hp r1
  have r2 := h.or_ (odr_clear s (s.dev.data_ports i) (s.dev.data_pins i))
    (dataLine s.dev i) ((c >>> k) &&& 1) p1 (h.tgt_data _ i p1 hi) (and_one_le_one _)
  exact h.trans _ _ _ r1 r2

theorem rel_send_bits (h : WireRel Pre Tgt R) (c n : Nat) (s : State) (k : Nat)
    (hn : n ≤ dataWidth s.dev.bit_mode) (hp : Pre s) :
    R s ((List.range n).foldl (send_bit_step c) (s, k)).1 := by
  induction n with
  | zero => exact h.refl s
  | succ n ih =>
    have r1 := ih (by omega)
    have p1 := h.pre _ _ hp r1
    rw [foldl_range_succ]
    have hw : dataWidth s.dev.bit_mode ≤ 8 := by cases s.dev.bit_mode <;> decide
    have hv : (Fin.ofNat n : Fin 8).val
        < dataWidth ((List.range n).foldl (send_bit_step c) (s, k)).1.dev.bit_mode := by
      rw [send_bits_dev]
      show n % 8 < _
      rw [Nat.mod_eq_of_lt (by omega)]
      omega
    exact h.trans _ _ _ r1 (rel_write_bit h _ (Fin.ofNat n) hv c _ p1)

theorem rel_send_command_4bit (h : WireRel Pre Tgt R) (s : State) (c : Nat) (hp : Pre s) :
    R s (send_command_4bit s c) := by
  have hw : 4 ≤ dataWidth s.dev.bit_mode := by cases s.dev.bit_mode <;> decide
  rw [send_command_4bit_eq]
  have r1 := rel_send_bits h c 4 s 7 hw hp
  have p1 := h.pre _ _ hp r1
  have r2 := h.pulse _ p1
  have p2 := h.pre _ _ p1 r2
  have hd2 : (send_data_pulse ((List.range 4).foldl (send_bit_step c) (s, 7)).1).dev = s.dev := by
    rw [send_data_pulse_dev, send_bits_dev]
  have r3 := rel_send_bits h c 4 _ ((List.range 4).foldl (send_bit_step c) (s, 7)).2
    (by rw [hd2]; exact hw) p2
  have p3 := h.pre _ _ p2 r3
  have r4 := h.pulse _ p3
  exact h.trans _ _ _ (h.trans _ _ _ (h.trans _ _ _ r1 r2) r3) r4

theorem rel_send_command_8bit (h : WireRel Pre Tgt R) (s : State) (c : Nat) (hp : Pre s)
    (hm : s.dev.bit_mode = EIGHT) : R s (send_command_8bit s c) := by
  rw [send_command_8bit_eq]
  have r1 := rel_send_bits h c 7 s 7 (by rw [hm]; decide) hp
  exact h.trans _ _ _ r1 (h.pulse _ (h.pre _ _ hp r1))

theorem rel_send_prelude (h : WireRel Pre Tgt R) (s : State) (rs rw c : Nat) (hp : Pre s)
    (hrs : rs ≤ 1) (hrw : rw ≤ 1) : R s (send_prelude s rs rw c) := by
  have r0 := h.log s ⟨rs, rw, c⟩
  have p0 := h.pre _ _ hp r0
  have r1 := h.clear _ (rsLine s.dev) p0 (h.tgt_rs _ p0)
  have p1 := h.pre _ _ p0 r1
  have r2 := h.or_ _ (rsLine s.dev) rs p1 (h.tgt_rs _ p1) hrs
  have p2 := h.pre _ _ p1 r2
  have r3 := h.clear _ (rwLine s.dev) p2 (h.tgt_rw _ p2)
  have p3 := h.pre _ _ p2 r3
  have r4 := h.or_ _ (rwLine s.dev) rw p3 (h.tgt_rw _ p3) hrw
  exact h.trans _ _ _ (h.trans _ _ _ (h.trans _ _ _ (h.trans _ _ _ r0 r1) r2) r3) r4

theorem rel_lcd_send_command (h : WireRel Pre Tgt R) (s : State) (rs rw c : Nat) (hp : Pre s)
    (hrs : rs ≤ 1) (hrw : rw ≤ 1) : R s (lcd_send_command s rs rw c) := by
  have r0 := rel_send_prelude h s rs rw c hp hrs hrw
  have p0 := h.pre _ _ hp r0
  cases hm : s.dev.bit_mode
  · rw [lcd_send_command_four s rs rw c hm]
    exact h.trans _ _ _ r0 (rel_send_command_4bit h _ c p0)
  · rw [lcd_send_command_eight s rs rw c hm]
    exact h.trans _ _ _ r0 (rel_send_command_8bit h _ c p0 hm)

end Lift

section LiftOps

variable {Pre : State → Prop} {Tgt : State → Line → Prop} {R : State → State → Prop}

theorem four_le_dataWidth (m : lcd_bit_mode) : 4 ≤ dataWidth m := by
  cases m <;> decide

theorem rel_reset_prelude (h : WireRel Pre Tgt R) (s : State) (hp : Pre s) :
    R s (reset_prelude s) := by
  have hw := four_le_dataWidth s.dev.bit_mode
  have h0 : (0 : Fin 8).val < dataWidth s.dev.bit_mode := by show 0 < _; omega
  have h1 : (1 : Fin 8).val < dataWidth s.dev.bit_mode := by show 1 < _; omega
  have h2 : (2 : Fin 8).val < dataWidth s.dev.bit_mode := by show 2 < _; omega
  have h3 : (3 : Fin 8).val < dataWidth s.dev.bit_mode := by show 3 < _; omega
  have r1 := h.clear s (rsLine s.dev) hp (h.tgt_rs s hp)
  have p1 := h.pre _ _ hp r1
  have r2 := h.clear _ (dataLine s.dev 0) p1 (h.tgt_data _ 0 p1 h0)
  have p2 := h.pre _ _ p1 r2
  have r3 := h.clear _ (dataLine s.dev 1) p2 (h.tgt_data _ 1 p2 h1)
  have p3 := h.pre _ _ p2 r3
  have r4 := h.or_ _ (dataLine s.dev 2) 1 p3 (h.tgt_data _ 2 p3 h2)
    (by omega)
  have p4 := h.pre _ _ p3 r4
  have r5 := h.or_ _ (dataLine s.dev 3) 1 p4 (h.tgt_data _ 3 p4 h3)
    (by omega)
  exact h.trans _ _ _ (h.trans _ _ _ (h.trans _ _ _ (h.trans _ _ _ r1 r2) r3) r4) r5

theorem rel_enable_prelude (h : WireRel Pre Tgt R) (s : State) (hp : Pre s) :
    R s (enable_prelude s) := by
  have hw := four_le_dataWidth s.dev.bit_mode
  have h0 : (0 : Fin 8).val < dataWidth s.dev.bit_mode := by show 0 < _; omega
  have h1 : (1 : Fin 8).val < dataWidth s.dev.bit_mode := by show 1 < _; omega
  have h2 : (2 : Fin 8).val < dataWidth s.dev.bit_mode := by show 2 < _; omega
  have h3 : (3 : Fin 8).val < dataWidth s.dev.bit_mode := by show 3 < _; omega
  have r1 := h.clear s (rsLine s.dev) hp (h.tgt_rs s hp)
  have p1 := h.pre _ _ hp r1
  have r2 := h.clear _ (dataLine s.dev 0) p1 (h.tgt_data _ 0 p1 h0)
  have p2 := h.pre _ _ p1 r2
  have r3 := h.clear _ (dataLine s.dev 1) p2 (h.tgt_data _ 1 p2 h1)
  have p3 := h.pre _ _ p2 r3
  have r4 := h.or_ _ (dataLine s.dev 2) 1 p3 (h.tgt_data _ 2 p3 h2)
    (by omega)
  have p4 := h.pre _ _ p3 r4
  have r5 := h.clear _ (dataLine s.dev 3) p4 (h.tgt_data _ 3 p4 h3)
  exact h.trans _ _ _ (h.trans _ _ _ (h.trans _ _ _ (h.trans _ _ _ r1 r2) r3) r4) r5

theorem rel_lcd_reset (h : WireRel Pre Tgt R) (s : State) (hp : Pre s) : R s (lcd_reset s) := by
  rw [lcd_reset_eq]
  have r0 := rel_reset_prelude h s hp
  have p0 := h.pre _ _ hp r0
  have r1 := h.pulse _ p0
  have p1 := h.pre _ _ p0 r1
  have r2 := h.pulse _ p1
  have p2 := h.pre _ _ p1 r2
  have r3 := h.pulse _ p2
  exact h.trans _ _ _ (h.trans _ _ _ (h.trans _ _ _ r0 r1) r2) r3

theorem rel_lcd_enable_4bit_mode (h : WireRel Pre Tgt R) (s : State) (hp : Pre s) :
    R s (lcd_enable_4bit_mode s) := by
  rw [lcd_enable_4bit_mode_eq]
  have r0 := rel_enable_prelude h s hp
  exact h.trans _ _ _ r0 (h.pulse _ (h.pre _ _ hp r0))

theorem rel_instr (h : WireRel Pre Tgt R) (s : State) (c : Nat) (hp : Pre s) :
    R s (lcd_send_command s 0 0 c) :=
  rel_lcd_send_command h s 0 0 c hp (by omega) (by omega)

theorem rel_lcd_write_char (h : WireRel Pre Tgt R) (s : State) (c : Nat) (hp : Pre s) :
    R s (lcd_write_char s c) :=
  rel_lcd_send_command h s 1 0 c hp (by omega) (by omega)

theorem rel_lcd_set_cursor (h : WireRel Pre Tgt R) (s : State) (row column : Nat)
    (hp : Pre s) : R s (lcd_set_cursor s row column) := by
  have r0 := h.cursor s row column
  have p0 := h.pre _ _ hp r0
  exact h.trans _ _ _ r0 (rel_instr h (with_cursor s row column) _ p0)

theorem rel_spaces (h : WireRel Pre Tgt R) (n : Nat) (s : State) (hp : Pre s) :
    R s ((List.range n).foldl (fun st _ => lcd_write_char st 0x20) s) := by
  induction n with
  | zero => exact h.refl s
  | succ n ih =>
    rw [foldl_range_succ]
    exact h.trans _ _ _ ih (rel_lcd_write_char h _ _ (h.pre _ _ hp ih))

theorem rel_lcd_clear_row (h : WireRel Pre Tgt R) (s : State) (row : Nat) (hp : Pre s) :
    R s (lcd_clear_row s row) := by
  rw [lcd_clear_row_eq]
  have r0 := h.cursor s s.dev.row 0
  have p0 := h.pre _ _ hp r0
  have r1 := rel_lcd_set_cursor h _ row 0 p0
  have p1 := h.pre _ _ p0 r1
  have r2 := rel_spaces h 15 _ p1
  have p2 := h.pre _ _ p1 r2
  have r3 := rel_lcd_set_cursor h _ row 0 p2
  exact h.trans _ _ _ (h.trans _ _ _ (h.trans _ _ _ r0 r1) r2) r3

theorem rel_lcd_clear_char (h : WireRel Pre Tgt R) (s : State) (row column : Nat)
    (hp : Pre s) : R s (lcd_clear_char s row column) := by
  rw [lcd_clear_char_eq]
  have r0 := h.cursor s row column
  have p0 := h.pre _ _ hp r0
  have r1 := rel_lcd_set_cursor h _ row column p0
  have p1 := h.pre _ _ p0 r1
  have r2 := rel_lcd_write_char h _ 0x20 p1
  have p2 := h.pre _ _ p1 r2
  have r3 := rel_lcd_set_cursor h _ row column p2
  exact h.trans _ _ _ (h.trans _ _ _ (h.trans _ _ _ r0 r1) r2) r3

theorem rel_lcd_backspace (h : WireRel Pre Tgt R) (s : State) (hp : Pre s) :
    R s (lcd_backspace s) := by
  by_cases h0 : s.dev.column = 0
  · rw [lcd_backspace_zero s h0]; exact h.refl s
  · rw [lcd_backspace_pos s h0]
    have r0 := h.cursor s s.dev.row ((s.dev.column + (2 ^ 8 - 1)) % 2 ^ 8)
    have p0 := h.pre _ _ hp r0
    have r1 := rel_lcd_write_char h _ 0x20 p0
    have p1 := h.pre _ _ p0 r1
    have r2 := rel_lcd_set_cursor h _ s.dev.row ((s.dev.column + (2 ^ 8 - 1)) % 2 ^ 8) p1
    exact h.trans _ _ _ (h.trans _ _ _ r0 r1) r2

theorem rel_write_string_loop (h : WireRel Pre Tgt R) (str : List Nat) (fuel : Nat) :
    ∀ (i : Nat) (s : State), Pre s → strlen str - i < fuel →
      ∃ s' : State, lcd_write_string_loop str fuel i s = some s' ∧ R s s' := by
  induction fuel with
  | zero => intro i s _ hf; omega
  | succ fuel ih =>
    intro i s hp hf
    unfold lcd_write_string_loop
    by_cases hlt : i < strlen str
    · rw [if_pos hlt]
      have r1 := rel_lcd_write_char h s (str.getD i 0) hp
      obtain ⟨s', h1, h2⟩ := ih (i + 1) _ (h.pre _ _ hp r1) (by omega)
      exact ⟨s', h1, h.trans _ _ _ r1 h2⟩
    · rw [if_neg hlt]
      exact ⟨s, rfl, h.refl s⟩

theorem rel_clear_section_loop (h : WireRel Pre Tgt R) (e : Nat) (he : e ≤ 254) (fuel : Nat) :
    ∀ (i : Nat) (s : State), Pre s → 1 ≤ fuel → e + 2 - i ≤ fuel →
      ∃ s' : State, lcd_clear_section_loop e fuel i s = some s' ∧ R s s' := by
  induction fuel with
  | zero => intro i s _ hf1 _; omega
  | succ fuel ih =>
    intro i s hp _ hf
    unfold lcd_clear_section_loop
    by_cases hle : i ≤ e
    · rw [if_pos hle]
      have hi1 : (i + 1) % 2 ^ 8 = i + 1 := by
        norm_num
        omega
      rw [hi1]
      have r1 := rel_lcd_write_char h s 0x20 hp
      obtain ⟨s', h1, h2⟩ := ih (i + 1) _ (h.pre _ _ hp r1) (by omega) (by omega)
      exact ⟨s', h1, h.trans _ _ _ r1 h2⟩
    · rw [if_neg hle]
      exact ⟨s, rfl, h.refl s⟩

theorem rel_lcd_clear_section (h : WireRel Pre Tgt R) (fuel : Nat) (s : State)
    (row b e : Nat) (hp : Pre s) (he : e ≤ 254) (hf1 : 1 ≤ fuel) (hf : e + 2 - b ≤ fuel) :
    ∃ s' : State, lcd_clear_section fuel s row b e = some s' ∧ R s s' := by
  rw [lcd_clear_section_eq]
  have r0 := h.cursor s s.dev.row b
  have p0 := h.pre _ _ hp r0
  have r1 := rel_lcd_set_cursor h _ row b p0
  have p1 := h.pre _ _ p0 r1
  obtain ⟨s1, h1, r2⟩ := rel_clear_section_loop h e he fuel b _ p1 hf1 hf
  rw [h1]
  have p2 := h.pre _ _ p1 r2
  have r3 := rel_lcd_set_cursor h s1 row b p2
  exact ⟨_, rfl, h.trans _ _ _ (h.trans _ _ _ (h.trans _ _ _ r0 r1) r2) r3⟩

end LiftOps

/-! ## Port frame (C18) -/

theorem busLines_congr {d d' : lcd} (h : lineCfg d' = lineCfg d) : busLines d' = busLines d := by
  have h2 : busLines (lineCfg d') = busLines (lineCfg d) := congrArg busLines h
  exact h2

theorem eLine_congr {d d' : lcd} (h : lineCfg d' = lineCfg d) : eLine d' = eLine d := by
  have h2 : eLine (lineCfg d') = eLine (lineCfg d) := congrArg eLine h
  exact h2

theorem line_eta (t : Line) : (⟨t.port, t.pin⟩ : Line) = t := by
  cases t; rfl

theorem rs_mem_busLines (d : lcd) : rsLine d ∈ busLines d := by
  simp [busLines, sessionLines]

theorem rw_mem_busLines (d : lcd) : rwLine d ∈ busLines d := by
  simp [busLines, sessionLines]

theorem e_mem_busLines (d : lcd) : eLine d ∈ busLines d := by
  simp [busLines, sessionLines]

theorem portFrame_wireRel :
    WireRel (fun _ => True) (fun s t => t ∈ busLines s.dev) PortFrame where
  refl := fun s => ⟨rfl, fun _ _ _ => rfl⟩
  trans := fun a b c h1 h2 =>
    ⟨h2.1.trans h1.1, fun l hl hn =>
      (h2.2 l hl (by rw [busLines_congr h1.1]; exact hn)).trans (h1.2 l hl hn)⟩
  pre := fun _ _ _ _ => trivial
  cursor := fun s row column => ⟨rfl, fun _ _ _ => rfl⟩
  log := fun s cmd => ⟨rfl, fun _ _ _ => rfl⟩
  clear := fun s t _ ht => ⟨rfl, fun l hl hn => by
    have hne : ¬ l = ⟨t.port, t.pin⟩ := by
      rw [line_eta]
      intro h
      exact hn (h ▸ ht)
    rw [level_odr_clear s t.port t.pin l hl, decide_eq_false hne]
    simp⟩
  or_ := fun s t v _ ht hv => ⟨rfl, fun l hl hn => by
    have hne : ¬ l = ⟨t.port, t.pin⟩ := by
      rw [line_eta]
      intro h
      exact hn (h ▸ ht)
    rw [level_odr_or_le_one s t.port t.pin v l hl hv, decide_eq_false hne]
    simp⟩
  pulse := fun s _ => ⟨rfl, fun l hl hn => by
    have hne : ¬ l = eLine s.dev := fun h => hn (h ▸ e_mem_busLines s.dev)
    rw [level_send_data_pulse s l hl, decide_eq_false hne]
    simp⟩
  tgt_rs := fun s _ => rs_mem_busLines s.dev
  tgt_rw := fun s _ => rw_mem_busLines s.dev
  tgt_data := fun s i _ hi => dataLine_mem_sessionLines s.dev _ i hi

theorem allOps_of_wireRel {Pre : State → Prop} {Tgt : State → Line → Prop}
    {R : State → State → Prop} (h : WireRel Pre Tgt R) (s : State) (hp : Pre s)
    (rs rw cmd c row column b e fuel : Nat) (str : List Nat)
    (hrs : rs ≤ 1) (hrw : rw ≤ 1) (he : e ≤ 254) (hf1 : 1 ≤ fuel) (hfe : e + 2 - b ≤ fuel)
    (hfs : strlen str < fuel) :
    AllOps R s rs rw cmd c row column b e fuel str :=
  ⟨rel_lcd_send_command h s rs rw cmd hp hrs hrw,
   rel_lcd_reset h s hp,
   rel_lcd_enable_4bit_mode h s hp,
   rel_instr h s _ hp, rel_instr h s _ hp, rel_instr h s _ hp,
   rel_lcd_write_char h s c hp,
   rel_write_string_loop h str fuel 0 s hp (by omega),
   rel_instr h s _ hp, rel_instr h s _ hp,
   rel_lcd_set_cursor h s row column hp,
   rel_lcd_backspace h s hp,
   rel_lcd_clear_char h s row column hp,
   rel_lcd_clear_row h s row hp,
   rel_lcd_clear_section h fuel s row b e hp he hf1 hfe⟩

theorem allOps_mono {R R' : State → State → Prop} {s : State}
    {rs rw cmd c row column b e fuel : Nat} {str : List Nat}
    (h : AllOps R s rs rw cmd c row column b e fuel str) (hm : ∀ s', R s s' → R' s s') :
    AllOps R' s rs rw cmd c row column b e fuel str := by
  obtain ⟨a1, a2, a3, a4, a5, a6, a7, ⟨x, hx, a8⟩, a9, a10, a11, a12, a13, a14, ⟨y, hy, a15⟩⟩ := h
  exact ⟨hm _ a1, hm _ a2, hm _ a3, hm _ a4, hm _ a5, hm _ a6, hm _ a7, ⟨x, hx, hm _ a8⟩,
    hm _ a9, hm _ a10, hm _ a11, hm _ a12, hm _ a13, hm _ a14, ⟨y, hy, hm _ a15⟩⟩

/-- C18: for every operation of commands.c, called with rs and rw values in
{0,1} (and, for the two operations with data-dependent loops, fuel for their
loop tests), every output register bit of every port that is not the
session's RS, RW or E line or one of its data lines (the first 4 in FOUR mode,
the first 8 in EIGHT mode) has the same value after the operation as before. -/
theorem port_frame (s : State) (rs rw cmd c row column b e fuel : Nat) (str : List Nat)
    (hrs : rs ≤ 1) (hrw : rw ≤ 1) (he : e ≤ 254) (hf1 : 1 ≤ fuel) (hfe : e + 2 - b ≤ fuel)
    (hfs : strlen str < fuel) :
    AllOps PortFrame s rs rw cmd c row column b e fuel str :=
  allOps_of_wireRel portFrame_wireRel s trivial rs rw cmd c row column b e fuel str
    hrs hrw he hf1 hfe hfs

/-- Witness for C18: the 8-line session `dev8`, section 3..7, string "Hi". -/
theorem port_frame_witness :
    AllOps PortFrame (idle dev8) 1 0 0xA5 65 1 5 3 7 6 [72, 105, 0] :=
  port_frame (idle dev8) 1 0 0xA5 65 1 5 3 7 6 [72, 105, 0] (by decide) (by decide)
    (by decide) (by decide) (by decide) (by decide)

/-! ## Strobe discipline (C17) -/

theorem disciplined_cons_cons (e : Line) (w w' : OdrStore) (rest : List OdrStore) :
    Disciplined e (w :: w' :: rest) ↔
      ((level w.before e = false ∧ level w.after e = false ∧ Disciplined e (w' :: rest)) ∨
       (level w.before e = false ∧ level w.after e = true ∧ OnlyLine e w ∧
        level w'.before e = true ∧ level w'.after e = false ∧ OnlyLine e w' ∧
        Disciplined e rest)) := by
  rw [Disciplined]

theorem disciplined_singleton (e : Line) (w : OdrStore) :
    Disciplined e [w] ↔ (level w.before e = false ∧ level w.after e = false) := by
  rw [Disciplined]

theorem disciplined_nil (e : Line) : Disciplined e [] := by
  rw [Disciplined]
  trivial

theorem disciplined_cons_quiet (e : Line) (w : OdrStore) (b : List OdrStore)
    (h1 : level w.before e = false) (h2 : level w.after e = false) (hb : Disciplined e b) :
    Disciplined e (w :: b) := by
  cases b with
  | nil => exact (disciplined_singleton e w).2 ⟨h1, h2⟩
  | cons w' rest => exact (disciplined_cons_cons e w w' rest).2 (Or.inl ⟨h1, h2, hb⟩)

theorem disciplined_append (e : Line) (n : Nat) :
    ∀ a b : List OdrStore, a.length ≤ n → Disciplined e a → Disciplined e b →
      Disciplined e (a ++ b) := by
  induction n with
  | zero =>
    intro a b hl _ hb
    have : a = [] := List.length_eq_zero.1 (by omega)
    subst this
    exact hb
  | succ n ih =>
    intro a b hl ha hb
    match a, hl, ha with
    | [], _, _ => exact hb
    | [w], _, ha =>
      have h := (disciplined_singleton e w).1 ha
      exact disciplined_cons_quiet e w b h.1 h.2 hb
    | w :: w' :: rest, hl, ha =>
      rcases (disciplined_cons_cons e w w' rest).1 ha with h | h
      · have hl' : (w' :: rest).length ≤ n := by
          simp only [List.length_cons] at hl ⊢
          omega
        exact disciplined_cons_quiet e w _ h.1 h.2.1 (ih (w' :: rest) b hl' h.2.2 hb)
      · have hl' : rest.length ≤ n := by
          simp only [List.length_cons] at hl
          omega
        have hr := ih rest b hl' h.2.2.2.2.2.2 hb
        show Disciplined e (w :: w' :: (rest ++ b))
        exact (disciplined_cons_cons e w w' (rest ++ b)).2
          (Or.inr ⟨h.1, h.2.1, h.2.2.1, h.2.2.2.1, h.2.2.2.2.1, h.2.2.2.2.2.1, hr⟩)

theorem strobeFree_congr {d d' : lcd} (h : lineCfg d' = lineCfg d) (hw : StrobeFree d) :
    StrobeFree d' := by
  have h1 : StrobeFree (lineCfg d') = StrobeFree (lineCfg d) := congrArg StrobeFree h
  have h2 : StrobeFree (lineCfg d) := hw
  rw [← h1] at h2
  exact h2

theorem strobeStep_store (s : State) (p : Port) (v : Nat)
    (hq : level s.ODR (eLine s.dev) = false →
      level (store_ODR s p v).ODR (eLine s.dev) = false) :
    StrobeStep s (store_ODR s p v) := by
  refine ⟨rfl, fun h0 => ⟨[⟨s.ODR, p, v⟩], rfl, ?_, hq h0⟩⟩
  exact (disciplined_singleton _ _).2 ⟨h0, hq h0⟩

theorem strobeStep_wireRel :
    WireRel (fun s => StrobeFree s.dev) (fun s t => t ≠ eLine s.dev) StrobeStep where
  refl := fun s => ⟨rfl, fun h0 => ⟨[], (List.append_nil _).symm, disciplined_nil _, h0⟩⟩
  trans := fun a b c h1 h2 => ⟨h2.1.trans h1.1, fun h0 => by
    obtain ⟨seg1, w1, d1, l1⟩ := h1.2 h0
    have he : eLine b.dev = eLine a.dev := eLine_congr h1.1
    have h2' := h2.2
    rw [he] at h2'
    obtain ⟨seg2, w2, d2, l2⟩ := h2' l1
    refine ⟨seg1 ++ seg2, ?_, disciplined_append _ seg1.length seg1 seg2 (Nat.le_refl _) d1 d2,
      l2⟩
    rw [w2, w1, List.append_assoc]⟩
  pre := fun s s' hp h => strobeFree_congr h.1 hp
  cursor := fun s row column =>
    ⟨rfl, fun h0 => ⟨[], (List.append_nil _).symm, disciplined_nil _, h0⟩⟩
  log := fun s cmd => ⟨rfl, fun h0 => ⟨[], (List.append_nil _).symm, disciplined_nil _, h0⟩⟩
  clear := fun s t hp ht => strobeStep_store s t.port _ (fun h0 => by
    have he : (eLine s.dev).pin < 32 := by
      have := hp.1
      show s.dev.e_pin < 32
      omega
    have h := level_odr_clear s t.port t.pin (eLine s.dev) he
    unfold odr_clear at h
    rw [h, h0]
    rfl)
  or_ := fun s t v hp ht hv => strobeStep_store s t.port _ (fun h0 => by
    have he : (eLine s.dev).pin < 32 := by
      have := hp.1
      show s.dev.e_pin < 32
      omega
    have hne : ¬ eLine s.dev = ⟨t.port, t.pin⟩ := by
      rw [line_eta]
      exact fun h => ht h.symm
    have h := level_odr_or_le_one s t.port t.pin v (eLine s.dev) he hv
    unfold odr_or at h
    rw [h, h0, decide_eq_false hne]
    rfl)
  pulse := fun s hp => ⟨rfl, fun h0 => by
    have he : (eLine s.dev).pin < 32 := by
      have := hp.1
      show s.dev.e_pin < 32
      omega
    have hhigh : level (strobeSnapshot s) (eLine s.dev) = true := by
      rw [level_strobeSnapshot s _ he]
      simp
    have hlow : level (send_data_pulse s).ODR (eLine s.dev) = false := by
      rw [level_send_data_pulse s _ he]
      simp
    refine ⟨[⟨s.ODR, s.dev.e_port, (s.ODR s.dev.e_port ||| (1 <<< s.dev.e_pin)) % 2 ^ 32⟩,
      ⟨strobeSnapshot s, s.dev.e_port,
        strobeSnapshot s s.dev.e_port &&& not32 (1 <<< s.dev.e_pin)⟩], ?_, ?_, hlow⟩
    · show (s.wire ++ [_]) ++ [_] = _
      rw [List.append_assoc]
      rfl
    refine (disciplined_cons_cons _ _ _ _).2 (Or.inr ⟨h0, hhigh, ?_, hhigh, hlow, ?_,
      disciplined_nil _⟩)
    · intro l hl hne
      show level (strobeSnapshot s) l = level s.ODR l
      rw [level_strobeSnapshot s l hl, decide_eq_false hne, Bool.or_false]
    · intro l hl hne
      show level (send_data_pulse s).ODR l = level (strobeSnapshot s) l
      rw [level_send_data_pulse s l hl, level_strobeSnapshot s l hl, decide_eq_false hne]
      simp⟩
  tgt_rs := fun s hp => hp.2.1
  tgt_rw := fun s hp => hp.2.2.1
  tgt_data := fun s i hp hi => hp.2.2.2 i hi

/-- In a disciplined sequence of stores, a store that begins while `e` is high
is the store that lowers `e`, and it changes no other output bit. -/
theorem disciplined_high_store (e : Line) (n : Nat) :
    ∀ L : List OdrStore, L.length ≤ n → Disciplined e L →
      ∀ w ∈ L, level w.before e = true → level w.after e = false ∧ OnlyLine e w := by
  induction n with
  | zero =>
    intro L hl _ w hw
    have : L = [] := List.length_eq_zero.1 (by omega)
    subst this
    exact absurd hw (List.not_mem_nil w)
  | succ n ih =>
    intro L hl hd w hw hhigh
    match L, hl, hd, hw with
    | [], _, _, hw => exact absurd hw (List.not_mem_nil w)
    | [w0], _, hd, hw =>
      have h := (disciplined_singleton e w0).1 hd
      have : w = w0 := List.mem_singleton.1 hw
      subst this
      rw [h.1] at hhigh
      exact absurd hhigh (by decide)
    | w0 :: w1 :: rest, hl, hd, hw =>
      rcases (disciplined_cons_cons e w0 w1 rest).1 hd with h | h
      · rcases List.mem_cons.1 hw with hw0 | hw'
        · subst hw0
          rw [h.1] at hhigh
          exact absurd hhigh (by decide)
        · have hl' : (w1 :: rest).length ≤ n := by
            simp only [List.length_cons] at hl ⊢
            omega
          exact ih (w1 :: rest) hl' h.2.2 w hw' hhigh
      · rcases List.mem_cons.1 hw with hw0 | hw'
        · subst hw0
          rw [h.1] at hhigh
          exact absurd hhigh (by decide)
        · rcases List.mem_cons.1 hw' with hw1 | hw''
          · subst hw1
            exact ⟨h.2.2.2.2.1, h.2.2.2.2.2.1⟩
          · have hl' : rest.length ≤ n := by
              simp only [List.length_cons] at hl
              omega
            exact ih rest hl' h.2.2.2.2.2.2 w hw'' hhigh

/-- C17 as stated fails: on the session `dev4_rs_below_e`, whose lines are
pairwise distinct (so E is distinct from every data, RS and RW line), with E
low beforehand, `lcd_send_command(2, 0, 0xA5)` raises E with its RS store
(2 << 1 is the E bit) and then writes D7 while E is high: one of its stores
begins with E high and changes D7 from low to high, so its stores do not keep
the strobe discipline. -/
theorem strobe_discipline_fails_for_rs_two :
    WellFormed dev4_rs_below_e 4 ∧ StrobeFree dev4_rs_below_e ∧
    level (idle dev4_rs_below_e).ODR (eLine dev4_rs_below_e) = false ∧
    (∃ w ∈ (lcd_send_command (idle dev4_rs_below_e) 2 0 0xA5).wire,
      level w.before (eLine dev4_rs_below_e) = true ∧
      level w.before (dataLine dev4_rs_below_e 0) = false ∧
      level w.after (dataLine dev4_rs_below_e 0) = true) ∧
    ¬ StrobeRun (idle dev4_rs_below_e) (lcd_send_command (idle dev4_rs_below_e) 2 0 0xA5) := by
  have hex : ∃ w ∈ (lcd_send_command (idle dev4_rs_below_e) 2 0 0xA5).wire,
      level w.before (eLine dev4_rs_below_e) = true ∧
      level w.before (dataLine dev4_rs_below_e 0) = false ∧
      level w.after (dataLine dev4_rs_below_e 0) = true := by decide
  refine ⟨by decide, by decide, by decide, hex, ?_⟩
  obtain ⟨w, hmem, h1, h2, h3⟩ := hex
  rintro ⟨seg, hw, hd, _⟩
  have hw' : (lcd_send_command (idle dev4_rs_below_e) 2 0 0xA5).wire = seg := hw
  rw [← hw'] at hd
  have h := (disciplined_high_store _ _ _ (Nat.le_refl _) hd _ hmem h1).2
    (dataLine dev4_rs_below_e 0) (by decide) (by decide)
  rw [h2, h3] at h
  exact absurd h (by decide)

/-- C17 amended: if the E line is a pin 0..15 distinct from the RS line, the RW
line and every data line of the bus width, and is low when an operation of
commands.c starts, with rs and rw values in {0,1} (and fuel for the two
data-dependent loops), then the stores the operation makes keep the strobe
discipline: every store either happens while E is low and leaves it low, or
raises E and is immediately followed by the store that lowers it, and neither
of these two stores changes any other output bit, so no data, RS or RW level
changes between the rising and the falling edge; and E is low again when the
operation returns. The other lines need not be distinct from each other. -/
theorem strobe_discipline (s : State) (rs rw cmd c row column b e fuel : Nat)
    (str : List Nat) (hfree : StrobeFree s.dev)
    (hlow : level s.ODR (eLine s.dev) = false)
    (hrs : rs ≤ 1) (hrw : rw ≤ 1) (he : e ≤ 254) (hf1 : 1 ≤ fuel) (hfe : e + 2 - b ≤ fuel)
    (hfs : strlen str < fuel) :
    AllOps StrobeRun s rs rw cmd c row column b e fuel str :=
  allOps_mono (allOps_of_wireRel strobeStep_wireRel s hfree rs rw cmd c row column b e fuel str
    hrs hrw he hf1 hfe hfs) (fun _ h => h.2 hlow)

/-- Witness for C17 amended: the session `dev4_rs_below_e` with all output
registers zero, rs = 1, rw = 0, section 3..7, string "Hi". -/
theorem strobe_discipline_witness :
    AllOps StrobeRun (idle dev4_rs_below_e) 1 0 0xA5 65 1 5 3 7 6 [72, 105, 0] :=
  strobe_discipline (idle dev4_rs_below_e) 1 0 0xA5 65 1 5 3 7 6 [72, 105, 0] (by decide)
    (by decide) (by decide) (by decide) (by decide) (by decide) (by decide) (by decide)

end HD44780
